import Mathlib

/-!
Work-order ledger of the auto-service backend.

A shallow embedding of the work-order code of the backend:

* `routes/workOrders.routes.js`   (the handlers mounted under `/api` by `app.js`), namespace `Routes`;
* `controllers/workOrders.controller.js`, namespace `Controller`;
* `repositories/workOrders.repo.js`, namespace `Repo`;
* the print calculations of `frontend/src/App.jsx`, namespace `Frontend`.

The relational store behind `pool.query` is a record of row lists; every SQL statement of the
sources is a function on that record.  Request values are JavaScript values.
-/

namespace Autoservice

/-! ## JavaScript values -/

/-- A JavaScript Number.  A finite number is represented by its exact value; rounding to
binary64 is not modelled. -/
inductive JsNumber where
  | finite (q : ℚ)
  | nan
  | posInf
  | negInf
deriving DecidableEq

/-- A value found in a request: a field of the parsed JSON body, a path parameter (always a
string) or `undefined` for an absent field.  An array or object is represented by the results
of the three conversions the code can apply to it: `Number(x)`, `x.toString()` and the text
node-postgres sends for it as a query parameter. -/
inductive JsValue where
  | undefined
  | null
  | bool (b : Bool)
  | number (n : JsNumber)
  | string (s : String)
  | object (toNumber : JsNumber) (toStr : String) (pgText : String)
deriving DecidableEq

/-- The conversions between strings and numbers of the JavaScript runtime
(`StringToNumber`, `Number::toString`).  They are not code of the repository and are taken as
a parameter. -/
structure JsRuntime where
  stringToNumber : String → JsNumber
  numberToString : JsNumber → String

namespace JsNumber

/-- The test `Number.isInteger(n)`. -/
def isInteger : JsNumber → Bool
  | finite q => q.isInt
  | _ => false

/-- The test `Number.isFinite(n)`. -/
def isFinite : JsNumber → Bool
  | finite _ => true
  | _ => false

/-- The comparison `n > 0`. -/
def gtZero : JsNumber → Bool
  | finite q => decide (0 < q)
  | posInf => true
  | _ => false

/-- The comparison `n >= 0`. -/
def geZero : JsNumber → Bool
  | finite q => decide (0 ≤ q)
  | posInf => true
  | _ => false

/-- The comparison `n <= 0`. -/
def leZero : JsNumber → Bool
  | finite q => decide (q ≤ 0)
  | negInf => true
  | _ => false

end JsNumber

namespace JsValue

/-- The conversion `Number(x)`. -/
def toNumber (rt : JsRuntime) : JsValue → JsNumber
  | undefined => .nan
  | null => .finite 0
  | bool b => .finite (if b then 1 else 0)
  | number n => n
  | string s => rt.stringToNumber s
  | object n _ _ => n

/-- Truthiness: `!x` is the negation of `truthy x`. -/
def truthy : JsValue → Bool
  | undefined => false
  | null => false
  | bool b => b
  | number (.finite q) => decide (q ≠ 0)
  | number .nan => false
  | number _ => true
  | string s => decide (s ≠ "")
  | object _ _ _ => true

/-- The test `x === undefined || x === null`. -/
def isNullish : JsValue → Bool
  | undefined => true
  | null => true
  | _ => false

/-- The nullish coalescing `x ?? y`. -/
def orElse (x y : JsValue) : JsValue :=
  if x.isNullish then y else x

/-- The disjunction `x || y`. -/
def or (x y : JsValue) : JsValue :=
  if x.truthy then x else y

/-- The call `x.toString()`, for a value that is neither `undefined` nor `null`. -/
def toText (rt : JsRuntime) : JsValue → String
  | undefined => "undefined"
  | null => "null"
  | bool b => if b then "true" else "false"
  | number n => rt.numberToString n
  | string s => s
  | object _ t _ => t

/-- The text node-postgres sends for a query parameter; `none` is SQL `NULL`. -/
def pgParam (rt : JsRuntime) : JsValue → Option String
  | undefined => none
  | null => none
  | bool b => some (if b then "true" else "false")
  | number n => some (rt.numberToString n)
  | string s => some s
  | object _ _ t => some t

end JsValue

/-- The white space and line terminator code points removed by `String.prototype.trim`. -/
def isJsWhiteSpace (c : Char) : Bool :=
  c.toNat ∈ [0x09, 0x0A, 0x0B, 0x0C, 0x0D, 0x20, 0xA0, 0x1680, 0x2028, 0x2029, 0x202F, 0x205F,
    0x3000, 0xFEFF] || (0x2000 ≤ c.toNat && c.toNat ≤ 0x200A)

/-- The method `String.prototype.trim`. -/
def jsTrim (s : String) : String :=
  String.mk ((s.data.dropWhile isJsWhiteSpace).reverse.dropWhile isJsWhiteSpace).reverse

/-- An HTTP request as a handler sees it: `req.params.id` and the fields of `req.body`, the
object that `express.json()` parsed. -/
structure Request where
  id : String
  body : List (String × JsValue)

/-- The access `req.body?.k`: `undefined` when the field is absent. -/
def Request.field (req : Request) (k : String) : JsValue :=
  (req.body.lookup k).getD .undefined

/-! ## The store -/

/-- A row of `bookings`, with the columns the work-order code reads. -/
structure Booking where
  id : Nat
  client_id : Nat
  car_id : Nat
deriving DecidableEq

/-- A row of `work_orders`. -/
structure WorkOrder where
  id : Nat
  booking_id : Nat
  client_id : Nat
  car_id : Nat
  description : Option String
  status : String
  total_amount : ℚ
  paid_amount : ℚ
  is_archived : Bool
  created_at : Nat
  updated_at : Nat
deriving DecidableEq

/-- A row of `work_items`. -/
structure WorkItem where
  id : Nat
  work_order_id : Nat
  name : String
  qty : ℚ
  unit_price : ℚ
deriving DecidableEq

/-- A row of `material_items`. -/
structure MaterialItem where
  id : Nat
  work_order_id : Nat
  material_id : Option Nat
  name : String
  qty : ℚ
  unit_price : ℚ
deriving DecidableEq

/-- A row of `payments`. -/
structure Payment where
  id : Nat
  work_order_id : Nat
  amount : ℚ
  method : String
  status : String
  paid_at : Option Nat
  created_at : Nat
deriving DecidableEq

/-- A row of `audit_log`; `details` is the object that the code serialises to JSON. -/
structure AuditEntry where
  id : Nat
  entity : String
  entity_id : Nat
  action : String
  details : List (String × JsValue)
  created_at : Nat
deriving DecidableEq

/-- The relational store: the six tables the work-order code touches and the next value of
the id sequence of each table it inserts into. -/
structure Store where
  bookings : List Booking
  work_orders : List WorkOrder
  work_items : List WorkItem
  material_items : List MaterialItem
  payments : List Payment
  audit_log : List AuditEntry
  seq_work_orders : Nat
  seq_work_items : Nat
  seq_material_items : Nat
  seq_payments : Nat
  seq_audit_log : Nat
deriving DecidableEq

/-- The constraints of the relational schema that the sources do not show (the DDL is not part
of the source tree): whether the item and payment tables carry a foreign key to `work_orders`,
whether `work_orders.status` is restricted by a CHECK to the six statuses, and whether
`payments.method` is restricted by a CHECK to cash, card and transfer. -/
structure Schema where
  work_order_fk : Bool
  status_check : Bool
  method_check : Bool
deriving DecidableEq

/-- An error raised by `pool.query`, with its SQLSTATE in `code`. -/
structure DbError where
  code : String
deriving DecidableEq

/-- The SQL aggregate `SUM`: `NULL` over no rows. -/
def sqlSum : List ℚ → Option ℚ
  | [] => none
  | x :: xs => some (x + (sqlSum xs).getD 0)

/-- The SQL function `COALESCE(x, d)`. -/
def coalesce (x : Option ℚ) (d : ℚ) : ℚ :=
  match x with
  | some v => v
  | none => d

/-- The subquery `SELECT SUM(qty * unit_price) FROM work_items WHERE work_order_id = $1`. -/
def sumWorkItems (s : Store) (work_order_id : Nat) : Option ℚ :=
  sqlSum ((s.work_items.filter (fun i => decide (i.work_order_id = work_order_id))).map
    (fun i => i.qty * i.unit_price))

/-- The subquery `SELECT SUM(qty * unit_price) FROM material_items WHERE work_order_id = $1`. -/
def sumMaterialItems (s : Store) (work_order_id : Nat) : Option ℚ :=
  sqlSum ((s.material_items.filter (fun i => decide (i.work_order_id = work_order_id))).map
    (fun i => i.qty * i.unit_price))

/-- The subquery `SELECT SUM(amount) FROM payments WHERE work_order_id = $1 AND status = 'paid'`. -/
def sumPaidPayments (s : Store) (work_order_id : Nat) : Option ℚ :=
  sqlSum ((s.payments.filter
    (fun p => decide (p.work_order_id = work_order_id) && decide (p.status = "paid"))).map
    (fun p => p.amount))

/-- The columns returned by the UPDATE of `repo.recalcTotals`. -/
structure TotalsRow where
  id : Nat
  total_amount : ℚ
  paid_amount : ℚ
  status : String
  updated_at : Nat
deriving DecidableEq

/-- The values admitted for `work_orders.status` when the schema restricts the column. -/
def statusValues : List String :=
  ["created", "in_progress", "waiting_approval", "ready", "closed", "cancelled"]

/-- The values admitted for `payments.method` when the schema restricts the column. -/
def methodValues : List String :=
  ["cash", "card", "transfer"]

/-- A work item as `GET /work-orders/:id/full` returns it: the routes file adds the column
`price = qty * unit_price`, the repository does not. -/
structure WorkItemView where
  row : WorkItem
  price : Option ℚ
deriving DecidableEq

/-- A material item as `GET /work-orders/:id/full` returns it. -/
structure MaterialItemView where
  row : MaterialItem
  price : Option ℚ
deriving DecidableEq

/-- The aggregate returned by `GET /work-orders/:id/full`. -/
structure FullAggregate where
  work_order : WorkOrder
  work_items : List WorkItemView
  material_items : List MaterialItemView
  payments : List Payment
  audit_log : List AuditEntry
deriving DecidableEq

/-- The body of an HTTP response. -/
inductive Body where
  | error (message : String)
  | workOrder (row : WorkOrder)
  | statusRow (id : Nat) (status : String) (updated_at : Nat)
  | workItem (row : WorkItem)
  | materialItem (row : MaterialItem)
  | payment (row : Payment)
  | workItemTotals (item : WorkItem) (totals : Option TotalsRow)
  | materialItemTotals (item : MaterialItem) (totals : Option TotalsRow)
  | paymentWorkOrder (payment : Payment) (work_order : Option WorkOrder)
  | full (aggregate : FullAggregate)
deriving DecidableEq

/-- An HTTP response: status code and body. -/
structure Response where
  status : Nat
  body : Body
deriving DecidableEq

/-- The store statements of the routes file and the functions of the repository, as they
appear in the record of what a handler called. -/
inductive Call where
  | selectWorkOrderByBooking
  | selectBooking
  | insertWorkOrder
  | insertAudit
  | updateStatus
  | insertWorkItem
  | insertMaterialItem
  | insertPayment
  | recalcTotal
  | recalcPaid
  | createWorkOrderFromBooking
  | createAudit
  | updateWorkOrderStatus
  | getWorkOrderById
  | addWorkItem
  | addMaterialItem
  | addPayment
  | recalcTotals
deriving DecidableEq

/-- What a handler call leaves behind: the store, the response sent, and the store statements
(routes) or repository functions (controller) it called, in order. -/
structure Outcome where
  store : Store
  response : Response
  calls : List Call

/-- The response of `errorHandler` to an error that is not an `AppError`. -/
def internalError : Response :=
  { status := 500, body := .error "Internal Server Error" }

namespace Db

/-- The statement `INSERT INTO audit_log(entity, entity_id, action, details) VALUES (...)`. -/
def insertAudit (now : Nat) (entity : String) (entity_id : Nat) (action : String)
    (details : List (String × JsValue)) (s : Store) : Store :=
  let row : AuditEntry :=
    { id := s.seq_audit_log, entity := entity, entity_id := entity_id, action := action,
      details := details, created_at := now }
  { s with audit_log := s.audit_log ++ [row], seq_audit_log := s.seq_audit_log + 1 }

/-- Modelled from the spec: the column defaults and the uniqueness constraint of
`work_orders`, whose DDL is missing from the sources.  An INSERT into `work_orders` gives the
row the next id of the sequence, `is_archived = FALSE` and the current time; it fails with
SQLSTATE 23505 when a work order already references the booking (the sequence value is
consumed all the same). -/
def insertWorkOrder (now booking_id client_id car_id : Nat) (description : Option String)
    (status : String) (total_amount paid_amount : ℚ) (s : Store) :
    Store × Except DbError WorkOrder :=
  if s.work_orders.any (fun w => decide (w.booking_id = booking_id)) then
    ({ s with seq_work_orders := s.seq_work_orders + 1 }, .error { code := "23505" })
  else
    let row : WorkOrder :=
      { id := s.seq_work_orders, booking_id := booking_id, client_id := client_id,
        car_id := car_id, description := description, status := status,
        total_amount := total_amount, paid_amount := paid_amount, is_archived := false,
        created_at := now, updated_at := now }
    ({ s with work_orders := s.work_orders ++ [row], seq_work_orders := s.seq_work_orders + 1 },
      .ok row)

/-- The foreign key of an item or payment row: violated when the schema has it and no work
order has the id. -/
def fkViolated (sch : Schema) (work_order_id : Nat) (s : Store) : Bool :=
  sch.work_order_fk && !s.work_orders.any (fun w => decide (w.id = work_order_id))

/-- The statement `INSERT INTO work_items (work_order_id, name, qty, unit_price) VALUES (...)
RETURNING ...`; SQLSTATE 23503 on a foreign-key violation. -/
def insertWorkItem (sch : Schema) (work_order_id : Nat) (name : String) (qty unit_price : ℚ)
    (s : Store) : Store × Except DbError WorkItem :=
  if fkViolated sch work_order_id s then
    ({ s with seq_work_items := s.seq_work_items + 1 }, .error { code := "23503" })
  else
    let row : WorkItem :=
      { id := s.seq_work_items, work_order_id := work_order_id, name := name, qty := qty,
        unit_price := unit_price }
    ({ s with work_items := s.work_items ++ [row], seq_work_items := s.seq_work_items + 1 },
      .ok row)

/-- The statement `INSERT INTO material_items (work_order_id, material_id, name, qty,
unit_price) VALUES (...) RETURNING ...`; SQLSTATE 23503 on a foreign-key violation. -/
def insertMaterialItem (sch : Schema) (work_order_id : Nat) (material_id : Option Nat)
    (name : String) (qty unit_price : ℚ) (s : Store) : Store × Except DbError MaterialItem :=
  if fkViolated sch work_order_id s then
    ({ s with seq_material_items := s.seq_material_items + 1 }, .error { code := "23503" })
  else
    let row : MaterialItem :=
      { id := s.seq_material_items, work_order_id := work_order_id,
        material_id := material_id, name := name, qty := qty, unit_price := unit_price }
    ({ s with
        material_items := s.material_items ++ [row],
        seq_material_items := s.seq_material_items + 1 },
      .ok row)

/-- The statement `INSERT INTO payments (work_order_id, amount, method, status[, paid_at])
VALUES ($1, $2, $3, 'paid'[, now()]) RETURNING ...`; SQLSTATE 23503 on a foreign-key
violation, 23514 when the schema restricts `method` and the value is not admitted. -/
def insertPayment (sch : Schema) (now work_order_id : Nat) (amount : ℚ) (method : String)
    (paid_at : Option Nat) (s : Store) : Store × Except DbError Payment :=
  if fkViolated sch work_order_id s then
    ({ s with seq_payments := s.seq_payments + 1 }, .error { code := "23503" })
  else if sch.method_check && !decide (method ∈ methodValues) then
    ({ s with seq_payments := s.seq_payments + 1 }, .error { code := "23514" })
  else
    let row : Payment :=
      { id := s.seq_payments, work_order_id := work_order_id, amount := amount,
        method := method, status := "paid", paid_at := paid_at, created_at := now }
    ({ s with payments := s.payments ++ [row], seq_payments := s.seq_payments + 1 }, .ok row)

/-- The statement `UPDATE work_orders SET status = ..., updated_at = now() WHERE id = ...
[AND is_archived = FALSE] RETURNING ...`: the rows for which `sel` holds are updated and
returned; SQLSTATE 23514 when a row is selected, the schema restricts `status` and the value
is not admitted. -/
def updateStatus (sch : Schema) (now : Nat) (sel : WorkOrder → Bool) (status : String)
    (s : Store) : Store × Except DbError (List WorkOrder) :=
  if sch.status_check && !decide (status ∈ statusValues) && s.work_orders.any sel then
    (s, .error { code := "23514" })
  else
    let s1 : Store :=
      { s with
        work_orders := s.work_orders.map fun w =>
          if sel w then { w with status := status, updated_at := now } else w }
    (s1, .ok ((s.work_orders.filter sel).map
      fun w => { w with status := status, updated_at := now }))

end Db

namespace Routes

/-- The helper `toInt` of the routes file: `Number(x)` when it is an integer, else `null`. -/
def toInt (rt : JsRuntime) (x : JsValue) : Option ℤ :=
  match x.toNumber rt with
  | .finite q => if q.isInt then some q.num else none
  | _ => none

/-- The helper `toNum` of the routes file: `Number(x)` when it is finite, else `null`. -/
def toNum (rt : JsRuntime) (x : JsValue) : Option ℚ :=
  match x.toNumber rt with
  | .finite q => some q
  | _ => none

/-- The function `recalcTotal` of the routes file: one UPDATE of `work_orders`. -/
def recalcTotal (now workOrderId : Nat) (s : Store) : Store :=
  { s with
    work_orders := s.work_orders.map fun w =>
      if w.id = workOrderId then
        { w with
          total_amount := coalesce (sumWorkItems s workOrderId) 0
            + coalesce (sumMaterialItems s workOrderId) 0,
          updated_at := now }
      else w }

/-- The function `recalcPaid` of the routes file: one UPDATE of `work_orders`. -/
def recalcPaid (now workOrderId : Nat) (s : Store) : Store :=
  { s with
    work_orders := s.work_orders.map fun w =>
      if w.id = workOrderId then
        { w with
          paid_amount := coalesce (sumPaidPayments s workOrderId) 0,
          updated_at := now }
      else w }

/-- The guard `!id || id <= 0` on a result of `toInt`. -/
def badId : Option ℤ → Bool
  | none => true
  | some n => decide (n = 0) || decide (n ≤ 0)

/-- The guard `!qty || qty <= 0` on a quantity that is a finite number or `null`. -/
def badQty : Option ℚ → Bool
  | none => true
  | some q => decide (q = 0) || decide (q ≤ 0)

/-- The guards `unit_price === null || unit_price < 0` and `amount === null || amount <= 0`
share the first disjunct; this is the first of the two. -/
def badPrice : Option ℚ → Bool
  | none => true
  | some p => decide (p < 0)

/-- The guard `amount === null || amount <= 0`. -/
def badAmount : Option ℚ → Bool
  | none => true
  | some a => decide (a ≤ 0)

/-- A number as a JavaScript value. -/
def num (q : ℚ) : JsValue :=
  .number (.finite q)

/-- The value `name` of the two item handlers:
`(req.body?.name ?? "").toString().trim()`. -/
def itemName (rt : JsRuntime) (req : Request) : String :=
  jsTrim (((req.field "name").orElse (.string "")).toText rt)

/-- The value `qty` of the two item handlers:
`qtyRaw === undefined || qtyRaw === null ? 1 : toNum(qtyRaw)` with `qtyRaw = req.body?.qty`. -/
def itemQty (rt : JsRuntime) (req : Request) : Option ℚ :=
  let qtyRaw := req.field "qty"
  if qtyRaw.isNullish then some 1 else toNum rt qtyRaw

/-- The value `unit_price` of the two item handlers:
`unitPriceRaw === undefined || unitPriceRaw === null ? 0 : toNum(unitPriceRaw)` with
`unitPriceRaw = req.body?.unit_price ?? req.body?.price`. -/
def itemUnitPrice (rt : JsRuntime) (req : Request) : Option ℚ :=
  let unitPriceRaw := (req.field "unit_price").orElse (req.field "price")
  if unitPriceRaw.isNullish then some 0 else toNum rt unitPriceRaw

/-- The handler of `POST /work-orders`. -/
def postWorkOrder (rt : JsRuntime) (now : Nat) (s : Store) (req : Request) : Outcome :=
  let booking_id := toInt rt (req.field "booking_id")
  if badId booking_id then ⟨s, ⟨400, .error "booking_id is required"⟩, []⟩ else
  let booking_id := (booking_id.getD 0).toNat
  if (s.work_orders.filter (fun w => decide (w.booking_id = booking_id))).length > 0 then
    ⟨s, ⟨409, .error "WorkOrder for this booking already exists"⟩, [.selectWorkOrderByBooking]⟩
  else
  match s.bookings.filter (fun b => decide (b.id = booking_id)) with
  | [] => ⟨s, ⟨404, .error "Booking not found"⟩, [.selectWorkOrderByBooking, .selectBooking]⟩
  | bk :: _ =>
    match Db.insertWorkOrder now booking_id bk.client_id bk.car_id none "created" 0 0 s with
    | (s1, .error _) =>
      ⟨s1, internalError, [.selectWorkOrderByBooking, .selectBooking, .insertWorkOrder]⟩
    | (s1, .ok row) =>
      ⟨Db.insertAudit now "work_order" row.id "create" [("booking_id", num booking_id)] s1,
        ⟨201, .workOrder row⟩,
        [.selectWorkOrderByBooking, .selectBooking, .insertWorkOrder, .insertAudit]⟩

/-- The handler of `PATCH /work-orders/:id/status`. -/
def patchStatus (rt : JsRuntime) (sch : Schema) (now : Nat) (s : Store) (req : Request) :
    Outcome :=
  let id := toInt rt (.string req.id)
  let status := req.field "status"
  if badId id then ⟨s, ⟨400, .error "Invalid id"⟩, []⟩ else
  if !status.truthy then ⟨s, ⟨400, .error "status is required"⟩, []⟩ else
  let id := (id.getD 0).toNat
  match status.pgParam rt with
  | none => ⟨s, internalError, [.updateStatus]⟩
  | some st =>
    match Db.updateStatus sch now (fun w => decide (w.id = id)) st s with
    | (s1, .error _) => ⟨s1, internalError, [.updateStatus]⟩
    | (s1, .ok []) => ⟨s1, ⟨404, .error "WorkOrder not found"⟩, [.updateStatus]⟩
    | (s1, .ok (row :: _)) =>
      ⟨Db.insertAudit now "work_order" id "status_change" [("status", status)] s1,
        ⟨200, .workOrder row⟩, [.updateStatus, .insertAudit]⟩

/-- The handler of `POST /work-orders/:id/work-items`. -/
def postWorkItem (rt : JsRuntime) (sch : Schema) (now : Nat) (s : Store) (req : Request) :
    Outcome :=
  let id := toInt rt (.string req.id)
  if badId id then ⟨s, ⟨400, .error "Invalid id"⟩, []⟩ else
  let id := (id.getD 0).toNat
  let name := itemName rt req
  if name = "" then ⟨s, ⟨400, .error "name is required"⟩, []⟩ else
  let qty := itemQty rt req
  let unit_price := itemUnitPrice rt req
  if badQty qty then ⟨s, ⟨400, .error "qty must be > 0"⟩, []⟩ else
  if badPrice unit_price then ⟨s, ⟨400, .error "unit_price/price must be >= 0"⟩, []⟩ else
  let qty := qty.getD 0
  let unit_price := unit_price.getD 0
  match Db.insertWorkItem sch id name qty unit_price s with
  | (s1, .error _) => ⟨s1, internalError, [.insertWorkItem]⟩
  | (s1, .ok row) =>
    ⟨Db.insertAudit now "work_order" id "add_work_item"
        [("work_item_id", num row.id), ("name", .string name), ("qty", num qty),
          ("unit_price", num unit_price)]
        (recalcTotal now id s1),
      ⟨201, .workItem row⟩, [.insertWorkItem, .recalcTotal, .insertAudit]⟩

/-- The handler of `POST /work-orders/:id/material-items`. -/
def postMaterialItem (rt : JsRuntime) (sch : Schema) (now : Nat) (s : Store) (req : Request) :
    Outcome :=
  let id := toInt rt (.string req.id)
  if badId id then ⟨s, ⟨400, .error "Invalid id"⟩, []⟩ else
  let id := (id.getD 0).toNat
  let name := itemName rt req
  if name = "" then ⟨s, ⟨400, .error "name is required"⟩, []⟩ else
  let qty := itemQty rt req
  let unit_price := itemUnitPrice rt req
  if badQty qty then ⟨s, ⟨400, .error "qty must be > 0"⟩, []⟩ else
  if badPrice unit_price then ⟨s, ⟨400, .error "unit_price/price must be >= 0"⟩, []⟩ else
  let qty := qty.getD 0
  let unit_price := unit_price.getD 0
  match Db.insertMaterialItem sch id none name qty unit_price s with
  | (s1, .error _) => ⟨s1, internalError, [.insertMaterialItem]⟩
  | (s1, .ok row) =>
    ⟨Db.insertAudit now "work_order" id "add_material_item"
        [("material_item_id", num row.id), ("name", .string name), ("qty", num qty),
          ("unit_price", num unit_price)]
        (recalcTotal now id s1),
      ⟨201, .materialItem row⟩, [.insertMaterialItem, .recalcTotal, .insertAudit]⟩

/-- The handler of `POST /work-orders/:id/payments`.  The INSERT names no `paid_at`, which
stays `NULL`. -/
def postPayment (rt : JsRuntime) (sch : Schema) (now : Nat) (s : Store) (req : Request) :
    Outcome :=
  let id := toInt rt (.string req.id)
  if badId id then ⟨s, ⟨400, .error "Invalid id"⟩, []⟩ else
  let id := (id.getD 0).toNat
  let amount := toNum rt (req.field "amount")
  let method := ((req.field "method").orElse (.string "cash")).toText rt
  if badAmount amount then ⟨s, ⟨400, .error "amount is required"⟩, []⟩ else
  let amount := amount.getD 0
  match Db.insertPayment sch now id amount method none s with
  | (s1, .error _) => ⟨s1, internalError, [.insertPayment]⟩
  | (s1, .ok row) =>
    ⟨Db.insertAudit now "work_order" id "payment"
        [("payment_id", num row.id), ("amount", num amount), ("method", .string method)]
        (recalcPaid now id s1),
      ⟨201, .payment row⟩, [.insertPayment, .recalcPaid, .insertAudit]⟩

/-- The handler of `GET /work-orders/:id/full`; `ORDER BY id` sorts each list by id. -/
def getFull (rt : JsRuntime) (s : Store) (req : Request) : Response :=
  let id := toInt rt (.string req.id)
  if badId id then ⟨400, .error "Invalid id"⟩ else
  let id := (id.getD 0).toNat
  match s.work_orders.filter (fun w => decide (w.id = id)) with
  | [] => ⟨404, .error "WorkOrder not found"⟩
  | wo :: _ =>
    ⟨200, .full
      { work_order := wo,
        work_items :=
          ((s.work_items.filter (fun i => decide (i.work_order_id = id))).insertionSort
            (fun a b => a.id ≤ b.id)).map (fun i => ⟨i, some (i.qty * i.unit_price)⟩),
        material_items :=
          ((s.material_items.filter (fun i => decide (i.work_order_id = id))).insertionSort
            (fun a b => a.id ≤ b.id)).map (fun i => ⟨i, some (i.qty * i.unit_price)⟩),
        payments :=
          (s.payments.filter (fun p => decide (p.work_order_id = id))).insertionSort
            (fun a b => a.id ≤ b.id),
        audit_log :=
          (s.audit_log.filter
            (fun a => decide (a.entity = "work_order") && decide (a.entity_id = id))).insertionSort
            (fun a b => a.id ≤ b.id) }⟩

end Routes

namespace Repo

/-- The columns `id, total_amount, paid_amount, status, updated_at` of a work order. -/
def totalsRow (w : WorkOrder) : TotalsRow :=
  { id := w.id, total_amount := w.total_amount, paid_amount := w.paid_amount,
    status := w.status, updated_at := w.updated_at }

/-- The function `recalcTotals` of the repository: the UPDATE over the two common table
expressions `w` and `m`, returning the first updated row or `null`. -/
def recalcTotals (now work_order_id : Nat) (s : Store) : Store × Option TotalsRow :=
  let work_sum := coalesce (sumWorkItems s work_order_id) 0
  let mat_sum := coalesce (sumMaterialItems s work_order_id) 0
  let s1 : Store :=
    { s with
      work_orders := s.work_orders.map fun w =>
        if w.id = work_order_id then
          { w with total_amount := work_sum + mat_sum, updated_at := now }
        else w }
  (s1, ((s1.work_orders.filter (fun w => decide (w.id = work_order_id))).head?).map totalsRow)

/-- The function `createAudit` of the repository. -/
def createAudit (now : Nat) (entity : String) (entity_id : Nat) (action : String)
    (details : List (String × JsValue)) (s : Store) : Store :=
  Db.insertAudit now entity entity_id action details s

/-- Modelled from the spec: the column defaults of `work_orders` (status created, both amounts
0), which the INSERT of `createWorkOrderFromBooking` relies on and whose DDL is missing from
the sources. -/
def defaultStatus : String := "created"

/-- The function `createWorkOrderFromBooking` of the repository: `INSERT ... SELECT ... FROM
bookings b WHERE b.id = $1` with the parameter `description || null`; `null` when the SELECT
finds no booking (`bookings.id` is a key: the first match is the match). -/
def createWorkOrderFromBooking (rt : JsRuntime) (now booking_id : Nat) (description : JsValue)
    (s : Store) : Store × Except DbError (Option WorkOrder) :=
  match s.bookings.filter (fun b => decide (b.id = booking_id)) with
  | [] => (s, .ok none)
  | b :: _ =>
    match Db.insertWorkOrder now b.id b.client_id b.car_id
        (if description.truthy then description.pgParam rt else none) defaultStatus 0 0 s with
    | (s1, .error e) => (s1, .error e)
    | (s1, .ok row) => (s1, .ok (some row))

/-- The function `getWorkOrderById` of the repository. -/
def getWorkOrderById (id : Nat) (s : Store) : Option WorkOrder :=
  (s.work_orders.filter (fun w => decide (w.id = id) && !w.is_archived)).head?

/-- The function `updateWorkOrderStatus` of the repository. -/
def updateWorkOrderStatus (sch : Schema) (now id : Nat) (status : String) (s : Store) :
    Store × Except DbError (Option WorkOrder) :=
  match Db.updateStatus sch now (fun w => decide (w.id = id) && !w.is_archived) status s with
  | (s1, .error e) => (s1, .error e)
  | (s1, .ok rows) => (s1, .ok rows.head?)

/-- The function `addWorkItem` of the repository.  The numbers come from the controller
unchecked for finiteness; a non-finite value is refused by the numeric column with a data
exception (SQLSTATE 22P02) before anything is written. -/
def addWorkItem (sch : Schema) (work_order_id : Nat) (name : String) (qty unit_price : JsNumber)
    (s : Store) : Store × Except DbError WorkItem :=
  match qty, unit_price with
  | .finite q, .finite p => Db.insertWorkItem sch work_order_id name q p s
  | _, _ => (s, .error { code := "22P02" })

/-- The function `addMaterialItem` of the repository, with the parameter
`material_id || null`. -/
def addMaterialItem (sch : Schema) (work_order_id : Nat) (material_id : Option Nat)
    (name : String) (qty unit_price : JsNumber) (s : Store) :
    Store × Except DbError MaterialItem :=
  match qty, unit_price with
  | .finite q, .finite p => Db.insertMaterialItem sch work_order_id material_id name q p s
  | _, _ => (s, .error { code := "22P02" })

/-- The function `addPayment` of the repository: the INSERT with the parameter
`method || "cash"`, then `UPDATE work_orders SET paid_amount = paid_amount + $2 WHERE id = $1`.
A `NULL` method violates the column (SQLSTATE 23502). -/
def addPayment (rt : JsRuntime) (sch : Schema) (now work_order_id : Nat) (amount : JsNumber)
    (method : JsValue) (s : Store) : Store × Except DbError Payment :=
  match amount, (method.or (.string "cash")).pgParam rt with
  | .finite a, some m =>
    match Db.insertPayment sch now work_order_id a m (some now) s with
    | (s1, .error e) => (s1, .error e)
    | (s1, .ok row) =>
      ({ s1 with
          work_orders := s1.work_orders.map fun w =>
            if w.id = work_order_id then
              { w with paid_amount := w.paid_amount + a, updated_at := now }
            else w },
        .ok row)
  | .finite _, none => (s, .error { code := "23502" })
  | _, _ => (s, .error { code := "22P02" })

end Repo

namespace Controller

/-- The constant `WORK_ORDER_STATUSES` of the controller. -/
def WORK_ORDER_STATUSES : List String :=
  ["created", "in_progress", "waiting_approval", "ready", "closed", "cancelled"]

/-- The guard `!Number.isInteger(n) || n <= 0` of the controller. -/
def invalidId (n : JsNumber) : Bool :=
  !n.isInteger || n.leZero

/-- The natural number denoted by a number that passed `invalidId`. -/
def idOf : JsNumber → Nat
  | .finite q => q.num.toNat
  | _ => 0

/-- The function `createWorkOrder` of the controller; a store error with code 23505 becomes
409, any other 500. -/
def createWorkOrder (rt : JsRuntime) (now : Nat) (s : Store) (req : Request) : Outcome :=
  let bid := (req.field "booking_id").toNumber rt
  if invalidId bid then ⟨s, ⟨400, .error "Validation error"⟩, []⟩ else
  match Repo.createWorkOrderFromBooking rt now (idOf bid) (req.field "description") s with
  | (s1, .error e) =>
    if e.code = "23505" then
      ⟨s1, ⟨409, .error "WorkOrder for this booking already exists"⟩,
        [.createWorkOrderFromBooking]⟩
    else ⟨s1, internalError, [.createWorkOrderFromBooking]⟩
  | (s1, .ok none) => ⟨s1, ⟨404, .error "Booking not found"⟩, [.createWorkOrderFromBooking]⟩
  | (s1, .ok (some created)) =>
    ⟨Repo.createAudit now "work_order" created.id "create"
        [("booking_id", Routes.num (idOf bid))] s1,
      ⟨201, .workOrder created⟩, [.createWorkOrderFromBooking, .createAudit]⟩

/-- The function `patchWorkOrderStatus` of the controller. -/
def patchWorkOrderStatus (rt : JsRuntime) (sch : Schema) (now : Nat) (s : Store)
    (req : Request) : Outcome :=
  let id := (JsValue.string req.id).toNumber rt
  if invalidId id then ⟨s, ⟨400, .error "Invalid id"⟩, []⟩ else
  match req.field "status" with
  | .string status =>
    if !decide (status ∈ WORK_ORDER_STATUSES) then
      ⟨s, ⟨400, .error "Validation error"⟩, []⟩
    else
    match Repo.updateWorkOrderStatus sch now (idOf id) status s with
    | (s1, .error _) => ⟨s1, internalError, [.updateWorkOrderStatus]⟩
    | (s1, .ok none) => ⟨s1, ⟨404, .error "WorkOrder not found"⟩, [.updateWorkOrderStatus]⟩
    | (s1, .ok (some updated)) =>
      ⟨Repo.createAudit now "work_order" (idOf id) "status_change"
          [("status", .string status)] s1,
        ⟨200, .statusRow updated.id updated.status updated.updated_at⟩,
        [.updateWorkOrderStatus, .createAudit]⟩
  | _ => ⟨s, ⟨400, .error "Validation error"⟩, []⟩

/-- The function `addWorkItem` of the controller. -/
def addWorkItem (rt : JsRuntime) (sch : Schema) (now : Nat) (s : Store) (req : Request) :
    Outcome :=
  let id := (JsValue.string req.id).toNumber rt
  if invalidId id then ⟨s, ⟨400, .error "Invalid id"⟩, []⟩ else
  match req.field "name" with
  | .string name =>
    if jsTrim name = "" then ⟨s, ⟨400, .error "Validation error"⟩, []⟩ else
    let qty := req.field "qty"
    let unit_price := req.field "unit_price"
    let q : JsNumber := if qty = .undefined then .finite 1 else qty.toNumber rt
    let p : JsNumber := if unit_price = .undefined then .finite 0 else unit_price.toNumber rt
    if !q.gtZero || !p.geZero then ⟨s, ⟨400, .error "Validation error"⟩, []⟩ else
    match Repo.getWorkOrderById (idOf id) s with
    | none => ⟨s, ⟨404, .error "WorkOrder not found"⟩, [.getWorkOrderById]⟩
    | some _ =>
      match Repo.addWorkItem sch (idOf id) (jsTrim name) q p s with
      | (s1, .error _) => ⟨s1, internalError, [.getWorkOrderById, .addWorkItem]⟩
      | (s1, .ok item) =>
        ⟨Repo.createAudit now "work_order" (idOf id) "add_work_item"
            [("work_item_id", Routes.num item.id), ("name", .string item.name),
              ("qty", Routes.num item.qty), ("unit_price", Routes.num item.unit_price)]
            (Repo.recalcTotals now (idOf id) s1).1,
          ⟨201, .workItemTotals item (Repo.recalcTotals now (idOf id) s1).2⟩,
          [.getWorkOrderById, .addWorkItem, .recalcTotals, .createAudit]⟩
  | _ => ⟨s, ⟨400, .error "Validation error"⟩, []⟩

/-- The function `addMaterialItem` of the controller. -/
def addMaterialItem (rt : JsRuntime) (sch : Schema) (now : Nat) (s : Store) (req : Request) :
    Outcome :=
  let id := (JsValue.string req.id).toNumber rt
  if invalidId id then ⟨s, ⟨400, .error "Invalid id"⟩, []⟩ else
  match req.field "name" with
  | .string name =>
    if jsTrim name = "" then ⟨s, ⟨400, .error "Validation error"⟩, []⟩ else
    let qty := req.field "qty"
    let unit_price := req.field "unit_price"
    let material_id := req.field "material_id"
    let q : JsNumber := if qty = .undefined then .finite 1 else qty.toNumber rt
    let p : JsNumber := if unit_price = .undefined then .finite 0 else unit_price.toNumber rt
    if !q.gtZero || !p.geZero then ⟨s, ⟨400, .error "Validation error"⟩, []⟩ else
    let mid : Option JsNumber :=
      if material_id.isNullish then none else some (material_id.toNumber rt)
    if mid.any invalidId then ⟨s, ⟨400, .error "Validation error"⟩, []⟩ else
    match Repo.getWorkOrderById (idOf id) s with
    | none => ⟨s, ⟨404, .error "WorkOrder not found"⟩, [.getWorkOrderById]⟩
    | some _ =>
      match Repo.addMaterialItem sch (idOf id) (mid.map idOf) (jsTrim name) q p s with
      | (s1, .error _) => ⟨s1, internalError, [.getWorkOrderById, .addMaterialItem]⟩
      | (s1, .ok item) =>
        ⟨Repo.createAudit now "work_order" (idOf id) "add_material_item"
            [("material_item_id", Routes.num item.id), ("name", .string item.name),
              ("qty", Routes.num item.qty), ("unit_price", Routes.num item.unit_price)]
            (Repo.recalcTotals now (idOf id) s1).1,
          ⟨201, .materialItemTotals item (Repo.recalcTotals now (idOf id) s1).2⟩,
          [.getWorkOrderById, .addMaterialItem, .recalcTotals, .createAudit]⟩
  | _ => ⟨s, ⟨400, .error "Validation error"⟩, []⟩

/-- The function `addPayment` of the controller. -/
def addPayment (rt : JsRuntime) (sch : Schema) (now : Nat) (s : Store) (req : Request) :
    Outcome :=
  let id := (JsValue.string req.id).toNumber rt
  if invalidId id then ⟨s, ⟨400, .error "Invalid id"⟩, []⟩ else
  let a := (req.field "amount").toNumber rt
  if !a.gtZero then ⟨s, ⟨400, .error "Validation error"⟩, []⟩ else
  match Repo.getWorkOrderById (idOf id) s with
  | none => ⟨s, ⟨404, .error "WorkOrder not found"⟩, [.getWorkOrderById]⟩
  | some _ =>
    match Repo.addPayment rt sch now (idOf id) a ((req.field "method").or (.string "cash")) s with
    | (s1, .error _) => ⟨s1, internalError, [.getWorkOrderById, .addPayment]⟩
    | (s1, .ok payment) =>
      ⟨Repo.createAudit now "work_order" (idOf id) "payment"
          [("payment_id", Routes.num payment.id), ("amount", Routes.num payment.amount),
            ("method", .string payment.method)] s1,
        ⟨201, .paymentWorkOrder payment (Repo.getWorkOrderById (idOf id) s1)⟩,
        [.getWorkOrderById, .addPayment, .getWorkOrderById, .createAudit]⟩

end Controller

namespace Frontend

/-- The summand of `calcItemsSum` in `App.jsx`:
`Number(x.price ?? (Number(x.qty ?? 0) * Number(x.unit_price ?? 0)) ?? 0)`. -/
def lineAmount (price : Option ℚ) (qty unit_price : ℚ) : ℚ :=
  match price with
  | some v => v
  | none => qty * unit_price

/-- The value `computedTotal` of `App.jsx`: `calcItemsSum` over the work items plus
`calcItemsSum` over the material items, each a left fold from 0. -/
def computedTotal (full : Option FullAggregate) : ℚ :=
  match full with
  | none => 0
  | some f =>
    f.work_items.foldl (fun sum x => sum + lineAmount x.price x.row.qty x.row.unit_price) 0
      + f.material_items.foldl
          (fun sum x => sum + lineAmount x.price x.row.qty x.row.unit_price) 0

/-- The value `computedPaid` of `App.jsx`: a payment counts when its status is empty or
equals paid. -/
def computedPaid (full : Option FullAggregate) : ℚ :=
  match full with
  | none => 0
  | some f =>
    f.payments.foldl
      (fun sum p => sum + (if (if p.status ≠ "" then p.status = "paid" else True)
        then p.amount else 0)) 0

/-- The value `dbTotal` of `App.jsx`. -/
def dbTotal (full : Option FullAggregate) : ℚ :=
  match full with
  | none => 0
  | some f => f.work_order.total_amount

/-- The value `dbPaid` of `App.jsx`. -/
def dbPaid (full : Option FullAggregate) : ℚ :=
  match full with
  | none => 0
  | some f => f.work_order.paid_amount

/-- The value `finalTotal` of `App.jsx`. -/
def finalTotal (full : Option FullAggregate) : ℚ :=
  if dbTotal full > 0 then dbTotal full else computedTotal full

/-- The value `finalPaid` of `App.jsx`. -/
def finalPaid (full : Option FullAggregate) : ℚ :=
  if dbPaid full > 0 then dbPaid full else computedPaid full

/-- The value `finalDebt` of `App.jsx`: `Math.max(0, finalTotal - finalPaid)`. -/
def finalDebt (full : Option FullAggregate) : ℚ :=
  max 0 (finalTotal full - finalPaid full)

/-- The state `workOrderFull` after `loadWorkOrderFull`: the body of the response of
`GET /api/work-orders/:id/full` when the response is ok (2xx), `null` otherwise. -/
def loadWorkOrderFull (r : Response) : Option FullAggregate :=
  if 200 ≤ r.status ∧ r.status < 300 then
    match r.body with
    | .full f => some f
    | _ => none
  else none

end Frontend

/-! ## A runtime for concrete evaluations -/

/-- The number written by a list of decimal digits, most significant first. -/
def digitsValue (cs : List Char) : Nat :=
  cs.foldl (fun acc c => 10 * acc + (c.toNat - 48)) 0

/-- The value of an unsigned decimal literal without exponent (`12`, `12.5`, `12.`, `.5`);
NaN for any other text. -/
def unsignedDecimal (cs : List Char) : JsNumber :=
  let ip := cs.takeWhile Char.isDigit
  match cs.dropWhile Char.isDigit with
  | [] => if ip = [] then .nan else .finite (digitsValue ip)
  | c :: fr =>
    if c = '.' && fr.all Char.isDigit && !(ip = [] && fr = []) then
      .finite (digitsValue ip + (digitsValue fr : ℚ) / (10 : ℚ) ^ fr.length)
    else .nan

/-- The negation of a number. -/
def JsNumber.neg : JsNumber → JsNumber
  | .finite q => .finite (-q)
  | .nan => .nan
  | .posInf => .negInf
  | .negInf => .posInf

/-- The value of a signed decimal literal or of `Infinity`. -/
def signedDecimal (cs : List Char) : JsNumber :=
  let unsigned (ds : List Char) : JsNumber :=
    if ds = "Infinity".data then .posInf else unsignedDecimal ds
  match cs with
  | [] => .finite 0
  | c :: ds =>
    if c = '+' then unsigned ds
    else if c = '-' then (unsigned ds).neg
    else unsigned (c :: ds)

/-- A runtime for the concrete evaluations of this file.  Its `stringToNumber` is
StringToNumber on the empty string, on signed decimal literals without exponent and on
`Infinity`, each with optional surrounding white space, and NaN on every other string
(hexadecimal, binary, octal and exponent forms are not read).  Its `numberToString` is
Number::toString on the integers below 10²¹ and on the non-finite numbers; other numbers are
printed as a fraction.  The general theorems hold for every runtime. -/
def decimalRuntime : JsRuntime where
  stringToNumber := fun s => signedDecimal (jsTrim s).data
  numberToString := fun n =>
    match n with
    | .finite q => if q.den = 1 then toString q.num else toString q.num ++ "/" ++ toString q.den
    | .nan => "NaN"
    | .posInf => "Infinity"
    | .negInf => "-Infinity"

/-! ## The quantities of the specification -/

/-- The total of the specification: the sum of `qty × unit_price` over the work items of the
order plus the same sum over its material items. -/
def specTotal (s : Store) (id : Nat) : ℚ :=
  ((s.work_items.filter (fun i => decide (i.work_order_id = id))).map
      (fun i => i.qty * i.unit_price)).sum
    + ((s.material_items.filter (fun i => decide (i.work_order_id = id))).map
      (fun i => i.qty * i.unit_price)).sum

/-- The paid amount of the specification: the sum of `amount` over the payments of the order
whose status is paid. -/
def specPaid (s : Store) (id : Nat) : ℚ :=
  ((s.payments.filter
      (fun p => decide (p.work_order_id = id) && decide (p.status = "paid"))).map
    (fun p => p.amount)).sum

/-- A store with the `updated_at` column of `work_orders` blanked, for comparing two stores in
every other field. -/
def Store.withoutUpdatedAt (s : Store) : Store :=
  { s with work_orders := s.work_orders.map fun w => { w with updated_at := 0 } }

/-- The four guards of an add-item handler all pass: the id, the name, the quantity and the
unit price of the request are accepted. -/
def Routes.itemValid (rt : JsRuntime) (req : Request) : Bool :=
  !Routes.badId (Routes.toInt rt (.string req.id)) && decide (Routes.itemName rt req ≠ "")
    && !Routes.badQty (Routes.itemQty rt req) && !Routes.badPrice (Routes.itemUnitPrice rt req)

/-- The extension `qty × unit_price` of the item an add-item request asks for. -/
def Routes.itemAmount (rt : JsRuntime) (req : Request) : ℚ :=
  (Routes.itemQty rt req).getD 0 * (Routes.itemUnitPrice rt req).getD 0

/-! ## Sequences of calls -/

/-- A call of one of the two add-item endpoints: `POST /work-orders/:id/material-items` when
`material` is set, `POST /work-orders/:id/work-items` otherwise. -/
structure ItemCall where
  material : Bool
  now : Nat
  req : Request

/-- The mounted handler answering an add-item call. -/
def ItemCall.run (rt : JsRuntime) (sch : Schema) (s : Store) (c : ItemCall) : Outcome :=
  if c.material then Routes.postMaterialItem rt sch c.now s c.req
  else Routes.postWorkItem rt sch c.now s c.req

/-- The store after a sequence of add-item calls. -/
def runItemCalls (rt : JsRuntime) (sch : Schema) : Store → List ItemCall → Store
  | s, [] => s
  | s, c :: cs => runItemCalls rt sch (c.run rt sch s).store cs

/-- Every call of the sequence is answered 201. -/
def itemCallsSucceed (rt : JsRuntime) (sch : Schema) : Store → List ItemCall → Bool
  | _, [] => true
  | s, c :: cs =>
    decide ((c.run rt sch s).response.status = 201)
      && itemCallsSucceed rt sch (c.run rt sch s).store cs

/-- The extension `qty × unit_price` of the item row a response carries; 0 for a response
without an item. -/
def addedAmount (o : Outcome) : ℚ :=
  match o.response.body with
  | .workItem row => row.qty * row.unit_price
  | .materialItem row => row.qty * row.unit_price
  | _ => 0

/-- The extensions of the items returned by the calls of a sequence, in order. -/
def addedAmounts (rt : JsRuntime) (sch : Schema) : Store → List ItemCall → List ℚ
  | _, [] => []
  | s, c :: cs => addedAmount (c.run rt sch s) :: addedAmounts rt sch (c.run rt sch s).store cs

/-- The mutating work-order operations: the five mounted handlers and the five functions of
the controller. -/
inductive Op where
  | postWorkOrder
  | patchStatus
  | postWorkItem
  | postMaterialItem
  | postPayment
  | createWorkOrder
  | patchWorkOrderStatus
  | addWorkItem
  | addMaterialItem
  | addPayment
deriving DecidableEq

/-- The outcome of an operation on a store. -/
def Op.run (rt : JsRuntime) (sch : Schema) (now : Nat) (s : Store) (req : Request) :
    Op → Outcome
  | .postWorkOrder => Routes.postWorkOrder rt now s req
  | .patchStatus => Routes.patchStatus rt sch now s req
  | .postWorkItem => Routes.postWorkItem rt sch now s req
  | .postMaterialItem => Routes.postMaterialItem rt sch now s req
  | .postPayment => Routes.postPayment rt sch now s req
  | .createWorkOrder => Controller.createWorkOrder rt now s req
  | .patchWorkOrderStatus => Controller.patchWorkOrderStatus rt sch now s req
  | .addWorkItem => Controller.addWorkItem rt sch now s req
  | .addMaterialItem => Controller.addMaterialItem rt sch now s req
  | .addPayment => Controller.addPayment rt sch now s req

/-- The action tag an operation writes to the audit log. -/
def Op.action : Op → String
  | .postWorkOrder => "create"
  | .createWorkOrder => "create"
  | .patchStatus => "status_change"
  | .patchWorkOrderStatus => "status_change"
  | .postWorkItem => "add_work_item"
  | .addWorkItem => "add_work_item"
  | .postMaterialItem => "add_material_item"
  | .addMaterialItem => "add_material_item"
  | .postPayment => "payment"
  | .addPayment => "payment"

/-- Whether the operation creates a work order (and so names none in its path). -/
def Op.creates : Op → Bool
  | .postWorkOrder => true
  | .createWorkOrder => true
  | _ => false

/-- The stores reachable from a store without work orders (its other tables arbitrary) by
calls of the mutating work-order operations. -/
inductive Reachable (rt : JsRuntime) (sch : Schema) : Store → Prop where
  | init (s : Store) (h : s.work_orders = []) : Reachable rt sch s
  | step (s : Store) (op : Op) (now : Nat) (req : Request) (h : Reachable rt sch s) :
      Reachable rt sch (op.run rt sch now s req).store

/-- What a call of an operation on an existing work order does to the booking references and
to the audit log: the booking references stay, and either the call is refused (400, 404 or
500) and the audit log stays, or it is answered 200 or 201 and the audit log gains exactly one
entry, for entity `work_order`, with the given action and an `entity_id` fitting `target`. -/
def AuditedStep (s : Store) (o : Outcome) (action : String) (target : Nat → Prop) : Prop :=
  o.store.work_orders.map (fun w => w.booking_id) = s.work_orders.map (fun w => w.booking_id)
  ∧ ((o.response.status ∈ [400, 404, 500] ∧ o.store.audit_log = s.audit_log)
    ∨ (o.response.status ∈ [200, 201]
      ∧ ∃ e : AuditEntry, o.store.audit_log = s.audit_log ++ [e] ∧ e.entity = "work_order"
        ∧ e.action = action ∧ target e.entity_id))

/-- What a call of a creating operation does: either it is refused (400, 404, 409 or 500) and
neither a work order nor an audit entry is added, or it is answered 201, the work order
returned is appended, no earlier work order references its booking, and the audit log gains
exactly one entry, for entity `work_order`, action `create` and the id of the new work order. -/
def AuditedCreate (s : Store) (o : Outcome) : Prop :=
  (o.response.status ∈ [400, 404, 409, 500] ∧ o.store.work_orders = s.work_orders
      ∧ o.store.audit_log = s.audit_log)
  ∨ (o.response.status = 201
    ∧ ∃ (row : WorkOrder) (e : AuditEntry), o.response.body = .workOrder row
      ∧ o.store.work_orders = s.work_orders ++ [row]
      ∧ (∀ w ∈ s.work_orders, w.booking_id ≠ row.booking_id)
      ∧ o.store.audit_log = s.audit_log ++ [e] ∧ e.entity = "work_order"
      ∧ e.action = "create" ∧ e.entity_id = row.id)

/-! ## The aggregate of the repository -/

/-- The function `getWorkOrderFull` of the repository: `null` when `getWorkOrderById` finds no
row, otherwise the row with the four lists, each `ORDER BY id`; the item queries select no
`price` column. -/
def Repo.getWorkOrderFull (id : Nat) (s : Store) : Option FullAggregate :=
  match Repo.getWorkOrderById id s with
  | none => none
  | some wo =>
    some
      { work_order := wo,
        work_items :=
          ((s.work_items.filter (fun i => decide (i.work_order_id = id))).insertionSort
            (fun a b => a.id ≤ b.id)).map (fun i => ⟨i, none⟩),
        material_items :=
          ((s.material_items.filter (fun i => decide (i.work_order_id = id))).insertionSort
            (fun a b => a.id ≤ b.id)).map (fun i => ⟨i, none⟩),
        payments :=
          (s.payments.filter (fun p => decide (p.work_order_id = id))).insertionSort
            (fun a b => a.id ≤ b.id),
        audit_log :=
          (s.audit_log.filter
            (fun a => decide (a.entity = "work_order") && decide (a.entity_id = id))).insertionSort
            (fun a b => a.id ≤ b.id) }

/-- The four lists of an aggregate are exactly the rows of work order `id` in the store (the
work items, material items and payments whose `work_order_id` is `id`, the audit entries with
entity `work_order` and `entity_id = id`, each row as often as the table holds it), and each
list is in ascending order of id. -/
def FullAggregate.listsOf (f : FullAggregate) (s : Store) (id : Nat) : Prop :=
  (f.work_items.map (fun v => v.row)).Perm
      (s.work_items.filter (fun i => decide (i.work_order_id = id)))
  ∧ (f.work_items.map (fun v => v.row)).Pairwise (fun a b => a.id ≤ b.id)
  ∧ (f.material_items.map (fun v => v.row)).Perm
      (s.material_items.filter (fun i => decide (i.work_order_id = id)))
  ∧ (f.material_items.map (fun v => v.row)).Pairwise (fun a b => a.id ≤ b.id)
  ∧ f.payments.Perm (s.payments.filter (fun p => decide (p.work_order_id = id)))
  ∧ f.payments.Pairwise (fun a b => a.id ≤ b.id)
  ∧ f.audit_log.Perm
      (s.audit_log.filter
        (fun a => decide (a.entity = "work_order") && decide (a.entity_id = id)))
  ∧ f.audit_log.Pairwise (fun a b => a.id ≤ b.id)

/-! ## The statements a call sends to the store -/

/-- A statement that changes the store, with its parameters: the INSERT and UPDATE statements
of the routes file and of the repository. -/
inductive Stmt where
  | insertWorkOrder (now booking_id client_id car_id : Nat) (description : Option String)
      (status : String) (total_amount paid_amount : ℚ)
  | updateStatus (sch : Schema) (now id : Nat) (activeOnly : Bool) (status : String)
  | insertWorkItem (sch : Schema) (work_order_id : Nat) (name : String) (qty unit_price : ℚ)
  | insertMaterialItem (sch : Schema) (work_order_id : Nat) (material_id : Option Nat)
      (name : String) (qty unit_price : ℚ)
  | insertPayment (sch : Schema) (now work_order_id : Nat) (amount : ℚ) (method : String)
      (paid_at : Option Nat)
  | recalcTotal (now id : Nat)
  | recalcPaid (now id : Nat)
  | addPaid (now id : Nat) (amount : ℚ)
  | insertAudit (now : Nat) (entity : String) (entity_id : Nat) (action : String)
      (details : List (String × JsValue))

/-- The store a statement leaves, whether it succeeds or raises.  `updateStatus` with
`activeOnly` is the UPDATE of the repository (`AND is_archived = FALSE`), without it the
UPDATE of the routes file; `addPaid` is the second statement of `addPayment` in the
repository, `UPDATE work_orders SET paid_amount = paid_amount + $2 WHERE id = $1`. -/
def Stmt.run : Stmt → Store → Store
  | .insertWorkOrder now booking_id client_id car_id description status total paid, s =>
    (Db.insertWorkOrder now booking_id client_id car_id description status total paid s).1
  | .updateStatus sch now id true status, s =>
    (Db.updateStatus sch now (fun w => decide (w.id = id) && !w.is_archived) status s).1
  | .updateStatus sch now id false status, s =>
    (Db.updateStatus sch now (fun w => decide (w.id = id)) status s).1
  | .insertWorkItem sch id name qty unit_price, s =>
    (Db.insertWorkItem sch id name qty unit_price s).1
  | .insertMaterialItem sch id material_id name qty unit_price, s =>
    (Db.insertMaterialItem sch id material_id name qty unit_price s).1
  | .insertPayment sch now id amount method paid_at, s =>
    (Db.insertPayment sch now id amount method paid_at s).1
  | .recalcTotal now id, s => Routes.recalcTotal now id s
  | .recalcPaid now id, s => Routes.recalcPaid now id s
  | .addPaid now id amount, s =>
    { s with
      work_orders := s.work_orders.map fun w =>
        if w.id = id then { w with paid_amount := w.paid_amount + amount, updated_at := now }
        else w }
  | .insertAudit now entity entity_id action details, s =>
    Db.insertAudit now entity entity_id action details s

/-- The store after a list of statements, run in order. -/
def Stmt.runAll (stmts : List Stmt) (s : Store) : Store :=
  stmts.foldl (fun st x => x.run st) s

/-- The statement is one a call on work order `target` may send (`none` for a call that
creates a work order): an UPDATE of `work_orders` names the id `target`, an INSERT into
`work_orders` only occurs without a target and with amounts that are not negative, an item has
a positive quantity and a unit price that is not negative, a payment a positive amount. -/
def Stmt.fits (target : Option Nat) : Stmt → Prop
  | .insertWorkOrder _ _ _ _ _ _ total paid => target = none ∧ 0 ≤ total ∧ 0 ≤ paid
  | .updateStatus _ _ id _ _ => target = some id
  | .insertWorkItem _ _ _ qty unit_price => 0 < qty ∧ 0 ≤ unit_price
  | .insertMaterialItem _ _ _ _ qty unit_price => 0 < qty ∧ 0 ≤ unit_price
  | .insertPayment _ _ _ amount _ _ => 0 < amount
  | .recalcTotal _ id => target = some id
  | .recalcPaid _ id => target = some id
  | .addPaid _ id amount => target = some id ∧ 0 < amount
  | .insertAudit _ _ _ _ _ => True

/-- The work order a call of an operation addresses: the id of the path, as the handler reads
it (`toInt` in the routes file, `Number` in the controller); none for the two operations that
create a work order. -/
def Op.target (rt : JsRuntime) (req : Request) : Op → Option Nat
  | .postWorkOrder => none
  | .createWorkOrder => none
  | .patchStatus => some ((Routes.toInt rt (.string req.id)).getD 0).toNat
  | .postWorkItem => some ((Routes.toInt rt (.string req.id)).getD 0).toNat
  | .postMaterialItem => some ((Routes.toInt rt (.string req.id)).getD 0).toNat
  | .postPayment => some ((Routes.toInt rt (.string req.id)).getD 0).toNat
  | .patchWorkOrderStatus => some (Controller.idOf ((JsValue.string req.id).toNumber rt))
  | .addWorkItem => some (Controller.idOf ((JsValue.string req.id).toNumber rt))
  | .addMaterialItem => some (Controller.idOf ((JsValue.string req.id).toNumber rt))
  | .addPayment => some (Controller.idOf ((JsValue.string req.id).toNumber rt))

/-- The change of the `work_orders` table that leaves the references of every row and every
row with an id other than `id` as they were: the rows correspond one to one, in order, each
keeps its id, `booking_id`, `client_id` and `car_id`, and a row whose id is not `id` is kept
whole. -/
def Frozen (id : Nat) (before after : List WorkOrder) : Prop :=
  List.Forall₂
    (fun w v => v.id = w.id ∧ v.booking_id = w.booking_id ∧ v.client_id = w.client_id
      ∧ v.car_id = w.car_id ∧ (w.id ≠ id → v = w))
    before after

/-- The ids of every ledger table lie below the next value of the table's sequence. -/
def Store.SeqAhead (s : Store) : Prop :=
  (∀ r ∈ s.work_items, r.id < s.seq_work_items)
  ∧ (∀ r ∈ s.material_items, r.id < s.seq_material_items)
  ∧ (∀ r ∈ s.payments, r.id < s.seq_payments)
  ∧ (∀ r ∈ s.audit_log, r.id < s.seq_audit_log)

/-- The rows `after` are the rows `before` followed by added rows, whose ids are drawn from
the sequence between its value `seq` before and its value `seq1` after. -/
def Appended {α : Type} (key : α → Nat) (before after : List α) (seq seq1 : Nat) : Prop :=
  seq ≤ seq1 ∧ ∃ added : List α, after = before ++ added ∧ ∀ r ∈ added, seq ≤ key r ∧ key r < seq1

/-- The ledger tables of store `t` extend those of store `s` by appended rows only. -/
def AppendOnly (s t : Store) : Prop :=
  Appended (fun r => r.id) s.work_items t.work_items s.seq_work_items t.seq_work_items
  ∧ Appended (fun r => r.id) s.material_items t.material_items s.seq_material_items
      t.seq_material_items
  ∧ Appended (fun r => r.id) s.payments t.payments s.seq_payments t.seq_payments
  ∧ Appended (fun r => r.id) s.audit_log t.audit_log s.seq_audit_log t.seq_audit_log

/-- The rows `after` are the rows `before`, unchanged and in place, followed by added rows,
each with an id larger than every id of `before`. -/
def Extends {α : Type} (key : α → Nat) (before after : List α) : Prop :=
  ∃ added : List α, after = before ++ added ∧ ∀ r ∈ added, ∀ r0 ∈ before, key r0 < key r

/-- Each of the four ledger tables of `t` extends the table of `s`. -/
def LedgerExtends (s t : Store) : Prop :=
  Extends (fun r => r.id) s.work_items t.work_items
  ∧ Extends (fun r => r.id) s.material_items t.material_items
  ∧ Extends (fun r => r.id) s.payments t.payments
  ∧ Extends (fun r => r.id) s.audit_log t.audit_log

/-- The sign conditions of the ledger: quantities and payment amounts positive, unit prices
and the two amounts of every work order not negative. -/
def Store.SignsOk (s : Store) : Prop :=
  (∀ i ∈ s.work_items, 0 < i.qty ∧ 0 ≤ i.unit_price)
  ∧ (∀ i ∈ s.material_items, 0 < i.qty ∧ 0 ≤ i.unit_price)
  ∧ (∀ p ∈ s.payments, 0 < p.amount)
  ∧ (∀ w ∈ s.work_orders, 0 ≤ w.total_amount ∧ 0 ≤ w.paid_amount)

/-- The ledger is empty: no work order, item, payment or audit entry. -/
def Store.emptyLedger (s : Store) : Prop :=
  s.work_orders = [] ∧ s.work_items = [] ∧ s.material_items = [] ∧ s.payments = []
    ∧ s.audit_log = []

/-- Whether the operation is one of the five mounted handlers. -/
def Op.mounted : Op → Bool
  | .postWorkOrder => true
  | .patchStatus => true
  | .postWorkItem => true
  | .postMaterialItem => true
  | .postPayment => true
  | _ => false

/-- The stores reachable from an empty ledger (whatever the bookings and the sequences) by
calls of the mounted handlers. -/
inductive MountedReachable (rt : JsRuntime) (sch : Schema) : Store → Prop where
  | init (s : Store) (h : s.emptyLedger) : MountedReachable rt sch s
  | step (s : Store) (op : Op) (now : Nat) (req : Request) (hm : op.mounted = true)
      (h : MountedReachable rt sch s) : MountedReachable rt sch (op.run rt sch now s req).store

/-! ## The mounted handlers under a failing audit statement -/

/-- The statement `INSERT INTO audit_log ...` when it may raise: with `ok` it is
`Db.insertAudit`; without it `pool.query` rejects (the connection is lost, say) and nothing is
written. -/
def Db.insertAuditOrRaise (ok : Bool) (now : Nat) (entity : String) (entity_id : Nat)
    (action : String) (details : List (String × JsValue)) (s : Store) :
    Store × Except DbError Unit :=
  if ok then (Db.insertAudit now entity entity_id action details s, .ok ())
  else (s, .error { code := "08006" })

namespace Faulty

/-- The handler of `POST /work-orders`, with an audit statement that may raise: the `catch`
of the handler passes the error to `next`, and `errorHandler` answers 500. -/
def postWorkOrder (auditOk : Bool) (rt : JsRuntime) (now : Nat) (s : Store) (req : Request) :
    Outcome :=
  let booking_id := Routes.toInt rt (req.field "booking_id")
  if Routes.badId booking_id then ⟨s, ⟨400, .error "booking_id is required"⟩, []⟩ else
  let booking_id := (booking_id.getD 0).toNat
  if (s.work_orders.filter (fun w => decide (w.booking_id = booking_id))).length > 0 then
    ⟨s, ⟨409, .error "WorkOrder for this booking already exists"⟩, [.selectWorkOrderByBooking]⟩
  else
  match s.bookings.filter (fun b => decide (b.id = booking_id)) with
  | [] => ⟨s, ⟨404, .error "Booking not found"⟩, [.selectWorkOrderByBooking, .selectBooking]⟩
  | bk :: _ =>
    match Db.insertWorkOrder now booking_id bk.client_id bk.car_id none "created" 0 0 s with
    | (s1, .error _) =>
      ⟨s1, internalError, [.selectWorkOrderByBooking, .selectBooking, .insertWorkOrder]⟩
    | (s1, .ok row) =>
      match Db.insertAuditOrRaise auditOk now "work_order" row.id "create"
          [("booking_id", Routes.num booking_id)] s1 with
      | (s2, .error _) =>
        ⟨s2, internalError,
          [.selectWorkOrderByBooking, .selectBooking, .insertWorkOrder, .insertAudit]⟩
      | (s2, .ok _) =>
        ⟨s2, ⟨201, .workOrder row⟩,
          [.selectWorkOrderByBooking, .selectBooking, .insertWorkOrder, .insertAudit]⟩

/-- The handler of `PATCH /work-orders/:id/status`, with an audit statement that may raise. -/
def patchStatus (auditOk : Bool) (rt : JsRuntime) (sch : Schema) (now : Nat) (s : Store)
    (req : Request) : Outcome :=
  let id := Routes.toInt rt (.string req.id)
  let status := req.field "status"
  if Routes.badId id then ⟨s, ⟨400, .error "Invalid id"⟩, []⟩ else
  if !status.truthy then ⟨s, ⟨400, .error "status is required"⟩, []⟩ else
  let id := (id.getD 0).toNat
  match status.pgParam rt with
  | none => ⟨s, internalError, [.updateStatus]⟩
  | some st =>
    match Db.updateStatus sch now (fun w => decide (w.id = id)) st s with
    | (s1, .error _) => ⟨s1, internalError, [.updateStatus]⟩
    | (s1, .ok []) => ⟨s1, ⟨404, .error "WorkOrder not found"⟩, [.updateStatus]⟩
    | (s1, .ok (row :: _)) =>
      match Db.insertAuditOrRaise auditOk now "work_order" id "status_change"
          [("status", status)] s1 with
      | (s2, .error _) => ⟨s2, internalError, [.updateStatus, .insertAudit]⟩
      | (s2, .ok _) => ⟨s2, ⟨200, .workOrder row⟩, [.updateStatus, .insertAudit]⟩

/-- The handler of `POST /work-orders/:id/work-items`, with an audit statement that may
raise. -/
def postWorkItem (auditOk : Bool) (rt : JsRuntime) (sch : Schema) (now : Nat) (s : Store)
    (req : Request) : Outcome :=
  let id := Routes.toInt rt (.string req.id)
  if Routes.badId id then ⟨s, ⟨400, .error "Invalid id"⟩, []⟩ else
  let id := (id.getD 0).toNat
  let name := Routes.itemName rt req
  if name = "" then ⟨s, ⟨400, .error "name is required"⟩, []⟩ else
  let qty := Routes.itemQty rt req
  let unit_price := Routes.itemUnitPrice rt req
  if Routes.badQty qty then ⟨s, ⟨400, .error "qty must be > 0"⟩, []⟩ else
  if Routes.badPrice unit_price then ⟨s, ⟨400, .error "unit_price/price must be >= 0"⟩, []⟩ else
  let qty := qty.getD 0
  let unit_price := unit_price.getD 0
  match Db.insertWorkItem sch id name qty unit_price s with
  | (s1, .error _) => ⟨s1, internalError, [.insertWorkItem]⟩
  | (s1, .ok row) =>
    match Db.insertAuditOrRaise auditOk now "work_order" id "add_work_item"
        [("work_item_id", Routes.num row.id), ("name", .string name), ("qty", Routes.num qty),
          ("unit_price", Routes.num unit_price)]
        (Routes.recalcTotal now id s1) with
    | (s2, .error _) => ⟨s2, internalError, [.insertWorkItem, .recalcTotal, .insertAudit]⟩
    | (s2, .ok _) => ⟨s2, ⟨201, .workItem row⟩, [.insertWorkItem, .recalcTotal, .insertAudit]⟩

/-- The handler of `POST /work-orders/:id/material-items`, with an audit statement that may
raise. -/
def postMaterialItem (auditOk : Bool) (rt : JsRuntime) (sch : Schema) (now : Nat) (s : Store)
    (req : Request) : Outcome :=
  let id := Routes.toInt rt (.string req.id)
  if Routes.badId id then ⟨s, ⟨400, .error "Invalid id"⟩, []⟩ else
  let id := (id.getD 0).toNat
  let name := Routes.itemName rt req
  if name = "" then ⟨s, ⟨400, .error "name is required"⟩, []⟩ else
  let qty := Routes.itemQty rt req
  let unit_price := Routes.itemUnitPrice rt req
  if Routes.badQty qty then ⟨s, ⟨400, .error "qty must be > 0"⟩, []⟩ else
  if Routes.badPrice unit_price then ⟨s, ⟨400, .error "unit_price/price must be >= 0"⟩, []⟩ else
  let qty := qty.getD 0
  let unit_price := unit_price.getD 0
  match Db.insertMaterialItem sch id none name qty unit_price s with
  | (s1, .error _) => ⟨s1, internalError, [.insertMaterialItem]⟩
  | (s1, .ok row) =>
    match Db.insertAuditOrRaise auditOk now "work_order" id "add_material_item"
        [("material_item_id", Routes.num row.id), ("name", .string name),
          ("qty", Routes.num qty), ("unit_price", Routes.num unit_price)]
        (Routes.recalcTotal now id s1) with
    | (s2, .error _) =>
      ⟨s2, internalError, [.insertMaterialItem, .recalcTotal, .insertAudit]⟩
    | (s2, .ok _) =>
      ⟨s2, ⟨201, .materialItem row⟩, [.insertMaterialItem, .recalcTotal, .insertAudit]⟩

/-- The handler of `POST /work-orders/:id/payments`, with an audit statement that may
raise. -/
def postPayment (auditOk : Bool) (rt : JsRuntime) (sch : Schema) (now : Nat) (s : Store)
    (req : Request) : Outcome :=
  let id := Routes.toInt rt (.string req.id)
  if Routes.badId id then ⟨s, ⟨400, .error "Invalid id"⟩, []⟩ else
  let id := (id.getD 0).toNat
  let amount := Routes.toNum rt (req.field "amount")
  let method := ((req.field "method").orElse (.string "cash")).toText rt
  if Routes.badAmount amount then ⟨s, ⟨400, .error "amount is required"⟩, []⟩ else
  let amount := amount.getD 0
  match Db.insertPayment sch now id amount method none s with
  | (s1, .error _) => ⟨s1, internalError, [.insertPayment]⟩
  | (s1, .ok row) =>
    match Db.insertAuditOrRaise auditOk now "work_order" id "payment"
        [("payment_id", Routes.num row.id), ("amount", Routes.num amount),
          ("method", .string method)]
        (Routes.recalcPaid now id s1) with
    | (s2, .error _) => ⟨s2, internalError, [.insertPayment, .recalcPaid, .insertAudit]⟩
    | (s2, .ok _) => ⟨s2, ⟨201, .payment row⟩, [.insertPayment, .recalcPaid, .insertAudit]⟩

/-- The outcome of a mounted operation under an audit statement that may raise; the functions
of the controller are left as they are. -/
def run (auditOk : Bool) (rt : JsRuntime) (sch : Schema) (now : Nat) (s : Store)
    (req : Request) : Op → Outcome
  | .postWorkOrder => postWorkOrder auditOk rt now s req
  | .patchStatus => patchStatus auditOk rt sch now s req
  | .postWorkItem => postWorkItem auditOk rt sch now s req
  | .postMaterialItem => postMaterialItem auditOk rt sch now s req
  | .postPayment => postPayment auditOk rt sch now s req
  | op => op.run rt sch now s req

end Faulty

/-- What a failed audit statement leaves of a call, for the outcome `o` of the call and the
outcome `f` of the same call under a failing audit statement, both on store `s`: either the
call is not answered 200 or 201 anyway and the two outcomes are the same, or it is, and then
the call under the failing audit statement is answered 500, leaves the audit log of `s`, and
leaves a store that differs from the store of the successful call by the audit entry (and the
value of the audit sequence) only. -/
def AuditLost (s : Store) (o f : Outcome) : Prop :=
  (o.response.status ∉ [200, 201] ∧ f = o)
  ∨ (o.response.status ∈ [200, 201] ∧ f.response = internalError
    ∧ f.store.audit_log = s.audit_log
    ∧ ∃ e : AuditEntry,
        o.store = { f.store with
          audit_log := f.store.audit_log ++ [e],
          seq_audit_log := f.store.seq_audit_log + 1 })

/-! ## The handlers on a store whose id columns are integers -/

/-- Whether a parameter bound to an id column lies beyond `maxId`, the largest value of the
column's integer type (the DDL is not part of the source tree: 2147483647 for `integer`,
9223372036854775807 for `bigint`).  The statement then raises SQLSTATE 22003 and neither reads
nor writes a row. -/
def Db.outOfRange (maxId id : Nat) : Bool :=
  decide (maxId < id)

/-- The largest value of the PostgreSQL type `integer`. -/
def integerMax : Nat := 2147483647

/-- The largest value of the PostgreSQL type `bigint`. -/
def bigintMax : Nat := 9223372036854775807

namespace Ranged

/-- The handler of `PATCH /work-orders/:id/status` on a store whose id columns hold integers up
to `maxId`: the UPDATE raises for an id beyond, the `catch` passes the error to `next`, and
`errorHandler` answers 500. -/
def patchStatus (maxId : Nat) (rt : JsRuntime) (sch : Schema) (now : Nat) (s : Store)
    (req : Request) : Outcome :=
  let id := Routes.toInt rt (.string req.id)
  let status := req.field "status"
  if Routes.badId id then ⟨s, ⟨400, .error "Invalid id"⟩, []⟩ else
  if !status.truthy then ⟨s, ⟨400, .error "status is required"⟩, []⟩ else
  let id := (id.getD 0).toNat
  match status.pgParam rt with
  | none => ⟨s, internalError, [.updateStatus]⟩
  | some st =>
    if Db.outOfRange maxId id then ⟨s, internalError, [.updateStatus]⟩ else
    match Db.updateStatus sch now (fun w => decide (w.id = id)) st s with
    | (s1, .error _) => ⟨s1, internalError, [.updateStatus]⟩
    | (s1, .ok []) => ⟨s1, ⟨404, .error "WorkOrder not found"⟩, [.updateStatus]⟩
    | (s1, .ok (row :: _)) =>
      ⟨Db.insertAudit now "work_order" id "status_change" [("status", status)] s1,
        ⟨200, .workOrder row⟩, [.updateStatus, .insertAudit]⟩

/-- The function `updateWorkOrderStatus` of the repository on such a store. -/
def updateWorkOrderStatus (maxId : Nat) (sch : Schema) (now id : Nat) (status : String)
    (s : Store) : Store × Except DbError (Option WorkOrder) :=
  if Db.outOfRange maxId id then (s, .error { code := "22003" })
  else Repo.updateWorkOrderStatus sch now id status s

/-- The function `patchWorkOrderStatus` of the controller on such a store. -/
def patchWorkOrderStatus (maxId : Nat) (rt : JsRuntime) (sch : Schema) (now : Nat) (s : Store)
    (req : Request) : Outcome :=
  let id := (JsValue.string req.id).toNumber rt
  if Controller.invalidId id then ⟨s, ⟨400, .error "Invalid id"⟩, []⟩ else
  match req.field "status" with
  | .string status =>
    if !decide (status ∈ Controller.WORK_ORDER_STATUSES) then
      ⟨s, ⟨400, .error "Validation error"⟩, []⟩
    else
    match updateWorkOrderStatus maxId sch now (Controller.idOf id) status s with
    | (s1, .error _) => ⟨s1, internalError, [.updateWorkOrderStatus]⟩
    | (s1, .ok none) => ⟨s1, ⟨404, .error "WorkOrder not found"⟩, [.updateWorkOrderStatus]⟩
    | (s1, .ok (some updated)) =>
      ⟨Repo.createAudit now "work_order" (Controller.idOf id) "status_change"
          [("status", .string status)] s1,
        ⟨200, .statusRow updated.id updated.status updated.updated_at⟩,
        [.updateWorkOrderStatus, .createAudit]⟩
  | _ => ⟨s, ⟨400, .error "Validation error"⟩, []⟩

/-- The handler of `POST /work-orders` on such a store: the pre-check SELECT, the first
statement to bind `booking_id`, raises for a value beyond `maxId`. -/
def postWorkOrder (maxId : Nat) (rt : JsRuntime) (now : Nat) (s : Store) (req : Request) :
    Outcome :=
  let booking_id := Routes.toInt rt (req.field "booking_id")
  if Routes.badId booking_id then ⟨s, ⟨400, .error "booking_id is required"⟩, []⟩ else
  let booking_id := (booking_id.getD 0).toNat
  if Db.outOfRange maxId booking_id then
    ⟨s, internalError, [.selectWorkOrderByBooking]⟩
  else
  if (s.work_orders.filter (fun w => decide (w.booking_id = booking_id))).length > 0 then
    ⟨s, ⟨409, .error "WorkOrder for this booking already exists"⟩, [.selectWorkOrderByBooking]⟩
  else
  match s.bookings.filter (fun b => decide (b.id = booking_id)) with
  | [] => ⟨s, ⟨404, .error "Booking not found"⟩, [.selectWorkOrderByBooking, .selectBooking]⟩
  | bk :: _ =>
    match Db.insertWorkOrder now booking_id bk.client_id bk.car_id none "created" 0 0 s with
    | (s1, .error _) =>
      ⟨s1, internalError, [.selectWorkOrderByBooking, .selectBooking, .insertWorkOrder]⟩
    | (s1, .ok row) =>
      ⟨Db.insertAudit now "work_order" row.id "create"
          [("booking_id", Routes.num booking_id)] s1,
        ⟨201, .workOrder row⟩,
        [.selectWorkOrderByBooking, .selectBooking, .insertWorkOrder, .insertAudit]⟩

/-- The function `createWorkOrderFromBooking` of the repository on such a store. -/
def createWorkOrderFromBooking (maxId : Nat) (rt : JsRuntime) (now booking_id : Nat)
    (description : JsValue) (s : Store) : Store × Except DbError (Option WorkOrder) :=
  if Db.outOfRange maxId booking_id then (s, .error { code := "22003" })
  else Repo.createWorkOrderFromBooking rt now booking_id description s

/-- The function `createWorkOrder` of the controller on such a store; the error code 22003 is
not 23505, so the error goes to `next` unchanged and is answered 500. -/
def createWorkOrder (maxId : Nat) (rt : JsRuntime) (now : Nat) (s : Store) (req : Request) :
    Outcome :=
  let bid := (req.field "booking_id").toNumber rt
  if Controller.invalidId bid then ⟨s, ⟨400, .error "Validation error"⟩, []⟩ else
  match createWorkOrderFromBooking maxId rt now (Controller.idOf bid)
      (req.field "description") s with
  | (s1, .error e) =>
    if e.code = "23505" then
      ⟨s1, ⟨409, .error "WorkOrder for this booking already exists"⟩,
        [.createWorkOrderFromBooking]⟩
    else ⟨s1, internalError, [.createWorkOrderFromBooking]⟩
  | (s1, .ok none) => ⟨s1, ⟨404, .error "Booking not found"⟩, [.createWorkOrderFromBooking]⟩
  | (s1, .ok (some created)) =>
    ⟨Repo.createAudit now "work_order" created.id "create"
        [("booking_id", Routes.num (Controller.idOf bid))] s1,
      ⟨201, .workOrder created⟩, [.createWorkOrderFromBooking, .createAudit]⟩

/-- The handler of `GET /work-orders/:id/full` on such a store: the first SELECT raises for an
id beyond `maxId`, which `errorHandler` answers with 500; for an id within the range the
handler is `Routes.getFull`. -/
def getFull (maxId : Nat) (rt : JsRuntime) (s : Store) (req : Request) : Response :=
  let id := Routes.toInt rt (.string req.id)
  if Routes.badId id then ⟨400, .error "Invalid id"⟩ else
  if Db.outOfRange maxId (id.getD 0).toNat then internalError else
  Routes.getFull rt s req

/-- The function `getWorkOrderFull` of the repository on such a store: the SELECT of
`getWorkOrderById` raises for an id beyond `maxId`, and the function throws. -/
def getWorkOrderFull (maxId id : Nat) (s : Store) : Except DbError (Option FullAggregate) :=
  if Db.outOfRange maxId id then .error { code := "22003" }
  else .ok (Repo.getWorkOrderFull id s)

end Ranged

namespace Faulty

/-- The function `patchWorkOrderStatus` of the controller, with a `createAudit` that may
raise. -/
def patchWorkOrderStatus (auditOk : Bool) (rt : JsRuntime) (sch : Schema) (now : Nat)
    (s : Store) (req : Request) : Outcome :=
  let id := (JsValue.string req.id).toNumber rt
  if Controller.invalidId id then ⟨s, ⟨400, .error "Invalid id"⟩, []⟩ else
  match req.field "status" with
  | .string status =>
    if !decide (status ∈ Controller.WORK_ORDER_STATUSES) then
      ⟨s, ⟨400, .error "Validation error"⟩, []⟩
    else
    match Repo.updateWorkOrderStatus sch now (Controller.idOf id) status s with
    | (s1, .error _) => ⟨s1, internalError, [.updateWorkOrderStatus]⟩
    | (s1, .ok none) => ⟨s1, ⟨404, .error "WorkOrder not found"⟩, [.updateWorkOrderStatus]⟩
    | (s1, .ok (some updated)) =>
      match Db.insertAuditOrRaise auditOk now "work_order" (Controller.idOf id) "status_change"
          [("status", .string status)] s1 with
      | (s2, .error _) => ⟨s2, internalError, [.updateWorkOrderStatus, .createAudit]⟩
      | (s2, .ok _) =>
        ⟨s2, ⟨200, .statusRow updated.id updated.status updated.updated_at⟩,
          [.updateWorkOrderStatus, .createAudit]⟩
  | _ => ⟨s, ⟨400, .error "Validation error"⟩, []⟩

end Faulty

/-! ## Stores and requests for concrete evaluations -/

/-- A store with booking 42 (client 1, car 7) and no work order. -/
def bookedStore : Store :=
  { bookings := [{ id := 42, client_id := 1, car_id := 7 }], work_orders := [],
    work_items := [], material_items := [], payments := [], audit_log := [],
    seq_work_orders := 1, seq_work_items := 1, seq_material_items := 1, seq_payments := 1,
    seq_audit_log := 1 }

/-- A store with two work orders, 1 (for booking 42) and 2 (for booking 43); the amounts stored
for order 1 are stale. -/
def sampleStore : Store :=
  { bookings := [{ id := 42, client_id := 1, car_id := 7 }, { id := 43, client_id := 2, car_id := 8 }],
    work_orders :=
      [{ id := 1, booking_id := 42, client_id := 1, car_id := 7, description := none,
         status := "created", total_amount := 99, paid_amount := 98, is_archived := false,
         created_at := 1, updated_at := 1 },
       { id := 2, booking_id := 43, client_id := 2, car_id := 8, description := none,
         status := "closed", total_amount := 300, paid_amount := 40, is_archived := false,
         created_at := 2, updated_at := 2 }],
    work_items :=
      [{ id := 1, work_order_id := 1, name := "Oil change", qty := 1, unit_price := 2500 },
       { id := 2, work_order_id := 2, name := "Diagnostics", qty := 2, unit_price := 150 }],
    material_items :=
      [{ id := 1, work_order_id := 1, material_id := none, name := "Oil", qty := 4,
         unit_price := 800 }],
    payments :=
      [{ id := 1, work_order_id := 1, amount := 1000, method := "cash", status := "paid",
         paid_at := none, created_at := 3 },
       { id := 2, work_order_id := 1, amount := 500, method := "card", status := "pending",
         paid_at := none, created_at := 4 },
       { id := 3, work_order_id := 2, amount := 40, method := "cash", status := "paid",
         paid_at := none, created_at := 5 }],
    audit_log := [],
    seq_work_orders := 3, seq_work_items := 3, seq_material_items := 2, seq_payments := 4,
    seq_audit_log := 1 }

/-- The request `POST /work-orders` with body `booking_id: 42`. -/
def createRequest : Request :=
  { id := "", body := [("booking_id", Routes.num 42)] }

/-- The request `POST /work-orders/1/work-items` for one oil change at 2500. -/
def workItemRequest : Request :=
  { id := "1",
    body := [("name", .string "Замена масла"), ("qty", Routes.num 1),
      ("unit_price", Routes.num 2500)] }

/-- The request `POST /work-orders/1/material-items` for four units of oil at 800. -/
def materialItemRequest : Request :=
  { id := "1",
    body := [("name", .string "Масло"), ("qty", Routes.num 4), ("unit_price", Routes.num 800)] }

/-- The request `POST /work-orders/1/payments` of 5700 by card. -/
def paymentRequest : Request :=
  { id := "1", body := [("amount", Routes.num 5700), ("method", .string "card")] }

/-- The store after the mounted handler created the work order of booking 42. -/
def createdStore : Store :=
  (Routes.postWorkOrder decimalRuntime 10 bookedStore createRequest).store

/-- The two add-item calls of the scenario. -/
def itemCalls : List ItemCall :=
  [{ material := false, now := 11, req := workItemRequest },
   { material := true, now := 12, req := materialItemRequest }]

/-- The request `PATCH /work-orders/1/status` with a status outside the six recognised ones. -/
def bogusStatusRequest : Request :=
  { id := "1", body := [("status", .string "bogus")] }

/-- The request `POST /work-orders/1/work-items` with quantity 0. -/
def zeroQtyRequest : Request :=
  { id := "1",
    body := [("name", .string "Замена масла"), ("qty", Routes.num 0),
      ("unit_price", Routes.num 2500)] }

/-- The request `GET /work-orders/1/full`. -/
def fullRequest : Request :=
  { id := "1", body := [] }

/-- The request `PATCH /work-orders/99/status` with status closed; no work order has id 99 in
the stores of this section. -/
def closedStatusRequest : Request :=
  { id := "99", body := [("status", .string "closed")] }

/-- The request `PATCH /work-orders/2/status` with status created. -/
def reopenRequest : Request :=
  { id := "2", body := [("status", .string "created")] }

/-- The request `POST /work-orders` with body `booking_id: 77`; no booking has id 77 in the
stores of this section. -/
def missingBookingRequest : Request :=
  { id := "", body := [("booking_id", Routes.num 77)] }

/-- The request `POST /work-orders/99/work-items` (or `material-items`) with a valid body. -/
def orphanItemRequest : Request :=
  { id := "99",
    body := [("name", .string "Диагностика"), ("qty", Routes.num 1),
      ("unit_price", Routes.num 10)] }

/-- The request `POST /work-orders/99/payments` with a valid body. -/
def orphanPaymentRequest : Request :=
  { id := "99", body := [("amount", Routes.num 10), ("method", .string "cash")] }

/-- The request `POST /work-orders/1/work-items` (or `material-items`) whose quantity is the
string `Infinity`. -/
def infiniteQtyRequest : Request :=
  { id := "1", body := [("name", .string "Диагностика"), ("qty", .string "Infinity")] }

/-- The request `POST /work-orders/1/work-items` (or `material-items`) whose unit price is the
string `Infinity`. -/
def infinitePriceRequest : Request :=
  { id := "1", body := [("name", .string "Диагностика"), ("unit_price", .string "Infinity")] }

/-- The request `POST /work-orders/1/payments` whose amount is the string `Infinity`. -/
def infiniteAmountRequest : Request :=
  { id := "1", body := [("amount", .string "Infinity")] }

/-- The request `POST /work-orders/1/work-items` (or `material-items`) that carries a name
only. -/
def nameOnlyRequest : Request :=
  { id := "1", body := [("name", .string "Диагностика")] }

/-- The request `POST /work-orders/1/payments` of 100 with a method outside cash, card and
transfer. -/
def bitcoinPaymentRequest : Request :=
  { id := "1", body := [("amount", Routes.num 100), ("method", .string "bitcoin")] }

/-- The request `POST /work-orders/1/material-items` for four units of oil at 800 that names
material 5 of the catalogue. -/
def materialRefRequest : Request :=
  { id := "1",
    body := [("name", .string "Oil"), ("qty", Routes.num 4), ("unit_price", Routes.num 800),
      ("material_id", Routes.num 5)] }

/-- The request `POST /work-orders/1/material-items` whose `material_id` is -3. -/
def badMaterialRefRequest : Request :=
  { id := "1",
    body := [("name", .string "Oil"), ("qty", Routes.num 4), ("unit_price", Routes.num 800),
      ("material_id", Routes.num (-3))] }

/-- The request `POST /work-orders` with body `booking_id: 42` and a description. -/
def describedCreateRequest : Request :=
  { id := "", body := [("booking_id", Routes.num 42), ("description", .string "Brake noise")] }

/-- The request `PATCH /work-orders/99999999999999999999/status` with status closed (also used
as `GET /work-orders/99999999999999999999/full`): the id is a positive integer beyond the range
of `integer` and of `bigint`. -/
def hugeIdRequest : Request :=
  { id := "99999999999999999999", body := [("status", .string "closed")] }

/-- The request `POST /work-orders` with body `booking_id: 99999999999999999999`. -/
def hugeBookingRequest : Request :=
  { id := "", body := [("booking_id", Routes.num 99999999999999999999)] }

/-- The request `POST /work-orders/1/work-items` (or `material-items`) with `qty: null`. -/
def nullQtyRequest : Request :=
  { id := "1",
    body := [("name", .string "Диагностика"), ("qty", .null), ("unit_price", Routes.num 10)] }

/-- A schema with every constraint in place. -/
def strictSchema : Schema :=
  { work_order_fk := true, status_check := true, method_check := true }

/-- A schema with none of the constraints. -/
def laxSchema : Schema :=
  { work_order_fk := false, status_check := false, method_check := false }

/-- The store of the scenario after the two items were added to the created work order. -/
def itemsStore (sch : Schema) : Store :=
  runItemCalls decimalRuntime sch createdStore itemCalls

/-- The store of the scenario after the payment of 5700. -/
def paidStore (sch : Schema) : Store :=
  (Routes.postPayment decimalRuntime sch 13 (itemsStore sch) paymentRequest).store

/-! ## Theorems: totals -/

theorem coalesce_sqlSum (l : List ℚ) : coalesce (sqlSum l) 0 = l.sum := by
  cases l with
  | nil => rfl
  | cons x xs =>
    induction xs generalizing x with
    | nil => simp [sqlSum, coalesce]
    | cons y ys ih =>
      have h := ih y
      simp only [sqlSum, coalesce, Option.getD_some, List.sum_cons] at h ⊢
      rw [h]

theorem coalesce_sumWorkItems_add (s : Store) (id : Nat) :
    coalesce (sumWorkItems s id) 0 + coalesce (sumMaterialItems s id) 0 = specTotal s id := by
  simp only [sumWorkItems, sumMaterialItems, coalesce_sqlSum, specTotal]

theorem coalesce_sumPaidPayments (s : Store) (id : Nat) :
    coalesce (sumPaidPayments s id) 0 = specPaid s id := by
  simp only [sumPaidPayments, coalesce_sqlSum, specPaid]

theorem sum_filter_append_other {α : Type} (f : α → ℚ) (p : α → Bool) (l extra : List α)
    (h : ∀ x ∈ extra, p x = false) :
    (((l ++ extra).filter p).map f).sum = ((l.filter p).map f).sum := by
  have : extra.filter p = [] := by
    rw [List.filter_eq_nil_iff]
    intro x hx
    simp [h x hx]
  simp [List.filter_append, this]

theorem recalcTotal_work_orders (now id : Nat) (s : Store) :
    (Routes.recalcTotal now id s).work_orders = s.work_orders.map fun w =>
      if w.id = id then { w with total_amount := specTotal s id, updated_at := now } else w := by
  simp only [Routes.recalcTotal, coalesce_sumWorkItems_add]

theorem recalcTotals_store (now id : Nat) (s : Store) :
    (Repo.recalcTotals now id s).1 = Routes.recalcTotal now id s := rfl

theorem recalcPaid_work_orders (now id : Nat) (s : Store) :
    (Routes.recalcPaid now id s).work_orders = s.work_orders.map fun w =>
      if w.id = id then { w with paid_amount := specPaid s id, updated_at := now } else w := by
  simp only [Routes.recalcPaid, coalesce_sumPaidPayments]

theorem recalcTotal_ids (now id : Nat) (s : Store) :
    (Routes.recalcTotal now id s).work_orders.map (fun w => w.id)
      = s.work_orders.map (fun w => w.id) := by
  rw [recalcTotal_work_orders, List.map_map]
  apply List.map_congr_left
  intro w _
  by_cases h : w.id = id <;> simp [h]

theorem recalcTotal_total (now id : Nat) (s : Store) :
    ∀ w ∈ (Routes.recalcTotal now id s).work_orders, w.id = id →
      w.total_amount = specTotal s id := by
  intro w hw hid
  rw [recalcTotal_work_orders, List.mem_map] at hw
  obtain ⟨v, _, rfl⟩ := hw
  by_cases h : v.id = id
  · simp [h]
  · simp [h] at hid

theorem recalcPaid_ids (now id : Nat) (s : Store) :
    (Routes.recalcPaid now id s).work_orders.map (fun w => w.id)
      = s.work_orders.map (fun w => w.id) := by
  rw [recalcPaid_work_orders, List.map_map]
  apply List.map_congr_left
  intro w _
  by_cases h : w.id = id <;> simp [h]

theorem recalcPaid_paid (now id : Nat) (s : Store) :
    ∀ w ∈ (Routes.recalcPaid now id s).work_orders, w.id = id →
      w.paid_amount = specPaid s id := by
  intro w hw hid
  rw [recalcPaid_work_orders, List.mem_map] at hw
  obtain ⟨v, _, rfl⟩ := hw
  by_cases h : v.id = id
  · simp [h]
  · simp [h] at hid

theorem specTotal_other_items (s : Store) (id : Nat) (extraW : List WorkItem)
    (extraM : List MaterialItem) (hW : ∀ i ∈ extraW, i.work_order_id ≠ id)
    (hM : ∀ i ∈ extraM, i.work_order_id ≠ id) :
    specTotal { s with work_items := s.work_items ++ extraW,
                       material_items := s.material_items ++ extraM } id = specTotal s id := by
  simp only [specTotal]
  rw [sum_filter_append_other, sum_filter_append_other]
  · intro x hx; simpa using hM x hx
  · intro x hx; simpa using hW x hx

theorem specTotal_no_items (s : Store) (id : Nat)
    (hW : ∀ i ∈ s.work_items, i.work_order_id ≠ id)
    (hM : ∀ i ∈ s.material_items, i.work_order_id ≠ id) : specTotal s id = 0 := by
  have h1 : s.work_items.filter (fun i => decide (i.work_order_id = id)) = [] := by
    rw [List.filter_eq_nil_iff]; intro x hx; simpa using hW x hx
  have h2 : s.material_items.filter (fun i => decide (i.work_order_id = id)) = [] := by
    rw [List.filter_eq_nil_iff]; intro x hx; simpa using hM x hx
  simp [specTotal, h1, h2]

/-- C1. After `recalcTotal(id)` of the routes file, and after `repo.recalcTotals(id)`, every
work order with that id stores as `total_amount` the sum of `qty × unit_price` over the work
items of the order plus the sum over its material items (0 when there are none), whatever was
stored before; the rows of `work_orders` keep their ids, the item tables are untouched, the row
returned by the repository carries the same total, and items of other work orders added to the
store change nothing. -/
theorem recalcTotal_stores_item_sum (now id : Nat) (s : Store) :
    (∀ w ∈ (Routes.recalcTotal now id s).work_orders, w.id = id →
        w.total_amount = specTotal s id)
    ∧ (∀ w ∈ (Repo.recalcTotals now id s).1.work_orders, w.id = id →
        w.total_amount = specTotal s id)
    ∧ (∀ r, (Repo.recalcTotals now id s).2 = some r → r.id = id ∧ r.total_amount = specTotal s id)
    ∧ (Routes.recalcTotal now id s).work_orders.map (fun w => w.id)
        = s.work_orders.map (fun w => w.id)
    ∧ (Repo.recalcTotals now id s).1.work_orders.map (fun w => w.id)
        = s.work_orders.map (fun w => w.id)
    ∧ (Routes.recalcTotal now id s).work_items = s.work_items
    ∧ (Routes.recalcTotal now id s).material_items = s.material_items
    ∧ (Repo.recalcTotals now id s).1.work_items = s.work_items
    ∧ (Repo.recalcTotals now id s).1.material_items = s.material_items
    ∧ ((∀ i ∈ s.work_items, i.work_order_id ≠ id) →
        (∀ i ∈ s.material_items, i.work_order_id ≠ id) → specTotal s id = 0)
    ∧ (∀ (extraW : List WorkItem) (extraM : List MaterialItem),
        (∀ i ∈ extraW, i.work_order_id ≠ id) → (∀ i ∈ extraM, i.work_order_id ≠ id) →
        ∀ w ∈ (Routes.recalcTotal now id
            { s with work_items := s.work_items ++ extraW,
                     material_items := s.material_items ++ extraM }).work_orders,
          w.id = id → w.total_amount = specTotal s id) := by
  refine ⟨recalcTotal_total now id s, ?_, ?_, recalcTotal_ids now id s, ?_, rfl, rfl, rfl, rfl,
    ?_, ?_⟩
  · rw [recalcTotals_store]; exact recalcTotal_total now id s
  · intro r hr
    have hr' : ((((Routes.recalcTotal now id s).work_orders.filter
        (fun w => decide (w.id = id))).head?).map Repo.totalsRow) = some r := hr
    rw [Option.map_eq_some'] at hr'
    obtain ⟨w, hw, rfl⟩ := hr'
    have hmem := List.mem_of_mem_head? hw
    rw [List.mem_filter] at hmem
    have hid : w.id = id := by simpa using hmem.2
    exact ⟨hid, recalcTotal_total now id s w hmem.1 hid⟩
  · rw [recalcTotals_store]; exact recalcTotal_ids now id s
  · exact specTotal_no_items s id
  · intro extraW extraM hW hM w hw hid
    rw [← specTotal_other_items s id extraW extraM hW hM]
    exact recalcTotal_total now id _ w hw hid

theorem recalcTotal_stores_item_sum_witness :
    (sampleStore.work_orders.head?.map (fun w => w.id)) = some 1
    ∧ ∀ w ∈ (Routes.recalcTotal 10 1 sampleStore).work_orders, w.id = 1 →
        w.total_amount = specTotal sampleStore 1 :=
  ⟨by decide, (recalcTotal_stores_item_sum 10 1 sampleStore).1⟩

theorem recalcTotal_twice (t1 t2 id : Nat) (s : Store) :
    Routes.recalcTotal t2 id (Routes.recalcTotal t1 id s) = Routes.recalcTotal t2 id s := by
  have hW : sumWorkItems (Routes.recalcTotal t1 id s) id = sumWorkItems s id := rfl
  have hM : sumMaterialItems (Routes.recalcTotal t1 id s) id = sumMaterialItems s id := rfl
  unfold Routes.recalcTotal at hW hM ⊢
  simp only [hW, hM, List.map_map, Store.mk.injEq, true_and, and_true]
  apply List.map_congr_left
  intro w _
  by_cases h : w.id = id <;> simp [h]

theorem recalcPaid_twice (t1 t2 id : Nat) (s : Store) :
    Routes.recalcPaid t2 id (Routes.recalcPaid t1 id s) = Routes.recalcPaid t2 id s := by
  have hP : sumPaidPayments (Routes.recalcPaid t1 id s) id = sumPaidPayments s id := rfl
  unfold Routes.recalcPaid at hP ⊢
  simp only [hP, List.map_map, Store.mk.injEq, true_and, and_true]
  apply List.map_congr_left
  intro w _
  by_cases h : w.id = id <;> simp [h]

theorem recalcTotal_withoutUpdatedAt (t1 t2 id : Nat) (s : Store) :
    (Routes.recalcTotal t2 id s).withoutUpdatedAt
      = (Routes.recalcTotal t1 id s).withoutUpdatedAt := by
  simp only [Routes.recalcTotal, Store.withoutUpdatedAt, List.map_map, Store.mk.injEq, true_and,
    and_true]
  apply List.map_congr_left
  intro w _
  by_cases h : w.id = id <;> simp [h]

theorem recalcPaid_withoutUpdatedAt (t1 t2 id : Nat) (s : Store) :
    (Routes.recalcPaid t2 id s).withoutUpdatedAt
      = (Routes.recalcPaid t1 id s).withoutUpdatedAt := by
  simp only [Routes.recalcPaid, Store.withoutUpdatedAt, List.map_map, Store.mk.injEq, true_and,
    and_true]
  apply List.map_congr_left
  intro w _
  by_cases h : w.id = id <;> simp [h]

/-- C4. Recomputation is idempotent.  Running `recalcTotal(id)`, `recalcPaid(id)` or
`repo.recalcTotals(id)` a second time gives the store that a single run at the second time
gives, so the stored amount is the one of the first run; and the store after the second run
equals the store after the first in every field other than `updated_at`.  The repository
function returns the same totals both times. -/
theorem recalc_idempotent (t1 t2 id : Nat) (s : Store) :
    Routes.recalcTotal t2 id (Routes.recalcTotal t1 id s) = Routes.recalcTotal t2 id s
    ∧ Routes.recalcPaid t2 id (Routes.recalcPaid t1 id s) = Routes.recalcPaid t2 id s
    ∧ Repo.recalcTotals t2 id (Repo.recalcTotals t1 id s).1 = Repo.recalcTotals t2 id s
    ∧ (Routes.recalcTotal t2 id (Routes.recalcTotal t1 id s)).withoutUpdatedAt
        = (Routes.recalcTotal t1 id s).withoutUpdatedAt
    ∧ (Routes.recalcPaid t2 id (Routes.recalcPaid t1 id s)).withoutUpdatedAt
        = (Routes.recalcPaid t1 id s).withoutUpdatedAt
    ∧ (Repo.recalcTotals t2 id (Repo.recalcTotals t1 id s).1).1.withoutUpdatedAt
        = (Repo.recalcTotals t1 id s).1.withoutUpdatedAt
    ∧ ((Repo.recalcTotals t2 id (Repo.recalcTotals t1 id s).1).2.map (fun r => r.total_amount)
        = (Repo.recalcTotals t1 id s).2.map (fun r => r.total_amount)) := by
  have hrepo : Repo.recalcTotals t2 id (Repo.recalcTotals t1 id s).1 = Repo.recalcTotals t2 id s := by
    have h1 : (Repo.recalcTotals t1 id s).1 = Routes.recalcTotal t1 id s := rfl
    have h2 : ∀ u, Repo.recalcTotals t2 id u = (Routes.recalcTotal t2 id u,
        (((Routes.recalcTotal t2 id u).work_orders.filter
          (fun w => decide (w.id = id))).head?).map Repo.totalsRow) := fun _ => rfl
    rw [h1, h2, h2, recalcTotal_twice]
  refine ⟨recalcTotal_twice t1 t2 id s, recalcPaid_twice t1 t2 id s, hrepo, ?_, ?_, ?_, ?_⟩
  · rw [recalcTotal_twice]; exact recalcTotal_withoutUpdatedAt t1 t2 id s
  · rw [recalcPaid_twice]; exact recalcPaid_withoutUpdatedAt t1 t2 id s
  · rw [hrepo]; exact recalcTotal_withoutUpdatedAt t1 t2 id s
  · rw [hrepo]
    have h2 : ∀ t, (Repo.recalcTotals t id s).2 =
        (((Routes.recalcTotal t id s).work_orders.filter
          (fun w => decide (w.id = id))).head?).map Repo.totalsRow := fun _ => rfl
    rw [h2, h2, recalcTotal_work_orders, recalcTotal_work_orders]
    induction s.work_orders with
    | nil => rfl
    | cons w ws ih =>
      by_cases h : w.id = id
      · simp [h, Repo.totalsRow, List.filter_cons]
      · simpa [h, List.filter_cons] using ih

/-! ## Theorems: payments -/

theorem specPaid_other_payments (s : Store) (id : Nat) (extra : List Payment)
    (h : ∀ p ∈ extra, p.work_order_id ≠ id ∨ p.status ≠ "paid") :
    specPaid { s with payments := s.payments ++ extra } id = specPaid s id := by
  simp only [specPaid]
  apply sum_filter_append_other
  intro p hp
  rcases h p hp with h1 | h1 <;> simp [h1]

theorem specPaid_append_paid (s : Store) (id : Nat) (row : Payment)
    (h1 : row.work_order_id = id) (h2 : row.status = "paid") :
    specPaid { s with payments := s.payments ++ [row] } id = specPaid s id + row.amount := by
  simp [specPaid, List.filter_append, List.filter_cons, h1, h2]

theorem postPayment_of_201 (rt : JsRuntime) (sch : Schema) (now : Nat) (s : Store)
    (req : Request) (id : Nat) (hid : Routes.toInt rt (.string req.id) = some (id : ℤ))
    (hok : (Routes.postPayment rt sch now s req).response.status = 201) :
    ∃ row : Payment, row.work_order_id = id ∧ row.status = "paid" ∧ row.id = s.seq_payments
      ∧ (Routes.postPayment rt sch now s req).response.body = .payment row
      ∧ (Routes.postPayment rt sch now s req).store
        = Db.insertAudit now "work_order" id "payment"
            [("payment_id", Routes.num row.id), ("amount", Routes.num row.amount),
              ("method", .string row.method)]
            (Routes.recalcPaid now id
              { s with payments := s.payments ++ [row], seq_payments := s.seq_payments + 1 }) := by
  have hb1 : Routes.badId (some (id : ℤ)) = false := by
    by_contra hc
    simp [Routes.postPayment, hid, hc] at hok
  have hb2 : Routes.badAmount (Routes.toNum rt (req.field "amount")) = false := by
    by_contra hc
    simp [Routes.postPayment, hid, hb1, hc] at hok
  have hfk : Db.fkViolated sch id s = false := by
    by_contra hc
    simp [Routes.postPayment, hid, hb1, hb2, Db.insertPayment, hc, internalError] at hok
  have hm : (sch.method_check && !decide
      (((req.field "method").orElse (.string "cash")).toText rt ∈ methodValues)) = false := by
    by_contra hc
    simp only [Bool.not_eq_false] at hc
    simp [Routes.postPayment, hid, hb1, hb2, Db.insertPayment, hfk, hc, internalError] at hok
  refine ⟨⟨s.seq_payments, id, (Routes.toNum rt (req.field "amount")).getD 0,
    ((req.field "method").orElse (.string "cash")).toText rt, "paid", none, now⟩, rfl, rfl, rfl, ?_, ?_⟩
  · simp [Routes.postPayment, hid, hb1, hb2, Db.insertPayment, hfk, hm]
  · simp [Routes.postPayment, hid, hb1, hb2, Db.insertPayment, hfk, hm]


/-- C3. After a successful (201) mounted `POST /work-orders/:id/payments` call every work
order with that id stores as `paid_amount` the sum of `amount` over the payments of the order
whose status is paid, in the store the call leaves, whatever was stored before.  The rows of
`work_orders` keep their ids; the inserted payment is the one returned, belongs to the order,
has status paid and is counted; payments of another order or with another status, were any
added to the store, would not change that sum. -/
theorem postPayment_stores_paid_sum (rt : JsRuntime) (sch : Schema) (now : Nat) (s : Store)
    (req : Request) (id : Nat) (hid : Routes.toInt rt (.string req.id) = some (id : ℤ))
    (hok : (Routes.postPayment rt sch now s req).response.status = 201) :
    (∀ w ∈ (Routes.postPayment rt sch now s req).store.work_orders, w.id = id →
        w.paid_amount = specPaid (Routes.postPayment rt sch now s req).store id)
    ∧ (Routes.postPayment rt sch now s req).store.work_orders.map (fun w => w.id)
        = s.work_orders.map (fun w => w.id)
    ∧ (∃ row : Payment, (Routes.postPayment rt sch now s req).response.body = .payment row
        ∧ (Routes.postPayment rt sch now s req).store.payments = s.payments ++ [row]
        ∧ row.work_order_id = id ∧ row.status = "paid"
        ∧ specPaid (Routes.postPayment rt sch now s req).store id = specPaid s id + row.amount)
    ∧ (∀ extra : List Payment, (∀ p ∈ extra, p.work_order_id ≠ id ∨ p.status ≠ "paid") →
        specPaid { (Routes.postPayment rt sch now s req).store with
            payments := (Routes.postPayment rt sch now s req).store.payments ++ extra } id
          = specPaid (Routes.postPayment rt sch now s req).store id) := by
  obtain ⟨row, h1, h2, _, hbody, hstore⟩ := postPayment_of_201 rt sch now s req id hid hok
  refine ⟨?_, ?_, ⟨row, hbody, ?_, h1, h2, ?_⟩, fun extra h => specPaid_other_payments _ id extra h⟩
  · rw [hstore]
    exact recalcPaid_paid now id _
  · rw [hstore]
    exact recalcPaid_ids now id _
  · rw [hstore]; rfl
  · rw [hstore]
    exact specPaid_append_paid s id row h1 h2

theorem postPayment_stores_paid_sum_witness :
    Routes.toInt decimalRuntime (.string paymentRequest.id) = some ((1 : ℕ) : ℤ)
    ∧ (Routes.postPayment decimalRuntime strictSchema 9 sampleStore paymentRequest).response.status
        = 201
    ∧ (Routes.postPayment decimalRuntime strictSchema 9 sampleStore
          paymentRequest).store.work_orders.map (fun w => w.id)
        = sampleStore.work_orders.map (fun w => w.id) :=
  ⟨by decide, by decide!,
    (postPayment_stores_paid_sum decimalRuntime strictSchema 9 sampleStore paymentRequest 1
      (by decide) (by decide!)).2.1⟩

/-! ## Theorems: sequences of add-item calls -/

theorem fkViolated_of_exists (sch : Schema) (id : Nat) (s : Store)
    (h : ∃ w ∈ s.work_orders, w.id = id) : Db.fkViolated sch id s = false := by
  obtain ⟨w, hw, hid⟩ := h
  have : s.work_orders.any (fun w => decide (w.id = id)) = true := by
    rw [List.any_eq_true]; exact ⟨w, hw, by simpa using hid⟩
  simp [Db.fkViolated, this]

theorem exists_of_ids_eq {s t : Store} {id : Nat}
    (h : t.work_orders.map (fun w => w.id) = s.work_orders.map (fun w => w.id))
    (hw : ∃ w ∈ s.work_orders, w.id = id) : ∃ w ∈ t.work_orders, w.id = id := by
  obtain ⟨w, hw, hid⟩ := hw
  have : id ∈ t.work_orders.map (fun w => w.id) := by
    rw [h]; exact List.mem_map.mpr ⟨w, hw, hid⟩
  obtain ⟨v, hv, hvid⟩ := List.mem_map.mp this
  exact ⟨v, hv, hvid⟩

theorem postWorkItem_of_valid (rt : JsRuntime) (sch : Schema) (now : Nat) (s : Store)
    (req : Request) (id : Nat) (hid : Routes.toInt rt (.string req.id) = some (id : ℤ))
    (hv : Routes.itemValid rt req = true) (hfk : Db.fkViolated sch id s = false) :
    Routes.postWorkItem rt sch now s req =
      ⟨Db.insertAudit now "work_order" id "add_work_item"
          [("work_item_id", Routes.num s.seq_work_items),
            ("name", .string (Routes.itemName rt req)),
            ("qty", Routes.num ((Routes.itemQty rt req).getD 0)),
            ("unit_price", Routes.num ((Routes.itemUnitPrice rt req).getD 0))]
          (Routes.recalcTotal now id
            { s with
              work_items := s.work_items ++ [⟨s.seq_work_items, id, Routes.itemName rt req,
                (Routes.itemQty rt req).getD 0, (Routes.itemUnitPrice rt req).getD 0⟩],
              seq_work_items := s.seq_work_items + 1 }),
        ⟨201, .workItem ⟨s.seq_work_items, id, Routes.itemName rt req,
          (Routes.itemQty rt req).getD 0, (Routes.itemUnitPrice rt req).getD 0⟩⟩,
        [.insertWorkItem, .recalcTotal, .insertAudit]⟩ := by
  simp only [Routes.itemValid, hid, Bool.and_eq_true, Bool.not_eq_true', decide_eq_true_eq] at hv
  obtain ⟨⟨⟨h1, h2⟩, h3⟩, h4⟩ := hv
  simp [Routes.postWorkItem, hid, h1, h2, h3, h4, Db.insertWorkItem, hfk]

theorem postWorkItem_status (rt : JsRuntime) (sch : Schema) (now : Nat) (s : Store)
    (req : Request) (id : Nat) (hid : Routes.toInt rt (.string req.id) = some (id : ℤ))
    (hfk : Db.fkViolated sch id s = false) :
    (Routes.postWorkItem rt sch now s req).response.status = 201
      ↔ Routes.itemValid rt req = true := by
  constructor
  · intro hok
    by_contra hv
    simp only [Routes.itemValid, hid, Bool.and_eq_true, Bool.not_eq_true', decide_eq_true_eq,
      not_and, Bool.not_eq_false] at hv
    by_cases h1 : Routes.badId (some (id : ℤ)) = true
    · simp [Routes.postWorkItem, hid, h1] at hok
    · by_cases h2 : Routes.itemName rt req = ""
      · simp [Routes.postWorkItem, hid, h1, h2] at hok
      · by_cases h3 : Routes.badQty (Routes.itemQty rt req) = true
        · simp [Routes.postWorkItem, hid, h1, h2, h3] at hok
        · have h4 := hv ⟨⟨by simpa using h1, h2⟩, by simpa using h3⟩
          simp [Routes.postWorkItem, hid, h1, h2, h3, h4] at hok
  · intro hv
    rw [postWorkItem_of_valid rt sch now s req id hid hv hfk]


theorem postMaterialItem_of_valid (rt : JsRuntime) (sch : Schema) (now : Nat) (s : Store)
    (req : Request) (id : Nat) (hid : Routes.toInt rt (.string req.id) = some (id : ℤ))
    (hv : Routes.itemValid rt req = true) (hfk : Db.fkViolated sch id s = false) :
    Routes.postMaterialItem rt sch now s req =
      ⟨Db.insertAudit now "work_order" id "add_material_item"
          [("material_item_id", Routes.num s.seq_material_items),
            ("name", .string (Routes.itemName rt req)),
            ("qty", Routes.num ((Routes.itemQty rt req).getD 0)),
            ("unit_price", Routes.num ((Routes.itemUnitPrice rt req).getD 0))]
          (Routes.recalcTotal now id
            { s with
              material_items := s.material_items ++ [⟨s.seq_material_items, id, none,
                Routes.itemName rt req, (Routes.itemQty rt req).getD 0,
                (Routes.itemUnitPrice rt req).getD 0⟩],
              seq_material_items := s.seq_material_items + 1 }),
        ⟨201, .materialItem ⟨s.seq_material_items, id, none, Routes.itemName rt req,
          (Routes.itemQty rt req).getD 0, (Routes.itemUnitPrice rt req).getD 0⟩⟩,
        [.insertMaterialItem, .recalcTotal, .insertAudit]⟩ := by
  simp only [Routes.itemValid, hid, Bool.and_eq_true, Bool.not_eq_true', decide_eq_true_eq] at hv
  obtain ⟨⟨⟨h1, h2⟩, h3⟩, h4⟩ := hv
  simp [Routes.postMaterialItem, hid, h1, h2, h3, h4, Db.insertMaterialItem, hfk]

theorem postMaterialItem_status (rt : JsRuntime) (sch : Schema) (now : Nat) (s : Store)
    (req : Request) (id : Nat) (hid : Routes.toInt rt (.string req.id) = some (id : ℤ))
    (hfk : Db.fkViolated sch id s = false) :
    (Routes.postMaterialItem rt sch now s req).response.status = 201
      ↔ Routes.itemValid rt req = true := by
  constructor
  · intro hok
    by_contra hv
    simp only [Routes.itemValid, hid, Bool.and_eq_true, Bool.not_eq_true', decide_eq_true_eq,
      not_and, Bool.not_eq_false] at hv
    by_cases h1 : Routes.badId (some (id : ℤ)) = true
    · simp [Routes.postMaterialItem, hid, h1] at hok
    · by_cases h2 : Routes.itemName rt req = ""
      · simp [Routes.postMaterialItem, hid, h1, h2] at hok
      · by_cases h3 : Routes.badQty (Routes.itemQty rt req) = true
        · simp [Routes.postMaterialItem, hid, h1, h2, h3] at hok
        · have h4 := hv ⟨⟨by simpa using h1, h2⟩, by simpa using h3⟩
          simp [Routes.postMaterialItem, hid, h1, h2, h3, h4] at hok
  · intro hv
    rw [postMaterialItem_of_valid rt sch now s req id hid hv hfk]

theorem itemCall_status (rt : JsRuntime) (sch : Schema) (s : Store) (c : ItemCall) (wid : Nat)
    (hid : Routes.toInt rt (.string c.req.id) = some (wid : ℤ))
    (hw : ∃ w ∈ s.work_orders, w.id = wid) :
    (c.run rt sch s).response.status = 201 ↔ Routes.itemValid rt c.req = true := by
  have hfk := fkViolated_of_exists sch wid s hw
  unfold ItemCall.run
  by_cases hm : c.material = true
  · simp only [hm, if_true]
    exact postMaterialItem_status rt sch c.now s c.req wid hid hfk
  · simp only [hm, Bool.false_eq_true, if_false]
    exact postWorkItem_status rt sch c.now s c.req wid hid hfk

theorem itemCall_step (rt : JsRuntime) (sch : Schema) (s : Store) (c : ItemCall) (wid : Nat)
    (hid : Routes.toInt rt (.string c.req.id) = some (wid : ℤ))
    (hw : ∃ w ∈ s.work_orders, w.id = wid) (hv : Routes.itemValid rt c.req = true) :
    (c.run rt sch s).store.work_orders.map (fun w => w.id) = s.work_orders.map (fun w => w.id)
    ∧ (∀ w ∈ (c.run rt sch s).store.work_orders, w.id = wid →
        w.total_amount = specTotal (c.run rt sch s).store wid)
    ∧ specTotal (c.run rt sch s).store wid = specTotal s wid + Routes.itemAmount rt c.req
    ∧ addedAmount (c.run rt sch s) = Routes.itemAmount rt c.req := by
  have hfk := fkViolated_of_exists sch wid s hw
  unfold ItemCall.run
  by_cases hm : c.material = true
  · simp only [hm, if_true]
    rw [postMaterialItem_of_valid rt sch c.now s c.req wid hid hv hfk]
    refine ⟨recalcTotal_ids c.now wid _, recalcTotal_total c.now wid _, ?_, rfl⟩
    simp [specTotal, Db.insertAudit, Routes.recalcTotal, Routes.itemAmount, List.filter_append,
      add_assoc]
  · simp only [hm, Bool.false_eq_true, if_false]
    rw [postWorkItem_of_valid rt sch c.now s c.req wid hid hv hfk]
    refine ⟨recalcTotal_ids c.now wid _, recalcTotal_total c.now wid _, ?_, rfl⟩
    simp [specTotal, Db.insertAudit, Routes.recalcTotal, Routes.itemAmount, List.filter_append]
    ring

theorem itemCallsSucceed_valid (rt : JsRuntime) (sch : Schema) (wid : Nat) :
    ∀ (calls : List ItemCall) (s : Store), (∃ w ∈ s.work_orders, w.id = wid) →
      (∀ c ∈ calls, Routes.toInt rt (.string c.req.id) = some (wid : ℤ)) →
      itemCallsSucceed rt sch s calls = true → ∀ c ∈ calls, Routes.itemValid rt c.req = true := by
  intro calls
  induction calls with
  | nil => intro s _ _ _ c hc; cases hc
  | cons c cs ih =>
    intro s hw hon hok
    simp only [itemCallsSucceed, Bool.and_eq_true, decide_eq_true_eq] at hok
    have hid := hon c (List.mem_cons_self _ _)
    have hv := (itemCall_status rt sch s c wid hid hw).mp hok.1
    have hstep := itemCall_step rt sch s c wid hid hw hv
    have hw1 := exists_of_ids_eq hstep.1 hw
    intro d hd
    rcases List.mem_cons.mp hd with rfl | hd
    · exact hv
    · exact ih _ hw1 (fun e he => hon e (List.mem_cons_of_mem _ he)) hok.2 d hd

theorem runItemCalls_of_valid (rt : JsRuntime) (sch : Schema) (wid : Nat) :
    ∀ (calls : List ItemCall) (s : Store), (∃ w ∈ s.work_orders, w.id = wid) →
      (∀ c ∈ calls, Routes.toInt rt (.string c.req.id) = some (wid : ℤ)) →
      (∀ c ∈ calls, Routes.itemValid rt c.req = true) →
      itemCallsSucceed rt sch s calls = true
      ∧ addedAmounts rt sch s calls = calls.map (fun c => Routes.itemAmount rt c.req)
      ∧ (runItemCalls rt sch s calls).work_orders.map (fun w => w.id)
          = s.work_orders.map (fun w => w.id)
      ∧ specTotal (runItemCalls rt sch s calls) wid
          = specTotal s wid + (calls.map (fun c => Routes.itemAmount rt c.req)).sum
      ∧ (calls ≠ [] → ∀ w ∈ (runItemCalls rt sch s calls).work_orders, w.id = wid →
          w.total_amount = specTotal (runItemCalls rt sch s calls) wid) := by
  intro calls
  induction calls with
  | nil =>
    intro s _ _ _
    simp [itemCallsSucceed, addedAmounts, runItemCalls]
  | cons c cs ih =>
    intro s hw hon hval
    have hid := hon c (List.mem_cons_self _ _)
    have hv := hval c (List.mem_cons_self _ _)
    have hstep := itemCall_step rt sch s c wid hid hw hv
    have hw1 := exists_of_ids_eq hstep.1 hw
    have hrec := ih (c.run rt sch s).store hw1 (fun e he => hon e (List.mem_cons_of_mem _ he))
      (fun e he => hval e (List.mem_cons_of_mem _ he))
    obtain ⟨r1, r2, r3, r4, r5⟩ := hrec
    refine ⟨?_, ?_, ?_, ?_, ?_⟩
    · simp only [itemCallsSucceed, Bool.and_eq_true, decide_eq_true_eq]
      exact ⟨(itemCall_status rt sch s c wid hid hw).mpr hv, r1⟩
    · simp only [addedAmounts, List.map_cons, r2, hstep.2.2.2]
    · simp only [runItemCalls]; rw [r3, hstep.1]
    · simp only [runItemCalls, List.map_cons, List.sum_cons]
      rw [r4, hstep.2.2.1, add_assoc]
    · intro _
      simp only [runItemCalls]
      by_cases hcs : cs = []
      · subst hcs
        simpa [runItemCalls] using hstep.2.1
      · exact r5 hcs

/-- C2. For a work order without items and a sequence of successful (201) calls of the mounted
`POST /work-orders/:id/work-items` and `POST /work-orders/:id/material-items` handlers on it,
the `total_amount` stored after the sequence is the sum of `qty × unit_price` over the items
the calls returned, which are the items the requests asked for and the items the order then
has; every permutation of the calls succeeds as well and leaves the same total.  (For the
empty sequence the stored total is the 0 that creation gave the order.) -/
theorem total_after_item_calls (rt : JsRuntime) (sch : Schema) (s : Store) (wid : Nat)
    (calls : List ItemCall) (hw : ∃ w ∈ s.work_orders, w.id = wid)
    (hW : ∀ i ∈ s.work_items, i.work_order_id ≠ wid)
    (hM : ∀ i ∈ s.material_items, i.work_order_id ≠ wid)
    (hfresh : calls ≠ [] ∨ ∀ w ∈ s.work_orders, w.id = wid → w.total_amount = 0)
    (hon : ∀ c ∈ calls, Routes.toInt rt (.string c.req.id) = some (wid : ℤ))
    (hok : itemCallsSucceed rt sch s calls = true) :
    (∀ w ∈ (runItemCalls rt sch s calls).work_orders, w.id = wid →
        w.total_amount = (addedAmounts rt sch s calls).sum)
    ∧ (∃ w ∈ (runItemCalls rt sch s calls).work_orders, w.id = wid)
    ∧ specTotal (runItemCalls rt sch s calls) wid = (addedAmounts rt sch s calls).sum
    ∧ addedAmounts rt sch s calls = calls.map (fun c => Routes.itemAmount rt c.req)
    ∧ (∀ calls2 : List ItemCall, calls2.Perm calls →
        itemCallsSucceed rt sch s calls2 = true
        ∧ (addedAmounts rt sch s calls2).sum = (addedAmounts rt sch s calls).sum
        ∧ ∀ w ∈ (runItemCalls rt sch s calls2).work_orders, w.id = wid →
            w.total_amount = (addedAmounts rt sch s calls).sum) := by
  have hzero : specTotal s wid = 0 :=
    (specTotal_no_items s wid hW hM)
  have key : ∀ cs : List ItemCall, (cs ≠ [] ∨ ∀ w ∈ s.work_orders, w.id = wid → w.total_amount = 0) →
      (∀ c ∈ cs, Routes.toInt rt (.string c.req.id) = some (wid : ℤ)) →
      (∀ c ∈ cs, Routes.itemValid rt c.req = true) →
      itemCallsSucceed rt sch s cs = true
      ∧ addedAmounts rt sch s cs = cs.map (fun c => Routes.itemAmount rt c.req)
      ∧ (∃ w ∈ (runItemCalls rt sch s cs).work_orders, w.id = wid)
      ∧ specTotal (runItemCalls rt sch s cs) wid = (addedAmounts rt sch s cs).sum
      ∧ ∀ w ∈ (runItemCalls rt sch s cs).work_orders, w.id = wid →
          w.total_amount = (addedAmounts rt sch s cs).sum := by
    intro cs hfr hon2 hval
    obtain ⟨r1, r2, r3, r4, r5⟩ := runItemCalls_of_valid rt sch wid cs s hw hon2 hval
    have hsum : specTotal (runItemCalls rt sch s cs) wid = (addedAmounts rt sch s cs).sum := by
      rw [r4, r2, hzero, zero_add]
    refine ⟨r1, r2, exists_of_ids_eq r3 hw, hsum, ?_⟩
    intro w hmem hwid
    by_cases hcs : cs = []
    · subst hcs
      rcases hfr with h | h
      · exact absurd rfl h
      · simpa [runItemCalls, addedAmounts] using h w hmem hwid
    · rw [← hsum]; exact r5 hcs w hmem hwid
  have hval := itemCallsSucceed_valid rt sch wid calls s hw hon hok
  obtain ⟨_, k2, k3, k4, k5⟩ := key calls hfresh hon hval
  refine ⟨k5, k3, k4, k2, ?_⟩
  intro calls2 hperm
  have hfr2 : calls2 ≠ [] ∨ ∀ w ∈ s.work_orders, w.id = wid → w.total_amount = 0 := by
    rcases hfresh with h | h
    · left
      intro h2
      subst h2
      exact h (List.Perm.eq_nil (List.Perm.symm hperm))
    · exact Or.inr h
  obtain ⟨q1, q2, _, _, q5⟩ := key calls2 hfr2 (fun c hc => hon c (hperm.mem_iff.mp hc))
    (fun c hc => hval c (hperm.mem_iff.mp hc))
  have hs : (addedAmounts rt sch s calls2).sum = (addedAmounts rt sch s calls).sum := by
    rw [q2, k2]
    exact (hperm.map _).sum_eq
  exact ⟨q1, hs, fun w hmem hwid => by rw [← hs]; exact q5 w hmem hwid⟩

theorem total_after_item_calls_witness :
    itemCallsSucceed decimalRuntime strictSchema createdStore itemCalls = true
    ∧ specTotal (runItemCalls decimalRuntime strictSchema createdStore itemCalls) 1
        = (addedAmounts decimalRuntime strictSchema createdStore itemCalls).sum :=
  ⟨by decide!,
    (total_after_item_calls decimalRuntime strictSchema createdStore 1 itemCalls (by decide!)
      (by decide!) (by decide!) (Or.inl (by simp [itemCalls])) (by decide!) (by decide!)).2.2.1⟩

/-! ## Theorems: what each operation does to the booking references and the audit log -/

theorem map_update_bookingIds (l : List WorkOrder) (f : WorkOrder → WorkOrder)
    (hf : ∀ w, (f w).booking_id = w.booking_id) :
    (l.map f).map (fun w => w.booking_id) = l.map (fun w => w.booking_id) := by
  rw [List.map_map]
  exact List.map_congr_left (fun w _ => hf w)

theorem recalcTotal_bookingIds (now id : Nat) (s : Store) :
    (Routes.recalcTotal now id s).work_orders.map (fun w => w.booking_id)
      = s.work_orders.map (fun w => w.booking_id) := by
  unfold Routes.recalcTotal
  apply map_update_bookingIds
  intro w
  split <;> rfl

theorem recalcPaid_bookingIds (now id : Nat) (s : Store) :
    (Routes.recalcPaid now id s).work_orders.map (fun w => w.booking_id)
      = s.work_orders.map (fun w => w.booking_id) := by
  unfold Routes.recalcPaid
  apply map_update_bookingIds
  intro w
  split <;> rfl

theorem updateStatus_bookingIds (sch : Schema) (now : Nat) (sel : WorkOrder → Bool)
    (status : String) (s : Store) :
    (Db.updateStatus sch now sel status s).1.work_orders.map (fun w => w.booking_id)
      = s.work_orders.map (fun w => w.booking_id) := by
  unfold Db.updateStatus
  split
  · rfl
  · apply map_update_bookingIds
    intro w
    split <;> rfl

theorem updateStatus_audit_log (sch : Schema) (now : Nat) (sel : WorkOrder → Bool)
    (status : String) (s : Store) :
    (Db.updateStatus sch now sel status s).1.audit_log = s.audit_log := by
  unfold Db.updateStatus
  split <;> rfl

theorem insertWorkItem_frame (sch : Schema) (id : Nat) (name : String) (q p : ℚ) (s : Store) :
    (Db.insertWorkItem sch id name q p s).1.work_orders = s.work_orders
    ∧ (Db.insertWorkItem sch id name q p s).1.audit_log = s.audit_log := by
  unfold Db.insertWorkItem
  split <;> exact ⟨rfl, rfl⟩

theorem insertMaterialItem_frame (sch : Schema) (id : Nat) (mid : Option Nat) (name : String)
    (q p : ℚ) (s : Store) :
    (Db.insertMaterialItem sch id mid name q p s).1.work_orders = s.work_orders
    ∧ (Db.insertMaterialItem sch id mid name q p s).1.audit_log = s.audit_log := by
  unfold Db.insertMaterialItem
  split <;> exact ⟨rfl, rfl⟩

theorem insertPayment_frame (sch : Schema) (now id : Nat) (a : ℚ) (m : String)
    (paid_at : Option Nat) (s : Store) :
    (Db.insertPayment sch now id a m paid_at s).1.work_orders = s.work_orders
    ∧ (Db.insertPayment sch now id a m paid_at s).1.audit_log = s.audit_log := by
  unfold Db.insertPayment
  split
  · exact ⟨rfl, rfl⟩
  · split <;> exact ⟨rfl, rfl⟩

theorem badId_false (x : Option ℤ) (h : Routes.badId x = false) :
    x = some (((x.getD 0).toNat : ℕ) : ℤ) ∧ 0 < (x.getD 0).toNat := by
  cases x with
  | none => simp [Routes.badId] at h
  | some n =>
    simp only [Routes.badId, Bool.or_eq_false_iff, decide_eq_false_iff_not, not_le] at h
    have hn : 0 ≤ n := le_of_lt h.2
    simp only [Option.getD_some, Option.some.injEq]
    refine ⟨(Int.toNat_of_nonneg hn).symm, ?_⟩
    omega

theorem audited_of_refused (s s1 : Store) (resp : Response) (calls : List Call)
    (action : String) (target : Nat → Prop)
    (hb : s1.work_orders.map (fun w => w.booking_id) = s.work_orders.map (fun w => w.booking_id))
    (ha : s1.audit_log = s.audit_log) (hs : resp.status ∈ [400, 404, 500]) :
    AuditedStep s ⟨s1, resp, calls⟩ action target :=
  ⟨hb, Or.inl ⟨hs, ha⟩⟩

theorem audited_of_audit (s s1 : Store) (resp : Response) (calls : List Call)
    (action : String) (target : Nat → Prop) (now id : Nat) (details : List (String × JsValue))
    (hb : s1.work_orders.map (fun w => w.booking_id) = s.work_orders.map (fun w => w.booking_id))
    (ha : s1.audit_log = s.audit_log) (hs : resp.status ∈ [200, 201]) (ht : target id) :
    AuditedStep s ⟨Db.insertAudit now "work_order" id action details s1, resp, calls⟩ action
      target := by
  refine ⟨hb, Or.inr ⟨hs, ⟨s1.seq_audit_log, "work_order", id, action, details, now⟩, ?_, rfl,
    rfl, ht⟩⟩
  show s1.audit_log ++ _ = _
  rw [ha]

theorem patchStatus_audited (rt : JsRuntime) (sch : Schema) (now : Nat) (s : Store)
    (req : Request) :
    AuditedStep s (Routes.patchStatus rt sch now s req) "status_change"
      (fun n => Routes.toInt rt (.string req.id) = some (n : ℤ) ∧ 0 < n) := by
  unfold Routes.patchStatus
  simp only []
  split
  · exact audited_of_refused _ _ _ _ _ _ rfl rfl (by simp)
  rename_i hbad
  have hid := badId_false _ (by simpa using hbad)
  split
  · exact audited_of_refused _ _ _ _ _ _ rfl rfl (by simp)
  split
  · exact audited_of_refused _ _ _ _ _ _ rfl rfl (by simp [internalError])
  split
  all_goals
    rename_i heq
    have h1 := congrArg Prod.fst heq
    simp only at h1
    subst h1
  · exact audited_of_refused _ _ _ _ _ _ (updateStatus_bookingIds _ _ _ _ _)
      (updateStatus_audit_log _ _ _ _ _) (by simp [internalError])
  · exact audited_of_refused _ _ _ _ _ _ (updateStatus_bookingIds _ _ _ _ _)
      (updateStatus_audit_log _ _ _ _ _) (by simp)
  · exact audited_of_audit _ _ _ _ _ _ _ _ _ (updateStatus_bookingIds _ _ _ _ _)
      (updateStatus_audit_log _ _ _ _ _) (by simp) hid

theorem postWorkItem_audited (rt : JsRuntime) (sch : Schema) (now : Nat) (s : Store)
    (req : Request) :
    AuditedStep s (Routes.postWorkItem rt sch now s req) "add_work_item"
      (fun n => Routes.toInt rt (.string req.id) = some (n : ℤ) ∧ 0 < n) := by
  unfold Routes.postWorkItem
  simp only []
  split
  · exact audited_of_refused _ _ _ _ _ _ rfl rfl (by simp)
  rename_i hbad
  have hid := badId_false _ (by simpa using hbad)
  split
  · exact audited_of_refused _ _ _ _ _ _ rfl rfl (by simp)
  split
  · exact audited_of_refused _ _ _ _ _ _ rfl rfl (by simp)
  split
  · exact audited_of_refused _ _ _ _ _ _ rfl rfl (by simp)
  split
  all_goals
    rename_i heq
    have h1 := congrArg Prod.fst heq
    simp only at h1
    subst h1
  · exact audited_of_refused _ _ _ _ _ _ (by rw [(insertWorkItem_frame _ _ _ _ _ _).1])
      (insertWorkItem_frame _ _ _ _ _ _).2 (by simp [internalError])
  · exact audited_of_audit _ _ _ _ _ _ _ _ _
      (by rw [recalcTotal_bookingIds, (insertWorkItem_frame _ _ _ _ _ _).1])
      (insertWorkItem_frame _ _ _ _ _ _).2 (by simp) hid

theorem postMaterialItem_audited (rt : JsRuntime) (sch : Schema) (now : Nat) (s : Store)
    (req : Request) :
    AuditedStep s (Routes.postMaterialItem rt sch now s req) "add_material_item"
      (fun n => Routes.toInt rt (.string req.id) = some (n : ℤ) ∧ 0 < n) := by
  unfold Routes.postMaterialItem
  simp only []
  split
  · exact audited_of_refused _ _ _ _ _ _ rfl rfl (by simp)
  rename_i hbad
  have hid := badId_false _ (by simpa using hbad)
  split
  · exact audited_of_refused _ _ _ _ _ _ rfl rfl (by simp)
  split
  · exact audited_of_refused _ _ _ _ _ _ rfl rfl (by simp)
  split
  · exact audited_of_refused _ _ _ _ _ _ rfl rfl (by simp)
  split
  all_goals
    rename_i heq
    have h1 := congrArg Prod.fst heq
    simp only at h1
    subst h1
  · exact audited_of_refused _ _ _ _ _ _ (by rw [(insertMaterialItem_frame _ _ _ _ _ _ _).1])
      (insertMaterialItem_frame _ _ _ _ _ _ _).2 (by simp [internalError])
  · exact audited_of_audit _ _ _ _ _ _ _ _ _
      (by rw [recalcTotal_bookingIds, (insertMaterialItem_frame _ _ _ _ _ _ _).1])
      (insertMaterialItem_frame _ _ _ _ _ _ _).2 (by simp) hid

theorem postPayment_audited (rt : JsRuntime) (sch : Schema) (now : Nat) (s : Store)
    (req : Request) :
    AuditedStep s (Routes.postPayment rt sch now s req) "payment"
      (fun n => Routes.toInt rt (.string req.id) = some (n : ℤ) ∧ 0 < n) := by
  unfold Routes.postPayment
  simp only []
  split
  · exact audited_of_refused _ _ _ _ _ _ rfl rfl (by simp)
  rename_i hbad
  have hid := badId_false _ (by simpa using hbad)
  split
  · exact audited_of_refused _ _ _ _ _ _ rfl rfl (by simp)
  split
  all_goals
    rename_i heq
    have h1 := congrArg Prod.fst heq
    simp only at h1
    subst h1
  · exact audited_of_refused _ _ _ _ _ _ (by rw [(insertPayment_frame _ _ _ _ _ _ _).1])
      (insertPayment_frame _ _ _ _ _ _ _).2 (by simp [internalError])
  · exact audited_of_audit _ _ _ _ _ _ _ _ _
      (by rw [recalcPaid_bookingIds, (insertPayment_frame _ _ _ _ _ _ _).1])
      (insertPayment_frame _ _ _ _ _ _ _).2 (by simp) hid

theorem invalidId_false (n : JsNumber) (h : Controller.invalidId n = false) :
    n = .finite ((Controller.idOf n : ℕ) : ℚ) ∧ 0 < Controller.idOf n := by
  cases n with
  | finite q =>
    simp only [Controller.invalidId, JsNumber.isInteger, JsNumber.leZero, Bool.or_eq_false_iff,
      Bool.not_eq_false', decide_eq_false_iff_not, not_le] at h
    obtain ⟨hint, hpos⟩ := h
    have hden : q.den = 1 := by simpa [Rat.isInt] using hint
    have hnum : 0 < q.num := Rat.num_pos.mpr hpos
    have hq : ((q.num.toNat : ℕ) : ℚ) = q := by
      have h1 : ((q.num.toNat : ℕ) : ℤ) = q.num := Int.toNat_of_nonneg (le_of_lt hnum)
      have h2 : ((q.num : ℤ) : ℚ) = q := Rat.coe_int_num_of_den_eq_one hden
      rw [← h2]
      exact_mod_cast h1
    refine ⟨by simp only [Controller.idOf, hq], ?_⟩
    simp only [Controller.idOf]
    omega
  | nan => simp [Controller.invalidId, JsNumber.isInteger] at h
  | posInf => simp [Controller.invalidId, JsNumber.isInteger] at h
  | negInf => simp [Controller.invalidId, JsNumber.isInteger] at h

theorem insertWorkOrder_error (now b c k : Nat) (d : Option String) (st : String) (t p : ℚ)
    (s s1 : Store) (e : DbError)
    (h : Db.insertWorkOrder now b c k d st t p s = (s1, .error e)) :
    s1.work_orders = s.work_orders ∧ s1.audit_log = s.audit_log ∧ e.code = "23505"
      ∧ ∃ w ∈ s.work_orders, w.booking_id = b := by
  unfold Db.insertWorkOrder at h
  split at h
  · rename_i hany
    simp only [Prod.mk.injEq, Except.error.injEq] at h
    obtain ⟨rfl, rfl⟩ := h
    rw [List.any_eq_true] at hany
    obtain ⟨w, hw, hb⟩ := hany
    exact ⟨rfl, rfl, rfl, w, hw, by simpa using hb⟩
  · simp at h

theorem insertWorkOrder_ok (now b c k : Nat) (d : Option String) (st : String) (t p : ℚ)
    (s s1 : Store) (row : WorkOrder)
    (h : Db.insertWorkOrder now b c k d st t p s = (s1, .ok row)) :
    s1.work_orders = s.work_orders ++ [row] ∧ s1.audit_log = s.audit_log
      ∧ row.booking_id = b ∧ (∀ w ∈ s.work_orders, w.booking_id ≠ b)
      ∧ row.id = s.seq_work_orders := by
  unfold Db.insertWorkOrder at h
  split at h
  · simp at h
  · rename_i hany
    simp only [Prod.mk.injEq, Except.ok.injEq] at h
    obtain ⟨rfl, rfl⟩ := h
    refine ⟨rfl, rfl, rfl, ?_, rfl⟩
    intro w hw hb
    apply hany
    rw [List.any_eq_true]
    exact ⟨w, hw, by simpa using hb⟩

theorem created_of_audit (s s1 : Store) (row : WorkOrder) (calls : List Call) (now : Nat)
    (details : List (String × JsValue)) (h1 : s1.work_orders = s.work_orders ++ [row])
    (h2 : s1.audit_log = s.audit_log)
    (h3 : ∀ w ∈ s.work_orders, w.booking_id ≠ row.booking_id) :
    AuditedCreate s
      ⟨Db.insertAudit now "work_order" row.id "create" details s1, ⟨201, .workOrder row⟩,
        calls⟩ := by
  refine Or.inr ⟨rfl, row, ⟨s1.seq_audit_log, "work_order", row.id, "create", details, now⟩,
    rfl, h1, h3, ?_, rfl, rfl, rfl⟩
  show s1.audit_log ++ _ = _
  rw [h2]

theorem postWorkOrder_audited (rt : JsRuntime) (now : Nat) (s : Store) (req : Request) :
    AuditedCreate s (Routes.postWorkOrder rt now s req) := by
  unfold Routes.postWorkOrder
  simp only []
  split
  · exact Or.inl ⟨by simp, rfl, rfl⟩
  split
  · exact Or.inl ⟨by simp, rfl, rfl⟩
  split
  · exact Or.inl ⟨by simp, rfl, rfl⟩
  split
  · rename_i heq
    obtain ⟨h1, h2, _, _⟩ := insertWorkOrder_error _ _ _ _ _ _ _ _ _ _ _ heq
    exact Or.inl ⟨by simp [internalError], h1, h2⟩
  · rename_i heq
    obtain ⟨h1, h2, h3, h4, _⟩ := insertWorkOrder_ok _ _ _ _ _ _ _ _ _ _ _ heq
    exact created_of_audit _ _ _ _ _ _ h1 h2 (by rw [h3]; exact h4)

theorem createWorkOrderFromBooking_error (rt : JsRuntime) (now b : Nat) (d : JsValue)
    (s s1 : Store) (e : DbError)
    (h : Repo.createWorkOrderFromBooking rt now b d s = (s1, .error e)) :
    s1.work_orders = s.work_orders ∧ s1.audit_log = s.audit_log ∧ e.code = "23505" := by
  unfold Repo.createWorkOrderFromBooking at h
  split at h
  · simp at h
  · split at h
    · rename_i heq
      simp only [Prod.mk.injEq, Except.error.injEq] at h
      obtain ⟨rfl, rfl⟩ := h
      obtain ⟨h1, h2, h3, _⟩ := insertWorkOrder_error _ _ _ _ _ _ _ _ _ _ _ heq
      exact ⟨h1, h2, h3⟩
    · simp at h

theorem createWorkOrderFromBooking_none (rt : JsRuntime) (now b : Nat) (d : JsValue)
    (s s1 : Store) (h : Repo.createWorkOrderFromBooking rt now b d s = (s1, .ok none)) :
    s1 = s := by
  unfold Repo.createWorkOrderFromBooking at h
  split at h
  · simp only [Prod.mk.injEq] at h
    exact h.1.symm
  · split at h <;> simp at h

theorem createWorkOrderFromBooking_some (rt : JsRuntime) (now b : Nat) (d : JsValue)
    (s s1 : Store) (row : WorkOrder)
    (h : Repo.createWorkOrderFromBooking rt now b d s = (s1, .ok (some row))) :
    s1.work_orders = s.work_orders ++ [row] ∧ s1.audit_log = s.audit_log
      ∧ (∀ w ∈ s.work_orders, w.booking_id ≠ row.booking_id) := by
  unfold Repo.createWorkOrderFromBooking at h
  split at h
  · simp at h
  · split at h
    · simp at h
    · rename_i heq
      simp only [Prod.mk.injEq, Except.ok.injEq, Option.some.injEq] at h
      obtain ⟨rfl, rfl⟩ := h
      obtain ⟨h1, h2, h3, h4, _⟩ := insertWorkOrder_ok _ _ _ _ _ _ _ _ _ _ _ heq
      exact ⟨h1, h2, by rw [h3]; exact h4⟩

theorem createWorkOrder_audited (rt : JsRuntime) (now : Nat) (s : Store) (req : Request) :
    AuditedCreate s (Controller.createWorkOrder rt now s req) := by
  unfold Controller.createWorkOrder
  simp only []
  split
  · exact Or.inl ⟨by simp, rfl, rfl⟩
  split
  · rename_i heq
    obtain ⟨h1, h2, _⟩ := createWorkOrderFromBooking_error _ _ _ _ _ _ _ heq
    split
    · exact Or.inl ⟨by simp, h1, h2⟩
    · exact Or.inl ⟨by simp [internalError], h1, h2⟩
  · rename_i heq
    have := createWorkOrderFromBooking_none _ _ _ _ _ _ heq
    subst this
    exact Or.inl ⟨by simp, rfl, rfl⟩
  · rename_i heq
    obtain ⟨h1, h2, h3⟩ := createWorkOrderFromBooking_some _ _ _ _ _ _ _ heq
    exact created_of_audit _ _ _ _ _ _ h1 h2 h3

theorem updateWorkOrderStatus_frame (sch : Schema) (now id : Nat) (status : String)
    (s : Store) :
    (Repo.updateWorkOrderStatus sch now id status s).1.work_orders.map (fun w => w.booking_id)
        = s.work_orders.map (fun w => w.booking_id)
    ∧ (Repo.updateWorkOrderStatus sch now id status s).1.audit_log = s.audit_log := by
  unfold Repo.updateWorkOrderStatus
  split
  all_goals
    rename_i heq
    have h1 := congrArg Prod.fst heq
    simp only at h1
    subst h1
    exact ⟨updateStatus_bookingIds _ _ _ _ _, updateStatus_audit_log _ _ _ _ _⟩

theorem repo_addWorkItem_frame (sch : Schema) (id : Nat) (name : String) (q p : JsNumber)
    (s : Store) :
    (Repo.addWorkItem sch id name q p s).1.work_orders = s.work_orders
    ∧ (Repo.addWorkItem sch id name q p s).1.audit_log = s.audit_log := by
  unfold Repo.addWorkItem
  split
  · exact insertWorkItem_frame _ _ _ _ _ _
  · exact ⟨rfl, rfl⟩

theorem repo_addMaterialItem_frame (sch : Schema) (id : Nat) (mid : Option Nat) (name : String)
    (q p : JsNumber) (s : Store) :
    (Repo.addMaterialItem sch id mid name q p s).1.work_orders = s.work_orders
    ∧ (Repo.addMaterialItem sch id mid name q p s).1.audit_log = s.audit_log := by
  unfold Repo.addMaterialItem
  split
  · exact insertMaterialItem_frame _ _ _ _ _ _ _
  · exact ⟨rfl, rfl⟩

theorem repo_addPayment_frame (rt : JsRuntime) (sch : Schema) (now id : Nat) (a : JsNumber)
    (m : JsValue) (s : Store) :
    (Repo.addPayment rt sch now id a m s).1.work_orders.map (fun w => w.booking_id)
        = s.work_orders.map (fun w => w.booking_id)
    ∧ (Repo.addPayment rt sch now id a m s).1.audit_log = s.audit_log := by
  unfold Repo.addPayment
  split
  · split
    all_goals
      rename_i heq
      have h1 := congrArg Prod.fst heq
      simp only at h1
      subst h1
    · exact ⟨by rw [(insertPayment_frame _ _ _ _ _ _ _).1], (insertPayment_frame _ _ _ _ _ _ _).2⟩
    · refine ⟨?_, (insertPayment_frame _ _ _ _ _ _ _).2⟩
      show (List.map _ _).map _ = _
      rw [map_update_bookingIds, (insertPayment_frame _ _ _ _ _ _ _).1]
      intro w
      split <;> rfl
  · exact ⟨rfl, rfl⟩
  · exact ⟨rfl, rfl⟩

theorem patchWorkOrderStatus_audited (rt : JsRuntime) (sch : Schema) (now : Nat) (s : Store)
    (req : Request) :
    AuditedStep s (Controller.patchWorkOrderStatus rt sch now s req) "status_change"
      (fun n => (JsValue.string req.id).toNumber rt = .finite (n : ℚ) ∧ 0 < n) := by
  unfold Controller.patchWorkOrderStatus
  simp only []
  split
  · exact audited_of_refused _ _ _ _ _ _ rfl rfl (by simp)
  rename_i hbad
  have hid := invalidId_false _ (by simpa using hbad)
  split
  · split
    · exact audited_of_refused _ _ _ _ _ _ rfl rfl (by simp)
    split
    all_goals
      rename_i heq
      have h1 := congrArg Prod.fst heq
      simp only at h1
      subst h1
    · exact audited_of_refused _ _ _ _ _ _ (updateWorkOrderStatus_frame _ _ _ _ _).1
        (updateWorkOrderStatus_frame _ _ _ _ _).2 (by simp [internalError])
    · exact audited_of_refused _ _ _ _ _ _ (updateWorkOrderStatus_frame _ _ _ _ _).1
        (updateWorkOrderStatus_frame _ _ _ _ _).2 (by simp)
    · exact audited_of_audit _ _ _ _ _ _ _ _ _ (updateWorkOrderStatus_frame _ _ _ _ _).1
        (updateWorkOrderStatus_frame _ _ _ _ _).2 (by simp) hid
  · exact audited_of_refused _ _ _ _ _ _ rfl rfl (by simp)

theorem addWorkItem_audited (rt : JsRuntime) (sch : Schema) (now : Nat) (s : Store)
    (req : Request) :
    AuditedStep s (Controller.addWorkItem rt sch now s req) "add_work_item"
      (fun n => (JsValue.string req.id).toNumber rt = .finite (n : ℚ) ∧ 0 < n) := by
  unfold Controller.addWorkItem
  simp only []
  generalize (if req.field "qty" = JsValue.undefined then JsNumber.finite 1
    else (req.field "qty").toNumber rt) = q
  generalize (if req.field "unit_price" = JsValue.undefined then JsNumber.finite 0
    else (req.field "unit_price").toNumber rt) = p
  split
  · exact audited_of_refused _ _ _ _ _ _ rfl rfl (by simp)
  rename_i hbad
  have hid := invalidId_false _ (by simpa using hbad)
  split
  · split
    · exact audited_of_refused _ _ _ _ _ _ rfl rfl (by simp)
    split
    · exact audited_of_refused _ _ _ _ _ _ rfl rfl (by simp)
    split
    · exact audited_of_refused _ _ _ _ _ _ rfl rfl (by simp)
    split
    all_goals
      rename_i heq
      have h1 := congrArg Prod.fst heq
      simp only at h1
      subst h1
    · exact audited_of_refused _ _ _ _ _ _ (by rw [(repo_addWorkItem_frame _ _ _ _ _ _).1])
        (repo_addWorkItem_frame _ _ _ _ _ _).2 (by simp [internalError])
    · exact audited_of_audit _ _ _ _ _ _ _ _ _
        (by rw [recalcTotals_store, recalcTotal_bookingIds, (repo_addWorkItem_frame _ _ _ _ _ _).1])
        (repo_addWorkItem_frame _ _ _ _ _ _).2 (by simp) hid
  · exact audited_of_refused _ _ _ _ _ _ rfl rfl (by simp)

theorem addMaterialItem_audited (rt : JsRuntime) (sch : Schema) (now : Nat) (s : Store)
    (req : Request) :
    AuditedStep s (Controller.addMaterialItem rt sch now s req) "add_material_item"
      (fun n => (JsValue.string req.id).toNumber rt = .finite (n : ℚ) ∧ 0 < n) := by
  unfold Controller.addMaterialItem
  simp only []
  generalize (if req.field "qty" = JsValue.undefined then JsNumber.finite 1
    else (req.field "qty").toNumber rt) = q
  generalize (if req.field "unit_price" = JsValue.undefined then JsNumber.finite 0
    else (req.field "unit_price").toNumber rt) = p
  generalize (if (req.field "material_id").isNullish = true then none
    else some ((req.field "material_id").toNumber rt)) = mid
  split
  · exact audited_of_refused _ _ _ _ _ _ rfl rfl (by simp)
  rename_i hbad
  have hid := invalidId_false _ (by simpa using hbad)
  split
  · split
    · exact audited_of_refused _ _ _ _ _ _ rfl rfl (by simp)
    split
    · exact audited_of_refused _ _ _ _ _ _ rfl rfl (by simp)
    split
    · exact audited_of_refused _ _ _ _ _ _ rfl rfl (by simp)
    split
    · exact audited_of_refused _ _ _ _ _ _ rfl rfl (by simp)
    split
    all_goals
      rename_i heq
      have h1 := congrArg Prod.fst heq
      simp only at h1
      subst h1
    · exact audited_of_refused _ _ _ _ _ _ (by rw [(repo_addMaterialItem_frame _ _ _ _ _ _ _).1])
        (repo_addMaterialItem_frame _ _ _ _ _ _ _).2 (by simp [internalError])
    · exact audited_of_audit _ _ _ _ _ _ _ _ _
        (by rw [recalcTotals_store, recalcTotal_bookingIds,
          (repo_addMaterialItem_frame _ _ _ _ _ _ _).1])
        (repo_addMaterialItem_frame _ _ _ _ _ _ _).2 (by simp) hid
  · exact audited_of_refused _ _ _ _ _ _ rfl rfl (by simp)

theorem addPayment_audited (rt : JsRuntime) (sch : Schema) (now : Nat) (s : Store)
    (req : Request) :
    AuditedStep s (Controller.addPayment rt sch now s req) "payment"
      (fun n => (JsValue.string req.id).toNumber rt = .finite (n : ℚ) ∧ 0 < n) := by
  unfold Controller.addPayment
  simp only []
  split
  · exact audited_of_refused _ _ _ _ _ _ rfl rfl (by simp)
  rename_i hbad
  have hid := invalidId_false _ (by simpa using hbad)
  split
  · exact audited_of_refused _ _ _ _ _ _ rfl rfl (by simp)
  split
  · exact audited_of_refused _ _ _ _ _ _ rfl rfl (by simp)
  split
  all_goals
    rename_i heq
    have h1 := congrArg Prod.fst heq
    simp only at h1
    subst h1
  · exact audited_of_refused _ _ _ _ _ _ (repo_addPayment_frame _ _ _ _ _ _ _).1
      (repo_addPayment_frame _ _ _ _ _ _ _).2 (by simp [internalError])
  · exact audited_of_audit _ _ _ _ _ _ _ _ _ (repo_addPayment_frame _ _ _ _ _ _ _).1
      (repo_addPayment_frame _ _ _ _ _ _ _).2 (by simp) hid

/-! ## Theorems: one work order per booking -/

theorem op_run_audited (rt : JsRuntime) (sch : Schema) (now : Nat) (s : Store) (req : Request)
    (op : Op) :
    (op.creates = true ∧ AuditedCreate s (op.run rt sch now s req))
    ∨ (op.creates = false ∧ AuditedStep s (op.run rt sch now s req) op.action
        (fun n => (JsValue.string req.id).toNumber rt = .finite (n : ℚ) ∧ 0 < n)) := by
  have hmount : ∀ n : Nat, (Routes.toInt rt (.string req.id) = some (n : ℤ) ∧ 0 < n) →
      ((JsValue.string req.id).toNumber rt = .finite (n : ℚ) ∧ 0 < n) := by
    intro n hn
    refine ⟨?_, hn.2⟩
    have h := hn.1
    unfold Routes.toInt at h
    split at h
    · rename_i q hq
      split at h
      · rename_i hint
        simp only [Option.some.injEq] at h
        have hden : q.den = 1 := by simpa [Rat.isInt] using hint
        have h2 : ((q.num : ℤ) : ℚ) = q := Rat.coe_int_num_of_den_eq_one hden
        rw [hq, ← h2, h]
        simp
      · simp at h
    · simp at h
  have mono : ∀ (o : Outcome) (a : String),
      AuditedStep s o a (fun n => Routes.toInt rt (.string req.id) = some (n : ℤ) ∧ 0 < n) →
      AuditedStep s o a (fun n => (JsValue.string req.id).toNumber rt = .finite (n : ℚ) ∧ 0 < n) := by
    intro o a h
    refine ⟨h.1, ?_⟩
    rcases h.2 with h2 | ⟨h2, e, h3, h4, h5, h6⟩
    · exact Or.inl h2
    · exact Or.inr ⟨h2, e, h3, h4, h5, hmount _ h6⟩
  cases op
  · exact Or.inl ⟨rfl, postWorkOrder_audited rt now s req⟩
  · exact Or.inr ⟨rfl, mono _ _ (patchStatus_audited rt sch now s req)⟩
  · exact Or.inr ⟨rfl, mono _ _ (postWorkItem_audited rt sch now s req)⟩
  · exact Or.inr ⟨rfl, mono _ _ (postMaterialItem_audited rt sch now s req)⟩
  · exact Or.inr ⟨rfl, mono _ _ (postPayment_audited rt sch now s req)⟩
  · exact Or.inl ⟨rfl, createWorkOrder_audited rt now s req⟩
  · exact Or.inr ⟨rfl, patchWorkOrderStatus_audited rt sch now s req⟩
  · exact Or.inr ⟨rfl, addWorkItem_audited rt sch now s req⟩
  · exact Or.inr ⟨rfl, addMaterialItem_audited rt sch now s req⟩
  · exact Or.inr ⟨rfl, addPayment_audited rt sch now s req⟩

theorem reachable_bookingIds_nodup (rt : JsRuntime) (sch : Schema) (s : Store)
    (h : Reachable rt sch s) : (s.work_orders.map (fun w => w.booking_id)).Nodup := by
  induction h with
  | init s h0 => simp [h0]
  | step s op now req _ ih =>
    rcases op_run_audited rt sch now s req op with ⟨_, h⟩ | ⟨_, h⟩
    · rcases h with ⟨_, h1, _⟩ | ⟨_, row, e, _, h1, h2, _⟩
      · rw [h1]; exact ih
      · rw [h1, List.map_append, List.map_singleton]
        apply List.Nodup.append ih (List.nodup_singleton _)
        intro b hb hb2
        rw [List.mem_singleton] at hb2
        subst hb2
        obtain ⟨w, hw, hwb⟩ := List.mem_map.mp hb
        exact h2 w hw hwb
    · rw [h.1]; exact ih

theorem filter_length_le_one_of_nodup (l : List WorkOrder) (b : Nat)
    (h : (l.map (fun w => w.booking_id)).Nodup) :
    (l.filter (fun w => decide (w.booking_id = b))).length ≤ 1 := by
  induction l with
  | nil => simp
  | cons w ws ih =>
    rw [List.map_cons, List.nodup_cons] at h
    by_cases hb : w.booking_id = b
    · have hnil : ws.filter (fun w => decide (w.booking_id = b)) = [] := by
        rw [List.filter_eq_nil_iff]
        intro v hv hvb
        apply h.1
        rw [List.mem_map]
        exact ⟨v, hv, by rw [hb]; simpa using hvb⟩
      simp [List.filter_cons, hb, hnil]
    · simpa [List.filter_cons, hb] using ih h.2

/-- C5. For a booking id that a work order already references, `POST /work-orders` answers 409
and adds neither a work order nor an audit entry: the mounted handler by its pre-check, leaving
the store as it was, and `createWorkOrder` of the controller, for the id of a booking, by the
store's uniqueness violation.  In every store reachable from one without work orders through
the mutating operations, at most one work order references any booking. -/
theorem duplicate_booking_conflict (rt : JsRuntime) (sch : Schema) :
    (∀ (now : Nat) (s : Store) (req : Request) (bid : Nat),
        Routes.toInt rt (req.field "booking_id") = some (bid : ℤ) → 0 < bid →
        (∃ w ∈ s.work_orders, w.booking_id = bid) →
        (Routes.postWorkOrder rt now s req).response.status = 409
        ∧ (Routes.postWorkOrder rt now s req).store = s)
    ∧ (∀ (now : Nat) (s : Store) (req : Request) (bid : Nat),
        (req.field "booking_id").toNumber rt = .finite (bid : ℚ) → 0 < bid →
        (∃ w ∈ s.work_orders, w.booking_id = bid) → (∃ b ∈ s.bookings, b.id = bid) →
        (Controller.createWorkOrder rt now s req).response.status = 409
        ∧ (Controller.createWorkOrder rt now s req).store.work_orders = s.work_orders
        ∧ (Controller.createWorkOrder rt now s req).store.audit_log = s.audit_log)
    ∧ (∀ s : Store, Reachable rt sch s →
        ∀ b : Nat, (s.work_orders.filter (fun w => decide (w.booking_id = b))).length ≤ 1) := by
  refine ⟨?_, ?_, ?_⟩
  · intro now s req bid hid hpos hw
    have hbad : Routes.badId (some (bid : ℤ)) = false := by
      simp only [Routes.badId, Bool.or_eq_false_iff, decide_eq_false_iff_not]
      omega
    have hlen : (s.work_orders.filter (fun w => decide (w.booking_id = bid))).length > 0 := by
      obtain ⟨w, hw, hb⟩ := hw
      apply List.length_pos_of_mem
      exact List.mem_filter.mpr ⟨hw, by simpa using hb⟩
    simp [Routes.postWorkOrder, hid, hbad, hlen]
  · intro now s req bid hid hpos hw hb
    have hinv : Controller.invalidId (.finite (bid : ℚ)) = false := by
      simp only [Controller.invalidId, JsNumber.isInteger, JsNumber.leZero, Bool.or_eq_false_iff,
        Bool.not_eq_false', decide_eq_false_iff_not, not_le]
      exact ⟨by simp [Rat.isInt], by exact_mod_cast hpos⟩
    have hidOf : Controller.idOf (.finite (bid : ℚ)) = bid := by
      simp [Controller.idOf]
    obtain ⟨b, hbm, hbid⟩ := hb
    have hne : s.bookings.filter (fun b => decide (b.id = bid)) ≠ [] := by
      intro h
      have hmem : b ∈ s.bookings.filter (fun b => decide (b.id = bid)) :=
        List.mem_filter.mpr ⟨hbm, by simpa using hbid⟩
      rw [h] at hmem
      cases hmem
    obtain ⟨b0, rest, hf⟩ := List.exists_cons_of_ne_nil hne
    have hb0 : b0.id = bid := by
      have : b0 ∈ s.bookings.filter (fun b => decide (b.id = bid)) := by rw [hf]; simp
      simpa using (List.mem_filter.mp this).2
    have hany : s.work_orders.any (fun w => decide (w.booking_id = b0.id)) = true := by
      obtain ⟨w, hw, hwb⟩ := hw
      rw [List.any_eq_true]
      exact ⟨w, hw, by simpa [hb0] using hwb⟩
    simp [Controller.createWorkOrder, hid, hinv, hidOf, Repo.createWorkOrderFromBooking, hf,
      Db.insertWorkOrder, hany]
  · intro s hs b
    exact filter_length_le_one_of_nodup _ b (reachable_bookingIds_nodup rt sch s hs)

theorem duplicate_booking_conflict_witness :
    (Routes.postWorkOrder decimalRuntime 20 createdStore createRequest).response.status = 409
    ∧ (Controller.createWorkOrder decimalRuntime 20 createdStore createRequest).response.status
        = 409
    ∧ (createdStore.work_orders.filter (fun w => decide (w.booking_id = 42))).length ≤ 1 :=
  ⟨((duplicate_booking_conflict decimalRuntime strictSchema).1 20 createdStore createRequest 42
      (by decide!) (by decide) (by decide!)).1,
    ((duplicate_booking_conflict decimalRuntime strictSchema).2.1 20 createdStore createRequest
      42 (by decide!) (by decide) (by decide!) (by decide!)).1,
    (duplicate_booking_conflict decimalRuntime strictSchema).2.2 createdStore
      (Reachable.step bookedStore .postWorkOrder 10 createRequest (Reachable.init bookedStore rfl))
      42⟩

/-! ## Theorems: status validation -/

/-- C6 (failing input). `PATCH /work-orders/1/status` with status `bogus`, on a store holding
work order 1 with status created: the mounted handler answers 200 and stores `bogus` when the
status column is unconstrained, and answers 500 when the schema restricts the column; it does
not answer 400.  The controller function answers 400 to the same request and leaves the
store as it was. -/
theorem patchStatus_stores_unrecognised_status :
    (Routes.patchStatus decimalRuntime laxSchema 20 sampleStore bogusStatusRequest).response.status
        = 200
    ∧ (Routes.patchStatus decimalRuntime laxSchema 20 sampleStore
          bogusStatusRequest).store.work_orders.map (fun w => (w.id, w.status))
        = [(1, "bogus"), (2, "closed")]
    ∧ sampleStore.work_orders.map (fun w => (w.id, w.status)) = [(1, "created"), (2, "closed")]
    ∧ (Routes.patchStatus decimalRuntime strictSchema 20 sampleStore
          bogusStatusRequest).response.status = 500
    ∧ (Controller.patchWorkOrderStatus decimalRuntime laxSchema 20 sampleStore
          bogusStatusRequest).response.status = 400
    ∧ (Controller.patchWorkOrderStatus decimalRuntime laxSchema 20 sampleStore
          bogusStatusRequest).store = sampleStore := by
  decide!

theorem patchStatus_not_400 (rt : JsRuntime) (sch : Schema) (now : Nat) (s : Store)
    (req : Request) (hid : Routes.badId (Routes.toInt rt (.string req.id)) = false)
    (hst : (req.field "status").truthy = true) :
    (Routes.patchStatus rt sch now s req).response.status ≠ 400 := by
  unfold Routes.patchStatus
  simp only [hid, hst, Bool.false_eq_true, if_false, Bool.not_true]
  split
  · simp [internalError]
  · split <;> simp [internalError]

/-- C7. `patchWorkOrderStatus` of the controller calls `repo.updateWorkOrderStatus` only when
the id parameter denotes a positive integer and the status is a string of
`WORK_ORDER_STATUSES`, and in that case it does call it.  For every other status value, a
non-string or a string outside the list, it answers 400, calls no repository function and
leaves the store as it was. -/
theorem patchWorkOrderStatus_validates (rt : JsRuntime) (sch : Schema) (now : Nat) (s : Store)
    (req : Request) :
    (Call.updateWorkOrderStatus ∈ (Controller.patchWorkOrderStatus rt sch now s req).calls →
        (∃ n : Nat, 0 < n ∧ (JsValue.string req.id).toNumber rt = .finite (n : ℚ))
        ∧ ∃ st, req.field "status" = .string st ∧ st ∈ Controller.WORK_ORDER_STATUSES)
    ∧ ((∃ n : Nat, 0 < n ∧ (JsValue.string req.id).toNumber rt = .finite (n : ℚ)) →
        (∃ st, req.field "status" = .string st ∧ st ∈ Controller.WORK_ORDER_STATUSES) →
        (Controller.patchWorkOrderStatus rt sch now s req).calls.head?
          = some Call.updateWorkOrderStatus)
    ∧ ((∀ st, req.field "status" = .string st → st ∉ Controller.WORK_ORDER_STATUSES) →
        (Controller.patchWorkOrderStatus rt sch now s req).response.status = 400
        ∧ (Controller.patchWorkOrderStatus rt sch now s req).calls = []
        ∧ (Controller.patchWorkOrderStatus rt sch now s req).store = s) := by
  refine ⟨?_, ?_, ?_⟩
  · intro hcall
    unfold Controller.patchWorkOrderStatus at hcall
    simp only [] at hcall
    split at hcall
    · simp at hcall
    rename_i hbad
    have hid := invalidId_false _ (by simpa using hbad)
    split at hcall
    · rename_i st hst
      split at hcall
      · simp at hcall
      · rename_i hmem
        exact ⟨⟨_, hid.2, hid.1⟩, st, hst, by simpa using hmem⟩
    · simp at hcall
  · rintro ⟨n, hn, hid⟩ ⟨st, hst, hmem⟩
    have hinv : Controller.invalidId (.finite (n : ℚ)) = false := by
      simp only [Controller.invalidId, JsNumber.isInteger, JsNumber.leZero, Bool.or_eq_false_iff,
        Bool.not_eq_false', decide_eq_false_iff_not, not_le]
      exact ⟨by simp [Rat.isInt], by exact_mod_cast hn⟩
    unfold Controller.patchWorkOrderStatus
    simp only [hid, hinv, hst, hmem, decide_True, Bool.not_true, Bool.false_eq_true, if_false]
    split <;> rfl
  · intro hno
    unfold Controller.patchWorkOrderStatus
    simp only []
    split
    · exact ⟨rfl, rfl, rfl⟩
    split
    · rename_i st hst
      have := hno st hst
      simp [this]
    · exact ⟨rfl, rfl, rfl⟩

theorem patchWorkOrderStatus_validates_witness :
    (Controller.patchWorkOrderStatus decimalRuntime strictSchema 20 sampleStore
        bogusStatusRequest).response.status = 400
    ∧ (Controller.patchWorkOrderStatus decimalRuntime strictSchema 20 sampleStore
        bogusStatusRequest).calls = [] :=
  have hno : ∀ st, bogusStatusRequest.field "status" = .string st →
      st ∉ Controller.WORK_ORDER_STATUSES := by
    intro st h
    have h2 : JsValue.string "bogus" = JsValue.string st := h
    cases h2
    decide
  ⟨((patchWorkOrderStatus_validates decimalRuntime strictSchema 20 sampleStore
      bogusStatusRequest).2.2 hno).1,
    ((patchWorkOrderStatus_validates decimalRuntime strictSchema 20 sampleStore
      bogusStatusRequest).2.2 hno).2.1⟩

/-! ## Theorems: the audit trail -/

/-- C8. Every call of a mutating work-order operation (the five mounted handlers and the five
controller functions) that is answered 2xx appends exactly one audit entry; its entity is
`work_order`, its action is the tag of the operation (create, status_change, add_work_item,
add_material_item, payment), and its `entity_id` is the id of the work order the call created
and returned, or, for the other operations, the positive integer the id path parameter
denotes. -/
theorem successful_call_audited (rt : JsRuntime) (sch : Schema) (now : Nat) (s : Store)
    (req : Request) (op : Op)
    (hok : 200 ≤ (op.run rt sch now s req).response.status
      ∧ (op.run rt sch now s req).response.status < 300) :
    ∃ e : AuditEntry, (op.run rt sch now s req).store.audit_log = s.audit_log ++ [e]
      ∧ e.entity = "work_order" ∧ e.action = op.action
      ∧ (op.creates = true → ∃ row : WorkOrder,
          (op.run rt sch now s req).response.body = .workOrder row
          ∧ (op.run rt sch now s req).store.work_orders = s.work_orders ++ [row]
          ∧ e.entity_id = row.id)
      ∧ (op.creates = false →
          (JsValue.string req.id).toNumber rt = .finite (e.entity_id : ℚ) ∧ 0 < e.entity_id) := by
  rcases op_run_audited rt sch now s req op with ⟨hc, h⟩ | ⟨hc, h⟩
  · rcases h with ⟨hst, _, _⟩ | ⟨_, row, e, hbody, hwo, _, haud, hent, hact, hid⟩
    · exfalso
      simp only [List.mem_cons, List.mem_singleton, List.not_mem_nil, or_false] at hst
      omega
    · refine ⟨e, haud, hent, ?_, fun _ => ⟨row, hbody, hwo, hid⟩, fun h => ?_⟩
      · rw [hact]; cases op <;> first | rfl | cases hc
      · rw [hc] at h; cases h
  · rcases h.2 with ⟨hst, _⟩ | ⟨_, e, haud, hent, hact, htarget⟩
    · exfalso
      simp only [List.mem_cons, List.mem_singleton, List.not_mem_nil, or_false] at hst
      omega
    · refine ⟨e, haud, hent, hact, ?_, fun _ => htarget⟩
      intro h
      rw [hc] at h
      cases h

theorem successful_call_audited_witness :
    ∃ e : AuditEntry,
      (Op.run decimalRuntime strictSchema 11 createdStore workItemRequest .postWorkItem).store.audit_log
        = createdStore.audit_log ++ [e]
      ∧ e.entity = "work_order" ∧ e.action = "add_work_item" :=
  (successful_call_audited decimalRuntime strictSchema 11 createdStore workItemRequest
    .postWorkItem (by decide!)).imp fun _ h => ⟨h.1, h.2.1, h.2.2.1⟩

/-! ## Theorems: the scenario of booking 42 -/

/-- C9. Scenario, for every schema: from a store holding booking 42 (client 1, car 7) and no
work order, `POST /work-orders` creates work order 1 with both amounts 0; adding the work item
(qty 1, unit price 2500) and the material item (qty 4, unit price 800) leaves
`total_amount = 5700`; the payment of 5700 by card leaves `paid_amount = 5700`; and the debt the
frontend computes from `GET /work-orders/1/full` is 0. -/
theorem booking_42_totals (sch : Schema) :
    (Routes.postWorkOrder decimalRuntime 10 bookedStore createRequest).response.status = 201
    ∧ createdStore.work_orders.map
        (fun w => (w.id, w.booking_id, w.client_id, w.car_id, w.total_amount, w.paid_amount))
        = [(1, 42, 1, 7, 0, 0)]
    ∧ itemCallsSucceed decimalRuntime sch createdStore itemCalls = true
    ∧ (itemsStore sch).work_orders.map (fun w => (w.id, w.total_amount)) = [(1, 5700)]
    ∧ (Routes.postPayment decimalRuntime sch 13 (itemsStore sch) paymentRequest).response.status
        = 201
    ∧ (paidStore sch).work_orders.map (fun w => (w.id, w.total_amount, w.paid_amount))
        = [(1, 5700, 5700)]
    ∧ Frontend.finalTotal (Frontend.loadWorkOrderFull
        (Routes.getFull decimalRuntime (paidStore sch) fullRequest)) = 5700
    ∧ Frontend.finalPaid (Frontend.loadWorkOrderFull
        (Routes.getFull decimalRuntime (paidStore sch) fullRequest)) = 5700
    ∧ Frontend.finalDebt (Frontend.loadWorkOrderFull
        (Routes.getFull decimalRuntime (paidStore sch) fullRequest)) = 0 := by
  rcases sch with ⟨a, b, c⟩
  cases a <;> cases b <;> cases c <;> decide!

/-! ## Theorems: rejected quantities -/

theorem gtZero_of_leZero (n : JsNumber) (h : n.leZero = true) : n.gtZero = false := by
  cases n with
  | finite q =>
    simp only [JsNumber.leZero, decide_eq_true_eq] at h
    simp only [JsNumber.gtZero, decide_eq_false_iff_not, not_lt]
    exact h
  | nan => rfl
  | posInf => simp [JsNumber.leZero] at h
  | negInf => rfl

theorem badQty_of_leZero (rt : JsRuntime) (v : JsValue) (h : (v.toNumber rt).leZero = true) :
    Routes.badQty (Routes.toNum rt v) = true := by
  unfold Routes.toNum
  cases hn : v.toNumber rt with
  | finite q =>
    rw [hn] at h
    simp only [JsNumber.leZero, decide_eq_true_eq] at h
    simp [Routes.badQty, h]
  | nan => rfl
  | posInf => rfl
  | negInf => rfl

/-- C10, amended. An add-work-item request whose `qty` is supplied (for the mounted handler: neither
absent nor `null`; for the controller: not absent) and coerces to a number `≤ 0`, 0 in
particular, is answered 400 by the mounted `POST /work-orders/:id/work-items` handler and by
`addWorkItem` of the controller; no store statement is issued and the store, with its work
items, audit log and stored totals, stays as it was. -/
theorem nonpositive_qty_rejected (rt : JsRuntime) (sch : Schema) (now : Nat) (s : Store)
    (req : Request) (hle : ((req.field "qty").toNumber rt).leZero = true) :
    ((req.field "qty").isNullish = false →
        (Routes.postWorkItem rt sch now s req).response.status = 400
        ∧ (Routes.postWorkItem rt sch now s req).store = s
        ∧ (Routes.postWorkItem rt sch now s req).calls = [])
    ∧ (req.field "qty" ≠ .undefined →
        (Controller.addWorkItem rt sch now s req).response.status = 400
        ∧ (Controller.addWorkItem rt sch now s req).store = s
        ∧ (Controller.addWorkItem rt sch now s req).calls = []) := by
  constructor
  · intro hsup
    have hq : Routes.badQty (Routes.itemQty rt req) = true := by
      simp only [Routes.itemQty, hsup, Bool.false_eq_true, if_false]
      exact badQty_of_leZero rt _ hle
    unfold Routes.postWorkItem
    simp only [hq, if_true]
    split
    · exact ⟨rfl, rfl, rfl⟩
    split <;> exact ⟨rfl, rfl, rfl⟩
  · intro hsup
    have hq := gtZero_of_leZero _ hle
    unfold Controller.addWorkItem
    simp only [hsup, if_false, hq, Bool.not_false, Bool.true_or, if_true]
    split
    · exact ⟨rfl, rfl, rfl⟩
    split
    · split <;> exact ⟨rfl, rfl, rfl⟩
    · exact ⟨rfl, rfl, rfl⟩

theorem nonpositive_qty_rejected_witness :
    ((zeroQtyRequest.field "qty").toNumber decimalRuntime).leZero = true
    ∧ (Routes.postWorkItem decimalRuntime strictSchema 11 createdStore zeroQtyRequest).store
        = createdStore
    ∧ (Controller.addWorkItem decimalRuntime strictSchema 11 createdStore zeroQtyRequest).store
        = createdStore :=
  ⟨by decide!,
    ((nonpositive_qty_rejected decimalRuntime strictSchema 11 createdStore zeroQtyRequest
      (by decide!)).1 (by decide)).2.1,
    ((nonpositive_qty_rejected decimalRuntime strictSchema 11 createdStore zeroQtyRequest
      (by decide!)).2 (by decide)).2.1⟩

/-! ## Theorems: status of a missing work order -/

theorem toInt_of_toNumber (rt : JsRuntime) (x : JsValue) (n : Nat)
    (h : x.toNumber rt = .finite (n : ℚ)) : Routes.toInt rt x = some (n : ℤ) := by
  unfold Routes.toInt
  rw [h]
  simp [Rat.isInt]

theorem badId_natCast (n : Nat) (h : 0 < n) : Routes.badId (some (n : ℤ)) = false := by
  simp only [Routes.badId, Bool.or_eq_false_iff, decide_eq_false_iff_not]
  omega

theorem invalidId_natCast (n : Nat) (h : 0 < n) :
    Controller.invalidId (.finite (n : ℚ)) = false := by
  simp only [Controller.invalidId, JsNumber.isInteger, JsNumber.leZero, Bool.or_eq_false_iff,
    Bool.not_eq_false', decide_eq_false_iff_not, not_le]
  exact ⟨by simp [Rat.isInt], by exact_mod_cast h⟩

theorem idOf_natCast (n : Nat) : Controller.idOf (.finite (n : ℚ)) = n := by
  simp [Controller.idOf]

theorem updateStatus_no_match (sch : Schema) (now : Nat) (sel : WorkOrder → Bool)
    (status : String) (s : Store) (h : ∀ w ∈ s.work_orders, sel w = false) :
    Db.updateStatus sch now sel status s = (s, .ok []) := by
  have hany : s.work_orders.any sel = false := by
    rw [List.any_eq_false]
    intro w hw
    simp [h w hw]
  have hmap : s.work_orders.map
      (fun w => if sel w = true then { w with status := status, updated_at := now } else w)
      = s.work_orders := by
    conv_rhs => rw [← List.map_id s.work_orders]
    apply List.map_congr_left
    intro w hw
    simp [h w hw]
  have hfil : s.work_orders.filter sel = [] := by
    rw [List.filter_eq_nil_iff]
    intro w hw
    simp [h w hw]
  unfold Db.updateStatus
  simp only [hany, Bool.and_false, Bool.false_eq_true, if_false, hmap, hfil, List.map_nil]

theorem status_ne_empty (st : String) (h : st ∈ Controller.WORK_ORDER_STATUSES) : st ≠ "" := by
  rintro rfl
  revert h
  decide

theorem patchStatus_of_missing (rt : JsRuntime) (sch : Schema) (now : Nat)
    (s : Store) (req : Request) (id : Nat) (st : String) (hpos : 0 < id)
    (hid : (JsValue.string req.id).toNumber rt = .finite (id : ℚ))
    (hmiss : ∀ w ∈ s.work_orders, w.id ≠ id)
    (hst : req.field "status" = .string st) (hrec : st ∈ Controller.WORK_ORDER_STATUSES) :
    (Routes.patchStatus rt sch now s req).response.status = 404
    ∧ (Routes.patchStatus rt sch now s req).store = s
    ∧ (Controller.patchWorkOrderStatus rt sch now s req).response.status = 404
    ∧ (Controller.patchWorkOrderStatus rt sch now s req).store = s := by
  have hne := status_ne_empty st hrec
  have h1 := updateStatus_no_match sch now (fun w => decide (w.id = id)) st s
    (fun w hw => by simpa using hmiss w hw)
  have h2 := updateStatus_no_match sch now (fun w => decide (w.id = id) && !w.is_archived) st s
    (fun w hw => by simp [hmiss w hw])
  refine ⟨?_, ?_, ?_, ?_⟩
  · simp [Routes.patchStatus, toInt_of_toNumber rt _ id hid, badId_natCast id hpos, hst,
      JsValue.truthy, hne, JsValue.pgParam, h1]
  · simp [Routes.patchStatus, toInt_of_toNumber rt _ id hid, badId_natCast id hpos, hst,
      JsValue.truthy, hne, JsValue.pgParam, h1]
  · simp [Controller.patchWorkOrderStatus, hid, invalidId_natCast id hpos, idOf_natCast, hst,
      hrec, Repo.updateWorkOrderStatus, h2]
  · simp [Controller.patchWorkOrderStatus, hid, invalidId_natCast id hpos, idOf_natCast, hst,
      hrec, Repo.updateWorkOrderStatus, h2]

/-! ## Theorems: creation from a booking -/

theorem filter_bookings_of_key (s : Store) (bk : Booking) (hmem : bk ∈ s.bookings)
    (hkey : ∀ b ∈ s.bookings, b.id = bk.id → b = bk) :
    ∃ rest, s.bookings.filter (fun b => decide (b.id = bk.id)) = bk :: rest := by
  have hne : s.bookings.filter (fun b => decide (b.id = bk.id)) ≠ [] := by
    intro h
    have hm : bk ∈ s.bookings.filter (fun b => decide (b.id = bk.id)) :=
      List.mem_filter.mpr ⟨hmem, by simp⟩
    rw [h] at hm
    cases hm
  obtain ⟨b0, rest, hf⟩ := List.exists_cons_of_ne_nil hne
  have hb0 : b0 ∈ s.bookings.filter (fun b => decide (b.id = bk.id)) := by rw [hf]; simp
  have hb0' := List.mem_filter.mp hb0
  have : b0 = bk := hkey b0 hb0'.1 (by simpa using hb0'.2)
  subst this
  exact ⟨rest, hf⟩

theorem filter_eq_nil_of_forall_ne {α : Type} (l : List α) (f : α → Nat) (n : Nat)
    (h : ∀ x ∈ l, f x ≠ n) : l.filter (fun x => decide (f x = n)) = [] := by
  rw [List.filter_eq_nil_iff]
  intro x hx
  simpa using h x hx

theorem any_eq_false_of_forall_ne {α : Type} (l : List α) (f : α → Nat) (n : Nat)
    (h : ∀ x ∈ l, f x ≠ n) : l.any (fun x => decide (f x = n)) = false := by
  rw [List.any_eq_false]
  intro x hx
  simpa using h x hx

/-- C12. For a booking that exists (its id positive and a key of `bookings`) and that no work
order references, the mounted `POST /work-orders` handler answers 201 with the inserted row:
exactly one work order is appended, with the booking's id as `booking_id`, the booking's
`client_id` and `car_id`, status created and both amounts 0; bookings, items and payments are
untouched. -/
theorem postWorkOrder_creates_from_booking (rt : JsRuntime) (now : Nat) (s : Store)
    (req : Request) (bk : Booking) (hpos : 0 < bk.id)
    (hid : (req.field "booking_id").toNumber rt = .finite (bk.id : ℚ))
    (hmem : bk ∈ s.bookings) (hkey : ∀ b ∈ s.bookings, b.id = bk.id → b = bk)
    (hfree : ∀ w ∈ s.work_orders, w.booking_id ≠ bk.id) :
    (Routes.postWorkOrder rt now s req).response.status = 201
    ∧ ∃ row : WorkOrder, (Routes.postWorkOrder rt now s req).response.body = .workOrder row
      ∧ (Routes.postWorkOrder rt now s req).store.work_orders = s.work_orders ++ [row]
      ∧ row.booking_id = bk.id ∧ row.client_id = bk.client_id ∧ row.car_id = bk.car_id
      ∧ row.status = "created" ∧ row.total_amount = 0 ∧ row.paid_amount = 0
      ∧ (Routes.postWorkOrder rt now s req).store.bookings = s.bookings
      ∧ (Routes.postWorkOrder rt now s req).store.work_items = s.work_items
      ∧ (Routes.postWorkOrder rt now s req).store.material_items = s.material_items
      ∧ (Routes.postWorkOrder rt now s req).store.payments = s.payments := by
  obtain ⟨rest, hf⟩ := filter_bookings_of_key s bk hmem hkey
  have hnil := filter_eq_nil_of_forall_ne s.work_orders (fun w => w.booking_id) bk.id hfree
  have hany := any_eq_false_of_forall_ne s.work_orders (fun w => w.booking_id) bk.id hfree
  have hrun : Routes.postWorkOrder rt now s req =
      ⟨Db.insertAudit now "work_order" s.seq_work_orders "create"
          [("booking_id", Routes.num bk.id)]
          { s with
            work_orders := s.work_orders ++ [⟨s.seq_work_orders, bk.id, bk.client_id, bk.car_id,
              none, "created", 0, 0, false, now, now⟩],
            seq_work_orders := s.seq_work_orders + 1 },
        ⟨201, .workOrder ⟨s.seq_work_orders, bk.id, bk.client_id, bk.car_id, none, "created", 0, 0,
          false, now, now⟩⟩,
        [.selectWorkOrderByBooking, .selectBooking, .insertWorkOrder, .insertAudit]⟩ := by
    simp [Routes.postWorkOrder, toInt_of_toNumber rt _ bk.id hid, badId_natCast bk.id hpos,
      hnil, hf, Db.insertWorkOrder, hany]
  rw [hrun]
  exact ⟨rfl, _, rfl, rfl, rfl, rfl, rfl, rfl, rfl, rfl, rfl, rfl, rfl, rfl⟩

theorem postWorkOrder_creates_from_booking_witness :
    (Routes.postWorkOrder decimalRuntime 10 bookedStore createRequest).response.status = 201 :=
  (postWorkOrder_creates_from_booking decimalRuntime 10 bookedStore createRequest
    { id := 42, client_id := 1, car_id := 7 } (by decide) (by decide!) (by decide)
    (by decide) (by decide)).1

theorem insertWorkOrder_bookings (now b c k : Nat) (d : Option String) (st : String) (t p : ℚ)
    (s : Store) : (Db.insertWorkOrder now b c k d st t p s).1.bookings = s.bookings := by
  unfold Db.insertWorkOrder
  split <;> rfl

theorem insertWorkItem_bookings (sch : Schema) (id : Nat) (name : String) (q p : ℚ) (s : Store) :
    (Db.insertWorkItem sch id name q p s).1.bookings = s.bookings := by
  unfold Db.insertWorkItem
  split <;> rfl

theorem insertMaterialItem_bookings (sch : Schema) (id : Nat) (mid : Option Nat) (name : String)
    (q p : ℚ) (s : Store) :
    (Db.insertMaterialItem sch id mid name q p s).1.bookings = s.bookings := by
  unfold Db.insertMaterialItem
  split <;> rfl

theorem insertPayment_bookings (sch : Schema) (now id : Nat) (a : ℚ) (m : String)
    (paid_at : Option Nat) (s : Store) :
    (Db.insertPayment sch now id a m paid_at s).1.bookings = s.bookings := by
  unfold Db.insertPayment
  split
  · rfl
  · split <;> rfl

theorem updateStatus_bookings (sch : Schema) (now : Nat) (sel : WorkOrder → Bool)
    (status : String) (s : Store) :
    (Db.updateStatus sch now sel status s).1.bookings = s.bookings := by
  unfold Db.updateStatus
  split <;> rfl

theorem createWorkOrderFromBooking_bookings (rt : JsRuntime) (now b : Nat) (d : JsValue)
    (s : Store) : (Repo.createWorkOrderFromBooking rt now b d s).1.bookings = s.bookings := by
  unfold Repo.createWorkOrderFromBooking
  split
  · rfl
  · split
    all_goals
      rename_i heq
      have h1 := congrArg Prod.fst heq
      simp only at h1
      subst h1
      exact insertWorkOrder_bookings _ _ _ _ _ _ _ _ _

theorem updateWorkOrderStatus_bookings (sch : Schema) (now id : Nat) (status : String)
    (s : Store) : (Repo.updateWorkOrderStatus sch now id status s).1.bookings = s.bookings := by
  unfold Repo.updateWorkOrderStatus
  split
  all_goals
    rename_i heq
    have h1 := congrArg Prod.fst heq
    simp only at h1
    subst h1
    exact updateStatus_bookings _ _ _ _ _

theorem repo_addWorkItem_bookings (sch : Schema) (id : Nat) (name : String) (q p : JsNumber)
    (s : Store) : (Repo.addWorkItem sch id name q p s).1.bookings = s.bookings := by
  unfold Repo.addWorkItem
  split
  · exact insertWorkItem_bookings _ _ _ _ _ _
  · rfl

theorem repo_addMaterialItem_bookings (sch : Schema) (id : Nat) (mid : Option Nat)
    (name : String) (q p : JsNumber) (s : Store) :
    (Repo.addMaterialItem sch id mid name q p s).1.bookings = s.bookings := by
  unfold Repo.addMaterialItem
  split
  · exact insertMaterialItem_bookings _ _ _ _ _ _ _
  · rfl

theorem repo_addPayment_bookings (rt : JsRuntime) (sch : Schema) (now id : Nat) (a : JsNumber)
    (m : JsValue) (s : Store) : (Repo.addPayment rt sch now id a m s).1.bookings = s.bookings := by
  unfold Repo.addPayment
  split
  · split
    all_goals
      rename_i heq
      have h1 := congrArg Prod.fst heq
      simp only at h1
      subst h1
      exact insertPayment_bookings _ _ _ _ _ _ _
  · rfl
  · rfl

theorem op_run_bookings (rt : JsRuntime) (sch : Schema) (now : Nat) (s : Store) (req : Request)
    (op : Op) : (op.run rt sch now s req).store.bookings = s.bookings := by
  cases op
  · unfold Op.run Routes.postWorkOrder
    simp only []
    repeat' split
    all_goals first
      | rfl
      | (rename_i heq
         have h1 := congrArg Prod.fst heq
         simp only at h1
         subst h1
         exact insertWorkOrder_bookings _ _ _ _ _ _ _ _ _)
  · unfold Op.run Routes.patchStatus
    simp only []
    repeat' split
    all_goals first
      | rfl
      | (rename_i heq
         have h1 := congrArg Prod.fst heq
         simp only at h1
         subst h1
         exact updateStatus_bookings _ _ _ _ _)
  · unfold Op.run Routes.postWorkItem
    simp only []
    repeat' split
    all_goals first
      | rfl
      | (rename_i heq
         have h1 := congrArg Prod.fst heq
         simp only at h1
         subst h1
         exact insertWorkItem_bookings _ _ _ _ _ _)
  · unfold Op.run Routes.postMaterialItem
    simp only []
    repeat' split
    all_goals first
      | rfl
      | (rename_i heq
         have h1 := congrArg Prod.fst heq
         simp only at h1
         subst h1
         exact insertMaterialItem_bookings _ _ _ _ _ _ _)
  · unfold Op.run Routes.postPayment
    simp only []
    repeat' split
    all_goals first
      | rfl
      | (rename_i heq
         have h1 := congrArg Prod.fst heq
         simp only at h1
         subst h1
         exact insertPayment_bookings _ _ _ _ _ _ _)
  · unfold Op.run Controller.createWorkOrder
    simp only []
    repeat' split
    all_goals first
      | rfl
      | (rename_i heq _
         have h1 := congrArg Prod.fst heq
         simp only at h1
         subst h1
         exact createWorkOrderFromBooking_bookings _ _ _ _ _)
      | (rename_i heq
         have h1 := congrArg Prod.fst heq
         simp only at h1
         subst h1
         exact createWorkOrderFromBooking_bookings _ _ _ _ _)
  · unfold Op.run Controller.patchWorkOrderStatus
    simp only []
    repeat' split
    all_goals first
      | rfl
      | (rename_i heq
         have h1 := congrArg Prod.fst heq
         simp only at h1
         subst h1
         exact updateWorkOrderStatus_bookings _ _ _ _ _)
  · unfold Op.run Controller.addWorkItem
    simp only []
    generalize (if req.field "qty" = JsValue.undefined then JsNumber.finite 1
      else (req.field "qty").toNumber rt) = q
    generalize (if req.field "unit_price" = JsValue.undefined then JsNumber.finite 0
      else (req.field "unit_price").toNumber rt) = p
    repeat' split
    all_goals first
      | rfl
      | (rename_i heq
         have h1 := congrArg Prod.fst heq
         simp only at h1
         subst h1
         exact repo_addWorkItem_bookings _ _ _ _ _ _)
  · unfold Op.run Controller.addMaterialItem
    simp only []
    generalize (if req.field "qty" = JsValue.undefined then JsNumber.finite 1
      else (req.field "qty").toNumber rt) = q
    generalize (if req.field "unit_price" = JsValue.undefined then JsNumber.finite 0
      else (req.field "unit_price").toNumber rt) = p
    generalize (if (req.field "material_id").isNullish = true then none
      else some ((req.field "material_id").toNumber rt)) = mid
    repeat' split
    all_goals first
      | rfl
      | (rename_i heq
         have h1 := congrArg Prod.fst heq
         simp only at h1
         subst h1
         exact repo_addMaterialItem_bookings _ _ _ _ _ _ _)
  · unfold Op.run Controller.addPayment
    simp only []
    repeat' split
    all_goals first
      | rfl
      | (rename_i heq
         have h1 := congrArg Prod.fst heq
         simp only at h1
         subst h1
         exact repo_addPayment_bookings _ _ _ _ _ _ _)

theorem postWorkOrder_body_references (rt : JsRuntime) (now : Nat) (s : Store) (req : Request)
    (row : WorkOrder) (h : (Routes.postWorkOrder rt now s req).response.body = .workOrder row) :
    ∃ b ∈ s.bookings, b.id = row.booking_id := by
  unfold Routes.postWorkOrder at h
  simp only [] at h
  split at h
  · cases h
  split at h
  · cases h
  split at h
  · cases h
  rename_i bk tail hbk
  split at h
  · simp [internalError] at h
  · rename_i s1 row1 heq
    simp only [Body.workOrder.injEq] at h
    subst h
    obtain ⟨_, _, h3, _, _⟩ := insertWorkOrder_ok _ _ _ _ _ _ _ _ _ _ _ heq
    have hm : bk ∈ s.bookings.filter
        (fun b => decide (b.id = ((Routes.toInt rt (req.field "booking_id")).getD 0).toNat)) := by
      rw [hbk]; simp
    have hm' := List.mem_filter.mp hm
    exact ⟨bk, hm'.1, by rw [h3]; simpa using hm'.2⟩

theorem createWorkOrderFromBooking_references (rt : JsRuntime) (now b : Nat) (d : JsValue)
    (s s1 : Store) (row : WorkOrder)
    (h : Repo.createWorkOrderFromBooking rt now b d s = (s1, .ok (some row))) :
    ∃ bk ∈ s.bookings, bk.id = row.booking_id := by
  unfold Repo.createWorkOrderFromBooking at h
  split at h
  · simp at h
  · rename_i bk tail hbk
    split at h
    · simp at h
    · rename_i heq
      simp only [Prod.mk.injEq, Except.ok.injEq, Option.some.injEq] at h
      obtain ⟨rfl, rfl⟩ := h
      obtain ⟨_, _, h3, _, _⟩ := insertWorkOrder_ok _ _ _ _ _ _ _ _ _ _ _ heq
      have hm : bk ∈ s.bookings.filter (fun x => decide (x.id = b)) := by rw [hbk]; simp
      exact ⟨bk, (List.mem_filter.mp hm).1, h3.symm⟩

theorem createWorkOrder_body_references (rt : JsRuntime) (now : Nat) (s : Store)
    (req : Request) (row : WorkOrder)
    (h : (Controller.createWorkOrder rt now s req).response.body = .workOrder row) :
    ∃ b ∈ s.bookings, b.id = row.booking_id := by
  unfold Controller.createWorkOrder at h
  simp only [] at h
  split at h
  · cases h
  split at h
  · split at h
    · cases h
    · simp [internalError] at h
  · cases h
  · rename_i heq
    simp only [Body.workOrder.injEq] at h
    subst h
    exact createWorkOrderFromBooking_references _ _ _ _ _ _ _ heq

theorem reachable_references_booking (rt : JsRuntime) (sch : Schema) (s : Store)
    (h : Reachable rt sch s) : ∀ w ∈ s.work_orders, ∃ b ∈ s.bookings, b.id = w.booking_id := by
  induction h with
  | init s h0 => intro w hw; rw [h0] at hw; cases hw
  | step s op now req _ ih =>
    intro w hw
    rw [op_run_bookings]
    rcases op_run_audited rt sch now s req op with ⟨hc, h⟩ | ⟨_, h⟩
    · rcases h with ⟨_, h1, _⟩ | ⟨_, row, e, hbody, h1, _⟩
      · rw [h1] at hw; exact ih w hw
      · rw [h1, List.mem_append, List.mem_singleton] at hw
        rcases hw with hw | rfl
        · exact ih w hw
        · cases op
          · exact postWorkOrder_body_references rt now s req w hbody
          all_goals first
            | exact createWorkOrder_body_references rt now s req w hbody
            | cases hc
    · have hm : w.booking_id ∈ (op.run rt sch now s req).store.work_orders.map
          (fun w => w.booking_id) := List.mem_map.mpr ⟨w, hw, rfl⟩
      rw [h.1] at hm
      obtain ⟨v, hv, hvb⟩ := List.mem_map.mp hm
      obtain ⟨b, hb, hbid⟩ := ih v hv
      exact ⟨b, hb, hbid.trans hvb⟩

theorem create_of_missing_booking (rt : JsRuntime) (now : Nat) (s : Store)
    (req : Request) (bid : Nat) (hpos : 0 < bid)
    (hid : (req.field "booking_id").toNumber rt = .finite (bid : ℚ))
    (hmiss : ∀ b ∈ s.bookings, b.id ≠ bid) :
    ((∀ w ∈ s.work_orders, ∃ b ∈ s.bookings, b.id = w.booking_id) →
        (Routes.postWorkOrder rt now s req).response.status = 404
        ∧ (Routes.postWorkOrder rt now s req).store = s)
    ∧ (∀ sch : Schema, Reachable rt sch s →
        (Routes.postWorkOrder rt now s req).response.status = 404
        ∧ (Routes.postWorkOrder rt now s req).store = s)
    ∧ (Controller.createWorkOrder rt now s req).response.status = 404
    ∧ (Controller.createWorkOrder rt now s req).store = s := by
  have hb := filter_eq_nil_of_forall_ne s.bookings (fun b => b.id) bid hmiss
  have hmounted : (∀ w ∈ s.work_orders, ∃ b ∈ s.bookings, b.id = w.booking_id) →
      (Routes.postWorkOrder rt now s req).response.status = 404
      ∧ (Routes.postWorkOrder rt now s req).store = s := by
    intro hint
    have hfree : ∀ w ∈ s.work_orders, w.booking_id ≠ bid := by
      intro w hw hwb
      obtain ⟨b, hbm, hbid⟩ := hint w hw
      exact hmiss b hbm (hbid.trans hwb)
    have hnil := filter_eq_nil_of_forall_ne s.work_orders (fun w => w.booking_id) bid hfree
    simp [Routes.postWorkOrder, toInt_of_toNumber rt _ bid hid, badId_natCast bid hpos, hnil, hb]
  refine ⟨hmounted, fun sch hr => hmounted (reachable_references_booking rt sch s hr), ?_, ?_⟩
  · simp [Controller.createWorkOrder, hid, invalidId_natCast bid hpos, idOf_natCast,
      Repo.createWorkOrderFromBooking, hb]
  · simp [Controller.createWorkOrder, hid, invalidId_natCast bid hpos, idOf_natCast,
      Repo.createWorkOrderFromBooking, hb]

/-! ## Theorems: items and payments for a missing work order -/

/-- C14 (failing input). `POST /work-orders/99/work-items`, `.../material-items` and
`.../payments` with valid bodies, on a store whose work orders are 1 and 2: without a foreign
key the mounted handlers answer 201, insert the row for order 99 and append an audit entry;
under a foreign key they answer 500.  They do not answer 404, which the controller functions
do on the same requests. -/
theorem add_to_missing_order_not_404 :
    sampleStore.work_orders.map (fun w => w.id) = [1, 2]
    ∧ (Routes.postWorkItem decimalRuntime laxSchema 20 sampleStore
        orphanItemRequest).response.status = 201
    ∧ (Routes.postWorkItem decimalRuntime laxSchema 20 sampleStore
        orphanItemRequest).store.work_items.map (fun i => (i.id, i.work_order_id))
        = [(1, 1), (2, 2), (3, 99)]
    ∧ (Routes.postWorkItem decimalRuntime laxSchema 20 sampleStore
        orphanItemRequest).store.audit_log.map (fun e => (e.entity_id, e.action))
        = [(99, "add_work_item")]
    ∧ (Routes.postMaterialItem decimalRuntime laxSchema 20 sampleStore
        orphanItemRequest).response.status = 201
    ∧ (Routes.postMaterialItem decimalRuntime laxSchema 20 sampleStore
        orphanItemRequest).store.material_items.map (fun i => (i.id, i.work_order_id))
        = [(1, 1), (2, 99)]
    ∧ (Routes.postPayment decimalRuntime laxSchema 20 sampleStore
        orphanPaymentRequest).response.status = 201
    ∧ (Routes.postPayment decimalRuntime laxSchema 20 sampleStore
        orphanPaymentRequest).store.payments.map (fun p => (p.id, p.work_order_id))
        = [(1, 1), (2, 1), (3, 2), (4, 99)]
    ∧ (Routes.postWorkItem decimalRuntime strictSchema 20 sampleStore
        orphanItemRequest).response.status = 500
    ∧ (Routes.postMaterialItem decimalRuntime strictSchema 20 sampleStore
        orphanItemRequest).response.status = 500
    ∧ (Routes.postPayment decimalRuntime strictSchema 20 sampleStore
        orphanPaymentRequest).response.status = 500
    ∧ (Controller.addWorkItem decimalRuntime laxSchema 20 sampleStore
        orphanItemRequest).response.status = 404
    ∧ (Controller.addMaterialItem decimalRuntime laxSchema 20 sampleStore
        orphanItemRequest).response.status = 404
    ∧ (Controller.addPayment decimalRuntime laxSchema 20 sampleStore
        orphanPaymentRequest).response.status = 404 := by
  decide!

/-! ## Theorems: validation before any statement -/

theorem postWorkItem_status_cases (rt : JsRuntime) (sch : Schema) (now : Nat) (s : Store)
    (req : Request) :
    ((Routes.postWorkItem rt sch now s req).response.status = 400
        ∧ (Routes.postWorkItem rt sch now s req).calls = []
        ∧ (Routes.postWorkItem rt sch now s req).store = s)
    ∨ (Routes.postWorkItem rt sch now s req).response.status = 500
    ∨ (Routes.postWorkItem rt sch now s req).response.status = 201 := by
  unfold Routes.postWorkItem
  simp only []
  split
  · exact Or.inl ⟨rfl, rfl, rfl⟩
  split
  · exact Or.inl ⟨rfl, rfl, rfl⟩
  split
  · exact Or.inl ⟨rfl, rfl, rfl⟩
  split
  · exact Or.inl ⟨rfl, rfl, rfl⟩
  split
  · exact Or.inr (Or.inl rfl)
  · exact Or.inr (Or.inr rfl)

theorem postMaterialItem_status_cases (rt : JsRuntime) (sch : Schema) (now : Nat) (s : Store)
    (req : Request) :
    ((Routes.postMaterialItem rt sch now s req).response.status = 400
        ∧ (Routes.postMaterialItem rt sch now s req).calls = []
        ∧ (Routes.postMaterialItem rt sch now s req).store = s)
    ∨ (Routes.postMaterialItem rt sch now s req).response.status = 500
    ∨ (Routes.postMaterialItem rt sch now s req).response.status = 201 := by
  unfold Routes.postMaterialItem
  simp only []
  split
  · exact Or.inl ⟨rfl, rfl, rfl⟩
  split
  · exact Or.inl ⟨rfl, rfl, rfl⟩
  split
  · exact Or.inl ⟨rfl, rfl, rfl⟩
  split
  · exact Or.inl ⟨rfl, rfl, rfl⟩
  split
  · exact Or.inr (Or.inl rfl)
  · exact Or.inr (Or.inr rfl)

theorem postPayment_status_cases (rt : JsRuntime) (sch : Schema) (now : Nat) (s : Store)
    (req : Request) :
    ((Routes.postPayment rt sch now s req).response.status = 400
        ∧ (Routes.postPayment rt sch now s req).calls = []
        ∧ (Routes.postPayment rt sch now s req).store = s)
    ∨ (Routes.postPayment rt sch now s req).response.status = 500
    ∨ (Routes.postPayment rt sch now s req).response.status = 201 := by
  unfold Routes.postPayment
  simp only []
  split
  · exact Or.inl ⟨rfl, rfl, rfl⟩
  split
  · exact Or.inl ⟨rfl, rfl, rfl⟩
  split
  · exact Or.inr (Or.inl rfl)
  · exact Or.inr (Or.inr rfl)

theorem patchStatus_status_cases (rt : JsRuntime) (sch : Schema) (now : Nat) (s : Store)
    (req : Request) :
    ((Routes.patchStatus rt sch now s req).response.status = 400
        ∧ (Routes.patchStatus rt sch now s req).calls = []
        ∧ (Routes.patchStatus rt sch now s req).store = s)
    ∨ (Routes.patchStatus rt sch now s req).response.status = 500
    ∨ (Routes.patchStatus rt sch now s req).response.status = 404
    ∨ (Routes.patchStatus rt sch now s req).response.status = 200 := by
  unfold Routes.patchStatus
  simp only []
  split
  · exact Or.inl ⟨rfl, rfl, rfl⟩
  split
  · exact Or.inl ⟨rfl, rfl, rfl⟩
  split
  · exact Or.inr (Or.inl rfl)
  split
  · exact Or.inr (Or.inl rfl)
  · exact Or.inr (Or.inr (Or.inl rfl))
  · exact Or.inr (Or.inr (Or.inr rfl))

theorem postWorkOrder_status_cases (rt : JsRuntime) (now : Nat) (s : Store) (req : Request) :
    ((Routes.postWorkOrder rt now s req).response.status = 400
        ∧ (Routes.postWorkOrder rt now s req).calls = []
        ∧ (Routes.postWorkOrder rt now s req).store = s)
    ∨ (Routes.postWorkOrder rt now s req).response.status = 409
    ∨ (Routes.postWorkOrder rt now s req).response.status = 404
    ∨ (Routes.postWorkOrder rt now s req).response.status = 500
    ∨ (Routes.postWorkOrder rt now s req).response.status = 201 := by
  unfold Routes.postWorkOrder
  simp only []
  split
  · exact Or.inl ⟨rfl, rfl, rfl⟩
  split
  · exact Or.inr (Or.inl rfl)
  split
  · exact Or.inr (Or.inr (Or.inl rfl))
  split
  · exact Or.inr (Or.inr (Or.inr (Or.inl rfl)))
  · exact Or.inr (Or.inr (Or.inr (Or.inr rfl)))

/-- C15. A call of a mounted mutating handler (`POST /work-orders`, `PATCH .../status`,
`POST .../work-items`, `POST .../material-items`, `POST .../payments`) that is answered 400
has issued no store statement, and the store after the call is the store before it. -/
theorem validation_fails_fast (rt : JsRuntime) (sch : Schema) (now : Nat) (s : Store)
    (req : Request) (op : Op)
    (hm : op ∈ [Op.postWorkOrder, Op.patchStatus, Op.postWorkItem, Op.postMaterialItem,
      Op.postPayment])
    (h400 : (op.run rt sch now s req).response.status = 400) :
    (op.run rt sch now s req).calls = [] ∧ (op.run rt sch now s req).store = s := by
  simp only [List.mem_cons, List.mem_singleton, List.not_mem_nil, or_false] at hm
  rcases hm with rfl | rfl | rfl | rfl | rfl
  · rcases postWorkOrder_status_cases rt now s req with h | h | h | h | h
    · exact h.2
    all_goals
      simp only [Op.run] at h400
      rw [h] at h400
      cases h400
  · rcases patchStatus_status_cases rt sch now s req with h | h | h | h
    · exact h.2
    all_goals
      simp only [Op.run] at h400
      rw [h] at h400
      cases h400
  · rcases postWorkItem_status_cases rt sch now s req with h | h | h
    · exact h.2
    all_goals
      simp only [Op.run] at h400
      rw [h] at h400
      cases h400
  · rcases postMaterialItem_status_cases rt sch now s req with h | h | h
    · exact h.2
    all_goals
      simp only [Op.run] at h400
      rw [h] at h400
      cases h400
  · rcases postPayment_status_cases rt sch now s req with h | h | h
    · exact h.2
    all_goals
      simp only [Op.run] at h400
      rw [h] at h400
      cases h400

theorem validation_fails_fast_witness :
    (Op.run decimalRuntime strictSchema 11 createdStore zeroQtyRequest .postWorkItem).calls = []
    ∧ (Op.run decimalRuntime strictSchema 11 createdStore zeroQtyRequest .postWorkItem).store
        = createdStore :=
  validation_fails_fast decimalRuntime strictSchema 11 createdStore zeroQtyRequest .postWorkItem
    (by decide) (by decide!)

/-! ## Theorems: numeric inputs of the mounted handlers -/

theorem badQty_of_not_pos (rt : JsRuntime) (v : JsValue)
    (h : ¬ ∃ q : ℚ, v.toNumber rt = .finite q ∧ 0 < q) :
    Routes.badQty (Routes.toNum rt v) = true := by
  unfold Routes.toNum
  cases hn : v.toNumber rt with
  | finite q =>
    have hq : q ≤ 0 := not_lt.mp (fun hpos => h ⟨q, hn, hpos⟩)
    simp [Routes.badQty, hq]
  | nan => rfl
  | posInf => rfl
  | negInf => rfl

theorem badPrice_of_not_nonneg (rt : JsRuntime) (v : JsValue)
    (h : ¬ ∃ p : ℚ, v.toNumber rt = .finite p ∧ 0 ≤ p) :
    Routes.badPrice (Routes.toNum rt v) = true := by
  unfold Routes.toNum
  cases hn : v.toNumber rt with
  | finite p =>
    have hp : p < 0 := not_le.mp (fun hnn => h ⟨p, hn, hnn⟩)
    simp [Routes.badPrice, hp]
  | nan => rfl
  | posInf => rfl
  | negInf => rfl

theorem badAmount_of_not_pos (rt : JsRuntime) (v : JsValue)
    (h : ¬ ∃ a : ℚ, v.toNumber rt = .finite a ∧ 0 < a) :
    Routes.badAmount (Routes.toNum rt v) = true := by
  unfold Routes.toNum
  cases hn : v.toNumber rt with
  | finite a =>
    have ha : a ≤ 0 := not_lt.mp (fun hpos => h ⟨a, hn, hpos⟩)
    simp [Routes.badAmount, ha]
  | nan => rfl
  | posInf => rfl
  | negInf => rfl

theorem postWorkItem_of_bad (rt : JsRuntime) (sch : Schema) (now : Nat) (s : Store)
    (req : Request)
    (h : Routes.badQty (Routes.itemQty rt req) = true
      ∨ Routes.badPrice (Routes.itemUnitPrice rt req) = true) :
    (Routes.postWorkItem rt sch now s req).response.status = 400
    ∧ (Routes.postWorkItem rt sch now s req).store = s := by
  unfold Routes.postWorkItem
  simp only []
  split
  · exact ⟨rfl, rfl⟩
  split
  · exact ⟨rfl, rfl⟩
  split
  · exact ⟨rfl, rfl⟩
  split
  · exact ⟨rfl, rfl⟩
  · rename_i h1 h2
    rcases h with h | h
    · exact absurd h h1
    · exact absurd h h2

theorem postMaterialItem_of_bad (rt : JsRuntime) (sch : Schema) (now : Nat) (s : Store)
    (req : Request)
    (h : Routes.badQty (Routes.itemQty rt req) = true
      ∨ Routes.badPrice (Routes.itemUnitPrice rt req) = true) :
    (Routes.postMaterialItem rt sch now s req).response.status = 400
    ∧ (Routes.postMaterialItem rt sch now s req).store = s := by
  unfold Routes.postMaterialItem
  simp only []
  split
  · exact ⟨rfl, rfl⟩
  split
  · exact ⟨rfl, rfl⟩
  split
  · exact ⟨rfl, rfl⟩
  split
  · exact ⟨rfl, rfl⟩
  · rename_i h1 h2
    rcases h with h | h
    · exact absurd h h1
    · exact absurd h h2

theorem postPayment_of_bad (rt : JsRuntime) (sch : Schema) (now : Nat) (s : Store)
    (req : Request) (h : Routes.badAmount (Routes.toNum rt (req.field "amount")) = true) :
    (Routes.postPayment rt sch now s req).response.status = 400
    ∧ (Routes.postPayment rt sch now s req).store = s := by
  unfold Routes.postPayment
  simp only [h, if_true]
  split <;> exact ⟨rfl, rfl⟩

/-- C16, amended. The mounted handlers answer 400, and leave the store as it was, when a numeric input
is not an acceptable finite number.  `POST .../work-items` and `POST .../material-items`: a
supplied `qty` (neither absent nor `null`) whose `Number()` is not a finite number `> 0`, that
is NaN, ±Infinity or `≤ 0`; a supplied `unit_price`, or a supplied `price` when `unit_price`
is absent or `null`, whose `Number()` is not a finite number `≥ 0`.  `POST .../payments`: an
`amount` whose `Number()` is not a finite number `> 0`, in particular a missing amount. -/
theorem mounted_numeric_inputs_validated (rt : JsRuntime) (sch : Schema) (now : Nat)
    (s : Store) (req : Request) :
    ((req.field "qty").isNullish = false →
        (¬ ∃ q : ℚ, (req.field "qty").toNumber rt = .finite q ∧ 0 < q) →
        ((Routes.postWorkItem rt sch now s req).response.status = 400
          ∧ (Routes.postWorkItem rt sch now s req).store = s)
        ∧ ((Routes.postMaterialItem rt sch now s req).response.status = 400
          ∧ (Routes.postMaterialItem rt sch now s req).store = s))
    ∧ ((req.field "unit_price").isNullish = false →
        (¬ ∃ p : ℚ, (req.field "unit_price").toNumber rt = .finite p ∧ 0 ≤ p) →
        ((Routes.postWorkItem rt sch now s req).response.status = 400
          ∧ (Routes.postWorkItem rt sch now s req).store = s)
        ∧ ((Routes.postMaterialItem rt sch now s req).response.status = 400
          ∧ (Routes.postMaterialItem rt sch now s req).store = s))
    ∧ ((req.field "unit_price").isNullish = true → (req.field "price").isNullish = false →
        (¬ ∃ p : ℚ, (req.field "price").toNumber rt = .finite p ∧ 0 ≤ p) →
        ((Routes.postWorkItem rt sch now s req).response.status = 400
          ∧ (Routes.postWorkItem rt sch now s req).store = s)
        ∧ ((Routes.postMaterialItem rt sch now s req).response.status = 400
          ∧ (Routes.postMaterialItem rt sch now s req).store = s))
    ∧ ((¬ ∃ a : ℚ, (req.field "amount").toNumber rt = .finite a ∧ 0 < a) →
        (Routes.postPayment rt sch now s req).response.status = 400
        ∧ (Routes.postPayment rt sch now s req).store = s)
    ∧ (req.field "amount" = .undefined →
        (Routes.postPayment rt sch now s req).response.status = 400
        ∧ (Routes.postPayment rt sch now s req).store = s) := by
  refine ⟨?_, ?_, ?_, ?_, ?_⟩
  · intro hsup hbad
    have hq : Routes.badQty (Routes.itemQty rt req) = true := by
      simp only [Routes.itemQty, hsup, Bool.false_eq_true, if_false]
      exact badQty_of_not_pos rt _ hbad
    exact ⟨postWorkItem_of_bad rt sch now s req (Or.inl hq),
      postMaterialItem_of_bad rt sch now s req (Or.inl hq)⟩
  · intro hsup hbad
    have hp : Routes.badPrice (Routes.itemUnitPrice rt req) = true := by
      simp only [Routes.itemUnitPrice, JsValue.orElse, hsup, Bool.false_eq_true, if_false]
      exact badPrice_of_not_nonneg rt _ hbad
    exact ⟨postWorkItem_of_bad rt sch now s req (Or.inr hp),
      postMaterialItem_of_bad rt sch now s req (Or.inr hp)⟩
  · intro hnone hsup hbad
    have hp : Routes.badPrice (Routes.itemUnitPrice rt req) = true := by
      simp only [Routes.itemUnitPrice, JsValue.orElse, hnone, if_true, hsup, Bool.false_eq_true,
        if_false]
      exact badPrice_of_not_nonneg rt _ hbad
    exact ⟨postWorkItem_of_bad rt sch now s req (Or.inr hp),
      postMaterialItem_of_bad rt sch now s req (Or.inr hp)⟩
  · intro hbad
    exact postPayment_of_bad rt sch now s req (badAmount_of_not_pos rt _ hbad)
  · intro hundef
    apply postPayment_of_bad rt sch now s req
    apply badAmount_of_not_pos
    rw [hundef]
    rintro ⟨a, ha, _⟩
    cases ha

theorem mounted_numeric_inputs_validated_witness :
    (Routes.postWorkItem decimalRuntime strictSchema 20 sampleStore
        infiniteQtyRequest).response.status = 400
    ∧ (Routes.postMaterialItem decimalRuntime strictSchema 20 sampleStore
        infinitePriceRequest).response.status = 400
    ∧ (Routes.postPayment decimalRuntime strictSchema 20 sampleStore
        infiniteAmountRequest).response.status = 400 :=
  have hq : ¬ ∃ q : ℚ, (infiniteQtyRequest.field "qty").toNumber decimalRuntime = .finite q
      ∧ 0 < q := by
    have h : (infiniteQtyRequest.field "qty").toNumber decimalRuntime = .posInf := by decide!
    rw [h]
    rintro ⟨q, hq, _⟩
    cases hq
  have hp : ¬ ∃ p : ℚ, (infinitePriceRequest.field "unit_price").toNumber decimalRuntime
      = .finite p ∧ 0 ≤ p := by
    have h : (infinitePriceRequest.field "unit_price").toNumber decimalRuntime = .posInf := by
      decide!
    rw [h]
    rintro ⟨q, hq, _⟩
    cases hq
  have ha : ¬ ∃ a : ℚ, (infiniteAmountRequest.field "amount").toNumber decimalRuntime
      = .finite a ∧ 0 < a := by
    have h : (infiniteAmountRequest.field "amount").toNumber decimalRuntime = .posInf := by
      decide!
    rw [h]
    rintro ⟨q, hq, _⟩
    cases hq
  ⟨((mounted_numeric_inputs_validated decimalRuntime strictSchema 20 sampleStore
      infiniteQtyRequest).1 (by decide) hq).1.1,
    ((mounted_numeric_inputs_validated decimalRuntime strictSchema 20 sampleStore
      infinitePriceRequest).2.1 (by decide) hp).2.1,
    ((mounted_numeric_inputs_validated decimalRuntime strictSchema 20 sampleStore
      infiniteAmountRequest).2.2.2.1 ha).1⟩

/-! ## Theorems: numeric inputs of the controller -/

/-- C17 (failing input). Quantity, unit price and amount given as the string `Infinity`
coerce to `+Infinity`, which passes the guards `!(q > 0)`, `!(p >= 0)` and `!(a > 0)` of the
controller: `addWorkItem`, `addMaterialItem` and `addPayment` go on to the repository insert
and do not answer 400 (the numeric column refuses the value, 500).  The mounted handlers answer
400 to the same requests. -/
theorem controller_accepts_infinity :
    (infiniteQtyRequest.field "qty").toNumber decimalRuntime = .posInf
    ∧ (Controller.addWorkItem decimalRuntime laxSchema 20 sampleStore
        infiniteQtyRequest).calls = [Call.getWorkOrderById, Call.addWorkItem]
    ∧ (Controller.addWorkItem decimalRuntime laxSchema 20 sampleStore
        infiniteQtyRequest).response.status = 500
    ∧ (Controller.addMaterialItem decimalRuntime laxSchema 20 sampleStore
        infiniteQtyRequest).calls = [Call.getWorkOrderById, Call.addMaterialItem]
    ∧ (Controller.addMaterialItem decimalRuntime laxSchema 20 sampleStore
        infiniteQtyRequest).response.status = 500
    ∧ (Controller.addWorkItem decimalRuntime laxSchema 20 sampleStore
        infinitePriceRequest).calls = [Call.getWorkOrderById, Call.addWorkItem]
    ∧ (Controller.addMaterialItem decimalRuntime laxSchema 20 sampleStore
        infinitePriceRequest).calls = [Call.getWorkOrderById, Call.addMaterialItem]
    ∧ (Controller.addPayment decimalRuntime laxSchema 20 sampleStore
        infiniteAmountRequest).calls = [Call.getWorkOrderById, Call.addPayment]
    ∧ (Controller.addPayment decimalRuntime laxSchema 20 sampleStore
        infiniteAmountRequest).response.status = 500
    ∧ (Routes.postWorkItem decimalRuntime laxSchema 20 sampleStore
        infiniteQtyRequest).response.status = 400
    ∧ (Routes.postMaterialItem decimalRuntime laxSchema 20 sampleStore
        infinitePriceRequest).response.status = 400
    ∧ (Routes.postPayment decimalRuntime laxSchema 20 sampleStore
        infiniteAmountRequest).response.status = 400 := by
  decide!

/-! ## Theorems: defaults of omitted fields -/

theorem insertWorkItem_ok (sch : Schema) (id : Nat) (name : String) (q p : ℚ) (s s1 : Store)
    (row : WorkItem) (h : Db.insertWorkItem sch id name q p s = (s1, .ok row)) :
    s1.work_items = s.work_items ++ [row] ∧ row.qty = q ∧ row.unit_price = p
      ∧ row.work_order_id = id ∧ row.name = name := by
  unfold Db.insertWorkItem at h
  split at h
  · simp at h
  · simp only [Prod.mk.injEq, Except.ok.injEq] at h
    obtain ⟨rfl, rfl⟩ := h
    exact ⟨rfl, rfl, rfl, rfl, rfl⟩

theorem insertMaterialItem_ok (sch : Schema) (id : Nat) (mid : Option Nat) (name : String)
    (q p : ℚ) (s s1 : Store) (row : MaterialItem)
    (h : Db.insertMaterialItem sch id mid name q p s = (s1, .ok row)) :
    s1.material_items = s.material_items ++ [row] ∧ row.qty = q ∧ row.unit_price = p
      ∧ row.work_order_id = id ∧ row.name = name ∧ row.material_id = mid := by
  unfold Db.insertMaterialItem at h
  split at h
  · simp at h
  · simp only [Prod.mk.injEq, Except.ok.injEq] at h
    obtain ⟨rfl, rfl⟩ := h
    exact ⟨rfl, rfl, rfl, rfl, rfl, rfl⟩

theorem getD_of_badQty_false (x : Option ℚ) (h : ¬ Routes.badQty x = true) :
    x = some (x.getD 0) := by
  cases x with
  | none => exact absurd rfl h
  | some q => rfl

theorem getD_of_badPrice_false (x : Option ℚ) (h : ¬ Routes.badPrice x = true) :
    x = some (x.getD 0) := by
  cases x with
  | none => exact absurd rfl h
  | some q => rfl

theorem postWorkItem_201_row (rt : JsRuntime) (sch : Schema) (now : Nat) (s : Store)
    (req : Request) (h : (Routes.postWorkItem rt sch now s req).response.status = 201) :
    ∃ row : WorkItem, (Routes.postWorkItem rt sch now s req).response.body = .workItem row
      ∧ (Routes.postWorkItem rt sch now s req).store.work_items = s.work_items ++ [row]
      ∧ Routes.itemQty rt req = some row.qty
      ∧ Routes.itemUnitPrice rt req = some row.unit_price := by
  unfold Routes.postWorkItem at h ⊢
  simp only [] at h ⊢
  split
  · rename_i hc; simp [hc] at h
  rename_i h1
  split
  · rename_i hc; simp [h1, hc] at h
  rename_i h2
  split
  · rename_i hc; simp [h1, h2, hc] at h
  rename_i h3
  split
  · rename_i hc; simp [h1, h2, h3, hc] at h
  rename_i h4
  split
  · rename_i heq
    simp [h1, h2, h3, h4, heq, internalError] at h
  · rename_i s1 row heq
    obtain ⟨e1, e2, e3, _, _⟩ := insertWorkItem_ok _ _ _ _ _ _ _ _ heq
    refine ⟨row, rfl, e1, ?_, ?_⟩
    · rw [e2]; exact getD_of_badQty_false _ h3
    · rw [e3]; exact getD_of_badPrice_false _ h4

theorem postMaterialItem_201_row (rt : JsRuntime) (sch : Schema) (now : Nat) (s : Store)
    (req : Request) (h : (Routes.postMaterialItem rt sch now s req).response.status = 201) :
    ∃ row : MaterialItem,
      (Routes.postMaterialItem rt sch now s req).response.body = .materialItem row
      ∧ (Routes.postMaterialItem rt sch now s req).store.material_items
          = s.material_items ++ [row]
      ∧ Routes.itemQty rt req = some row.qty
      ∧ Routes.itemUnitPrice rt req = some row.unit_price
      ∧ row.material_id = none := by
  unfold Routes.postMaterialItem at h ⊢
  simp only [] at h ⊢
  split
  · rename_i hc; simp [hc] at h
  rename_i h1
  split
  · rename_i hc; simp [h1, hc] at h
  rename_i h2
  split
  · rename_i hc; simp [h1, h2, hc] at h
  rename_i h3
  split
  · rename_i hc; simp [h1, h2, h3, hc] at h
  rename_i h4
  split
  · rename_i heq
    simp [h1, h2, h3, h4, heq, internalError] at h
  · rename_i s1 row heq
    obtain ⟨e1, e2, e3, _, _, e6⟩ := insertMaterialItem_ok _ _ _ _ _ _ _ _ _ heq
    refine ⟨row, rfl, e1, ?_, ?_, e6⟩
    · rw [e2]; exact getD_of_badQty_false _ h3
    · rw [e3]; exact getD_of_badPrice_false _ h4

theorem repo_addWorkItem_ok (sch : Schema) (id : Nat) (name : String) (q p : JsNumber)
    (s s1 : Store) (row : WorkItem) (h : Repo.addWorkItem sch id name q p s = (s1, .ok row)) :
    s1.work_items = s.work_items ++ [row] ∧ q = .finite row.qty ∧ p = .finite row.unit_price := by
  unfold Repo.addWorkItem at h
  split at h
  · obtain ⟨e1, e2, e3, _, _⟩ := insertWorkItem_ok _ _ _ _ _ _ _ _ h
    exact ⟨e1, by rw [e2], by rw [e3]⟩
  · simp at h

theorem repo_addMaterialItem_ok (sch : Schema) (id : Nat) (mid : Option Nat) (name : String)
    (q p : JsNumber) (s s1 : Store) (row : MaterialItem)
    (h : Repo.addMaterialItem sch id mid name q p s = (s1, .ok row)) :
    s1.material_items = s.material_items ++ [row] ∧ q = .finite row.qty
      ∧ p = .finite row.unit_price ∧ row.material_id = mid := by
  unfold Repo.addMaterialItem at h
  split at h
  · obtain ⟨e1, e2, e3, _, _, e6⟩ := insertMaterialItem_ok _ _ _ _ _ _ _ _ _ h
    exact ⟨e1, by rw [e2], by rw [e3], e6⟩
  · simp at h

theorem addWorkItem_201_row (rt : JsRuntime) (sch : Schema) (now : Nat) (s : Store)
    (req : Request) (h : (Controller.addWorkItem rt sch now s req).response.status = 201) :
    ∃ (item : WorkItem) (totals : Option TotalsRow),
      (Controller.addWorkItem rt sch now s req).response.body = .workItemTotals item totals
      ∧ (Controller.addWorkItem rt sch now s req).store.work_items = s.work_items ++ [item]
      ∧ (if req.field "qty" = JsValue.undefined then JsNumber.finite 1
          else (req.field "qty").toNumber rt) = .finite item.qty
      ∧ (if req.field "unit_price" = JsValue.undefined then JsNumber.finite 0
          else (req.field "unit_price").toNumber rt) = .finite item.unit_price := by
  unfold Controller.addWorkItem at h ⊢
  simp only [] at h ⊢
  generalize (if req.field "qty" = JsValue.undefined then JsNumber.finite 1
    else (req.field "qty").toNumber rt) = q at h ⊢
  generalize (if req.field "unit_price" = JsValue.undefined then JsNumber.finite 0
    else (req.field "unit_price").toNumber rt) = p at h ⊢
  split
  · rename_i hc; simp [hc] at h
  rename_i h1
  split
  · rename_i name hname
    split
    · rename_i hc; simp [h1, hname, hc] at h
    rename_i h2
    split
    · rename_i hc; simp [h1, hname, h2, hc] at h
    rename_i h3
    split
    · rename_i hc; simp [h1, hname, h2, h3, hc] at h
    rename_i wo hwo
    split
    · rename_i heq
      simp [h1, hname, h2, h3, hwo, heq, internalError] at h
    · rename_i s1 item heq
      obtain ⟨e1, e2, e3⟩ := repo_addWorkItem_ok _ _ _ _ _ _ _ _ heq
      exact ⟨item, _, rfl, e1, e2, e3⟩
  · rename_i hc
    rw [if_neg h1] at h
    split at h
    · exact (hc _ (by assumption)).elim
    · simp at h

theorem addMaterialItem_201_row (rt : JsRuntime) (sch : Schema) (now : Nat) (s : Store)
    (req : Request) (h : (Controller.addMaterialItem rt sch now s req).response.status = 201) :
    ∃ (item : MaterialItem) (totals : Option TotalsRow),
      (Controller.addMaterialItem rt sch now s req).response.body
        = .materialItemTotals item totals
      ∧ (Controller.addMaterialItem rt sch now s req).store.material_items
          = s.material_items ++ [item]
      ∧ (if req.field "qty" = JsValue.undefined then JsNumber.finite 1
          else (req.field "qty").toNumber rt) = .finite item.qty
      ∧ (if req.field "unit_price" = JsValue.undefined then JsNumber.finite 0
          else (req.field "unit_price").toNumber rt) = .finite item.unit_price := by
  unfold Controller.addMaterialItem at h ⊢
  simp only [] at h ⊢
  generalize (if req.field "qty" = JsValue.undefined then JsNumber.finite 1
    else (req.field "qty").toNumber rt) = q at h ⊢
  generalize (if req.field "unit_price" = JsValue.undefined then JsNumber.finite 0
    else (req.field "unit_price").toNumber rt) = p at h ⊢
  generalize (if (req.field "material_id").isNullish = true then none
    else some ((req.field "material_id").toNumber rt)) = mid at h ⊢
  split
  · rename_i hc; simp [hc] at h
  rename_i h1
  split
  · rename_i name hname
    split
    · rename_i hc; simp [h1, hname, hc] at h
    rename_i h2
    split
    · rename_i hc; simp [h1, hname, h2, hc] at h
    rename_i h3
    split
    · rename_i hc; simp [h1, hname, h2, h3, hc] at h
    rename_i h4
    split
    · rename_i hc; simp [h1, hname, h2, h3, h4, hc] at h
    rename_i wo hwo
    split
    · rename_i heq
      simp [h1, hname, h2, h3, h4, hwo, heq, internalError] at h
    · rename_i s1 item heq
      obtain ⟨e1, e2, e3, _⟩ := repo_addMaterialItem_ok _ _ _ _ _ _ _ _ _ heq
      exact ⟨item, _, rfl, e1, e2, e3⟩
  · rename_i hc
    rw [if_neg h1] at h
    split at h
    · exact (hc _ (by assumption)).elim
    · simp at h

theorem defaults_of_201 (rt : JsRuntime) (sch : Schema) (now : Nat) (s : Store)
    (req : Request) :
    ((Routes.postWorkItem rt sch now s req).response.status = 201 →
        ∃ row : WorkItem, (Routes.postWorkItem rt sch now s req).response.body = .workItem row
          ∧ (Routes.postWorkItem rt sch now s req).store.work_items = s.work_items ++ [row]
          ∧ (req.field "qty" = .undefined → row.qty = 1)
          ∧ (req.field "unit_price" = .undefined → req.field "price" = .undefined →
              row.unit_price = 0))
    ∧ ((Routes.postMaterialItem rt sch now s req).response.status = 201 →
        ∃ row : MaterialItem,
          (Routes.postMaterialItem rt sch now s req).response.body = .materialItem row
          ∧ (Routes.postMaterialItem rt sch now s req).store.material_items
              = s.material_items ++ [row]
          ∧ (req.field "qty" = .undefined → row.qty = 1)
          ∧ (req.field "unit_price" = .undefined → req.field "price" = .undefined →
              row.unit_price = 0))
    ∧ ((Controller.addWorkItem rt sch now s req).response.status = 201 →
        ∃ (item : WorkItem) (totals : Option TotalsRow),
          (Controller.addWorkItem rt sch now s req).response.body = .workItemTotals item totals
          ∧ (Controller.addWorkItem rt sch now s req).store.work_items = s.work_items ++ [item]
          ∧ (req.field "qty" = .undefined → item.qty = 1)
          ∧ (req.field "unit_price" = .undefined → item.unit_price = 0))
    ∧ ((Controller.addMaterialItem rt sch now s req).response.status = 201 →
        ∃ (item : MaterialItem) (totals : Option TotalsRow),
          (Controller.addMaterialItem rt sch now s req).response.body
            = .materialItemTotals item totals
          ∧ (Controller.addMaterialItem rt sch now s req).store.material_items
              = s.material_items ++ [item]
          ∧ (req.field "qty" = .undefined → item.qty = 1)
          ∧ (req.field "unit_price" = .undefined → item.unit_price = 0)) := by
  have mq : ∀ x : ℚ, Routes.itemQty rt req = some x → req.field "qty" = .undefined → x = 1 := by
    intro x hx hq
    simp only [Routes.itemQty, hq, JsValue.isNullish, if_true, Option.some.injEq] at hx
    exact hx.symm
  have mp : ∀ x : ℚ, Routes.itemUnitPrice rt req = some x → req.field "unit_price" = .undefined →
      req.field "price" = .undefined → x = 0 := by
    intro x hx hu hp
    simp only [Routes.itemUnitPrice, hu, hp, JsValue.orElse, JsValue.isNullish, if_true,
      Option.some.injEq] at hx
    exact hx.symm
  have cq : ∀ x : ℚ, (if req.field "qty" = JsValue.undefined then JsNumber.finite 1
      else (req.field "qty").toNumber rt) = .finite x → req.field "qty" = .undefined → x = 1 := by
    intro x hx hq
    simp only [hq, if_true, JsNumber.finite.injEq] at hx
    exact hx.symm
  have cp : ∀ x : ℚ, (if req.field "unit_price" = JsValue.undefined then JsNumber.finite 0
      else (req.field "unit_price").toNumber rt) = .finite x →
      req.field "unit_price" = .undefined → x = 0 := by
    intro x hx hq
    simp only [hq, if_true, JsNumber.finite.injEq] at hx
    exact hx.symm
  refine ⟨?_, ?_, ?_, ?_⟩
  · intro h
    obtain ⟨row, hb, hs, hq, hp⟩ := postWorkItem_201_row rt sch now s req h
    exact ⟨row, hb, hs, mq _ hq, mp _ hp⟩
  · intro h
    obtain ⟨row, hb, hs, hq, hp, _⟩ := postMaterialItem_201_row rt sch now s req h
    exact ⟨row, hb, hs, mq _ hq, mp _ hp⟩
  · intro h
    obtain ⟨item, totals, hb, hs, hq, hp⟩ := addWorkItem_201_row rt sch now s req h
    exact ⟨item, totals, hb, hs, cq _ hq, cp _ hp⟩
  · intro h
    obtain ⟨item, totals, hb, hs, hq, hp⟩ := addMaterialItem_201_row rt sch now s req h
    exact ⟨item, totals, hb, hs, cq _ hq, cp _ hp⟩

/-! ## Theorems: the full aggregate -/

theorem insertionSort_by_id {α : Type} (f : α → Nat) (l : List α) :
    (l.insertionSort (fun a b => f a ≤ f b)).Perm l
    ∧ (l.insertionSort (fun a b => f a ≤ f b)).Pairwise (fun a b => f a ≤ f b) := by
  haveI : IsTotal α (fun a b => f a ≤ f b) := ⟨fun a b => Nat.le_total (f a) (f b)⟩
  haveI : IsTrans α (fun a b => f a ≤ f b) := ⟨fun _ _ _ h1 h2 => Nat.le_trans h1 h2⟩
  exact ⟨List.perm_insertionSort _ l, List.sorted_insertionSort _ l⟩

theorem listsOf_of_sorted (s : Store) (id : Nat) (wo : WorkOrder)
    (pw : WorkItem → Option ℚ) (pm : MaterialItem → Option ℚ) :
    FullAggregate.listsOf
      { work_order := wo,
        work_items :=
          ((s.work_items.filter (fun i => decide (i.work_order_id = id))).insertionSort
            (fun a b => a.id ≤ b.id)).map (fun i => ⟨i, pw i⟩),
        material_items :=
          ((s.material_items.filter (fun i => decide (i.work_order_id = id))).insertionSort
            (fun a b => a.id ≤ b.id)).map (fun i => ⟨i, pm i⟩),
        payments :=
          (s.payments.filter (fun p => decide (p.work_order_id = id))).insertionSort
            (fun a b => a.id ≤ b.id),
        audit_log :=
          (s.audit_log.filter
            (fun a => decide (a.entity = "work_order") && decide (a.entity_id = id))).insertionSort
            (fun a b => a.id ≤ b.id) } s id := by
  unfold FullAggregate.listsOf
  simp only [List.map_map, Function.comp_def, List.map_id']
  exact ⟨(insertionSort_by_id (fun i : WorkItem => i.id) _).1,
    (insertionSort_by_id (fun i : WorkItem => i.id) _).2,
    (insertionSort_by_id (fun i : MaterialItem => i.id) _).1,
    (insertionSort_by_id (fun i : MaterialItem => i.id) _).2,
    (insertionSort_by_id (fun i : Payment => i.id) _).1,
    (insertionSort_by_id (fun i : Payment => i.id) _).2,
    (insertionSort_by_id (fun i : AuditEntry => i.id) _).1,
    (insertionSort_by_id (fun i : AuditEntry => i.id) _).2⟩

theorem getFull_of_store (rt : JsRuntime) (s : Store) (req : Request) (id : Nat)
    (hpos : 0 < id) (hid : (JsValue.string req.id).toNumber rt = .finite (id : ℚ)) :
    ((∃ w ∈ s.work_orders, w.id = id) →
        ∃ f : FullAggregate, Routes.getFull rt s req = ⟨200, .full f⟩
          ∧ f.work_order ∈ s.work_orders ∧ f.work_order.id = id ∧ f.listsOf s id)
    ∧ ((∃ w ∈ s.work_orders, w.id = id ∧ w.is_archived = false) →
        ∃ f : FullAggregate, Repo.getWorkOrderFull id s = some f
          ∧ f.work_order ∈ s.work_orders ∧ f.work_order.id = id
          ∧ f.work_order.is_archived = false ∧ f.listsOf s id)
    ∧ ((∀ w ∈ s.work_orders, w.id ≠ id) →
        (Routes.getFull rt s req).status = 404 ∧ Repo.getWorkOrderFull id s = none) := by
  have hint := toInt_of_toNumber rt _ id hid
  have hbad := badId_natCast id hpos
  refine ⟨?_, ?_, ?_⟩
  · rintro ⟨w, hw, hwid⟩
    have hne : s.work_orders.filter (fun w => decide (w.id = id)) ≠ [] := by
      intro h
      have hm : w ∈ s.work_orders.filter (fun w => decide (w.id = id)) :=
        List.mem_filter.mpr ⟨hw, by simpa using hwid⟩
      rw [h] at hm
      cases hm
    obtain ⟨w0, rest, hf⟩ := List.exists_cons_of_ne_nil hne
    have hw0 : w0 ∈ s.work_orders.filter (fun w => decide (w.id = id)) := by rw [hf]; simp
    have hw0' := List.mem_filter.mp hw0
    refine ⟨_, ?_, hw0'.1, by simpa using hw0'.2, listsOf_of_sorted s id w0
      (fun i => some (i.qty * i.unit_price)) (fun i => some (i.qty * i.unit_price))⟩
    simp [Routes.getFull, hint, hbad, hf]
  · rintro ⟨w, hw, hwid, harch⟩
    have hne : s.work_orders.filter (fun w => decide (w.id = id) && !w.is_archived) ≠ [] := by
      intro h
      have hm : w ∈ s.work_orders.filter (fun w => decide (w.id = id) && !w.is_archived) :=
        List.mem_filter.mpr ⟨hw, by simp [hwid, harch]⟩
      rw [h] at hm
      cases hm
    obtain ⟨w0, rest, hf⟩ := List.exists_cons_of_ne_nil hne
    have hw0 : w0 ∈ s.work_orders.filter (fun w => decide (w.id = id) && !w.is_archived) := by
      rw [hf]; simp
    have hw0' := List.mem_filter.mp hw0
    have hprops : w0.id = id ∧ w0.is_archived = false := by simpa using hw0'.2
    refine ⟨_, ?_, hw0'.1, hprops.1, hprops.2,
      listsOf_of_sorted s id w0 (fun _ => none) (fun _ => none)⟩
    simp [Repo.getWorkOrderFull, Repo.getWorkOrderById, hf]
  · intro hmiss
    have h1 := filter_eq_nil_of_forall_ne s.work_orders (fun w => w.id) id hmiss
    have h2 : s.work_orders.filter (fun w => decide (w.id = id) && !w.is_archived) = [] := by
      rw [List.filter_eq_nil_iff]
      intro w hw
      simp [hmiss w hw]
    constructor
    · simp [Routes.getFull, hint, hbad, h1]
    · simp [Repo.getWorkOrderFull, Repo.getWorkOrderById, h2]

/-! ## Theorems: permissive status transitions -/

theorem updateStatus_of_admitted (sch : Schema) (now : Nat) (sel : WorkOrder → Bool)
    (status : String) (s : Store) (h : status ∈ statusValues) :
    Db.updateStatus sch now sel status s =
      ({ s with
          work_orders := s.work_orders.map fun w =>
            if sel w then { w with status := status, updated_at := now } else w },
        .ok ((s.work_orders.filter sel).map
          fun w => { w with status := status, updated_at := now })) := by
  unfold Db.updateStatus
  simp [h]

theorem map_update_ids (l : List WorkOrder) (f : WorkOrder → WorkOrder)
    (hf : ∀ w, (f w).id = w.id) :
    (l.map f).map (fun w => w.id) = l.map (fun w => w.id) := by
  rw [List.map_map]
  exact List.map_congr_left (fun w _ => hf w)

theorem exists_cons_filter (l : List WorkOrder) (sel : WorkOrder → Bool)
    (h : ∃ w ∈ l, sel w = true) : ∃ w0 rest, l.filter sel = w0 :: rest := by
  obtain ⟨w, hw, hs⟩ := h
  have hne : l.filter sel ≠ [] := by
    intro h0
    have hm : w ∈ l.filter sel := List.mem_filter.mpr ⟨hw, hs⟩
    rw [h0] at hm
    cases hm
  exact List.exists_cons_of_ne_nil hne

/-- C20. Status transitions are permissive.  For a positive integer id and each of the six
recognised statuses as target: when a work order has the id, the mounted
`PATCH /work-orders/:id/status` handler answers 200 and every work order with the id then has
the target as status; when a work order with the id is not archived, `patchWorkOrderStatus` of
the controller answers 200 and every non-archived work order with the id then has the target
as status.  The status stored before plays no part, and the rows of `work_orders` keep their
ids. -/
theorem status_transitions_permissive (rt : JsRuntime) (sch : Schema) (now : Nat) (s : Store)
    (req : Request) (id : Nat) (st : String) (hpos : 0 < id)
    (hid : (JsValue.string req.id).toNumber rt = .finite (id : ℚ))
    (hst : req.field "status" = .string st) (hrec : st ∈ Controller.WORK_ORDER_STATUSES) :
    ((∃ w ∈ s.work_orders, w.id = id) →
        (Routes.patchStatus rt sch now s req).response.status = 200
        ∧ (∀ w ∈ (Routes.patchStatus rt sch now s req).store.work_orders, w.id = id →
            w.status = st)
        ∧ (Routes.patchStatus rt sch now s req).store.work_orders.map (fun w => w.id)
            = s.work_orders.map (fun w => w.id))
    ∧ ((∃ w ∈ s.work_orders, w.id = id ∧ w.is_archived = false) →
        (Controller.patchWorkOrderStatus rt sch now s req).response.status = 200
        ∧ (∀ w ∈ (Controller.patchWorkOrderStatus rt sch now s req).store.work_orders,
            w.id = id → w.is_archived = false → w.status = st)
        ∧ (Controller.patchWorkOrderStatus rt sch now s req).store.work_orders.map
            (fun w => w.id) = s.work_orders.map (fun w => w.id)) := by
  have hne := status_ne_empty st hrec
  have hadm : st ∈ statusValues := hrec
  constructor
  · intro hex
    obtain ⟨w0, rest, hf⟩ := exists_cons_filter s.work_orders (fun w => decide (w.id = id))
      (by obtain ⟨w, hw, hwid⟩ := hex; exact ⟨w, hw, by simpa using hwid⟩)
    have hrun : Routes.patchStatus rt sch now s req =
        ⟨Db.insertAudit now "work_order" id "status_change" [("status", .string st)]
            { s with
              work_orders := s.work_orders.map fun w =>
                if decide (w.id = id) then { w with status := st, updated_at := now } else w },
          ⟨200, .workOrder { w0 with status := st, updated_at := now }⟩,
          [.updateStatus, .insertAudit]⟩ := by
      simp [Routes.patchStatus, toInt_of_toNumber rt _ id hid, badId_natCast id hpos, hst,
        JsValue.truthy, hne, JsValue.pgParam, updateStatus_of_admitted _ _ _ _ _ hadm, hf]
    rw [hrun]
    refine ⟨rfl, ?_, ?_⟩
    · intro w hw hwid
      have hw' : w ∈ s.work_orders.map fun w =>
          if decide (w.id = id) then { w with status := st, updated_at := now } else w := hw
      obtain ⟨v, _, rfl⟩ := List.mem_map.mp hw'
      by_cases hv : v.id = id
      · simp [hv]
      · simp [hv] at hwid
    · show (List.map _ s.work_orders).map _ = _
      apply map_update_ids
      intro w
      split <;> rfl
  · intro hex
    obtain ⟨w0, rest, hf⟩ := exists_cons_filter s.work_orders
      (fun w => decide (w.id = id) && !w.is_archived)
      (by obtain ⟨w, hw, hwid, ha⟩ := hex; exact ⟨w, hw, by simp [hwid, ha]⟩)
    have hrun : Controller.patchWorkOrderStatus rt sch now s req =
        ⟨Db.insertAudit now "work_order" id "status_change" [("status", .string st)]
            { s with
              work_orders := s.work_orders.map fun w =>
                if (decide (w.id = id) && !w.is_archived) then
                  { w with status := st, updated_at := now }
                else w },
          ⟨200, .statusRow w0.id st now⟩,
          [.updateWorkOrderStatus, .createAudit]⟩ := by
      simp [Controller.patchWorkOrderStatus, hid, invalidId_natCast id hpos, idOf_natCast, hst,
        hrec, Repo.updateWorkOrderStatus, updateStatus_of_admitted _ _ _ _ _ hadm, hf,
        Repo.createAudit]
    rw [hrun]
    refine ⟨rfl, ?_, ?_⟩
    · intro w hw hwid harch
      have hw' : w ∈ s.work_orders.map fun w =>
          if (decide (w.id = id) && !w.is_archived) then
            { w with status := st, updated_at := now }
          else w := hw
      obtain ⟨v, _, rfl⟩ := List.mem_map.mp hw'
      by_cases hv : (decide (v.id = id) && !v.is_archived) = true
      · simp [hv]
      · simp only [hv, Bool.false_eq_true, if_false] at hwid harch ⊢
        simp [hwid, harch] at hv
    · show (List.map _ s.work_orders).map _ = _
      apply map_update_ids
      intro w
      split <;> rfl

theorem status_transitions_permissive_witness :
    sampleStore.work_orders.map (fun w => (w.id, w.status)) = [(1, "created"), (2, "closed")]
    ∧ (Routes.patchStatus decimalRuntime strictSchema 20 sampleStore reopenRequest).response.status
        = 200
    ∧ (Controller.patchWorkOrderStatus decimalRuntime strictSchema 20 sampleStore
        reopenRequest).response.status = 200
    ∧ (∀ w ∈ (Routes.patchStatus decimalRuntime strictSchema 20 sampleStore
        reopenRequest).store.work_orders, w.id = 2 → w.status = "created") :=
  have h := status_transitions_permissive decimalRuntime strictSchema 20 sampleStore
    reopenRequest 2 "created" (by decide) (by decide!) rfl (by decide)
  ⟨by decide, (h.1 (by decide)).1, (h.2 (by decide)).1, (h.1 (by decide)).2.1⟩

/-! ## Theorems: the statements of each operation -/

theorem runAll_nil (s : Store) : Stmt.runAll [] s = s := rfl

theorem runAll_append (a b : List Stmt) (s : Store) :
    Stmt.runAll (a ++ b) s = Stmt.runAll b (Stmt.runAll a s) := by
  unfold Stmt.runAll
  rw [List.foldl_append]

theorem fits_nil (t : Option Nat) : ∀ st ∈ ([] : List Stmt), st.fits t := by
  intro st h
  cases h

/-- The statements of a call that sent none. -/
theorem statements_none (t : Option Nat) (s : Store) :
    ∃ stmts : List Stmt, s = Stmt.runAll stmts s ∧ ∀ st ∈ stmts, st.fits t :=
  ⟨[], rfl, fits_nil t⟩

/-- One more statement after the statements sent so far. -/
theorem statements_snoc (t : Option Nat) (s s1 : Store) (x : Stmt) (hx : x.fits t)
    (h : ∃ stmts : List Stmt, s1 = Stmt.runAll stmts s ∧ ∀ st ∈ stmts, st.fits t) :
    ∃ stmts : List Stmt, x.run s1 = Stmt.runAll stmts s ∧ ∀ st ∈ stmts, st.fits t := by
  obtain ⟨stmts, h1, h2⟩ := h
  refine ⟨stmts ++ [x], ?_, ?_⟩
  · rw [runAll_append, ← h1]
    rfl
  · intro st hst
    rcases List.mem_append.mp hst with h3 | h3
    · exact h2 st h3
    · rw [List.mem_singleton] at h3
      subst h3
      exact hx

theorem getD_pos_of_badQty (x : Option ℚ) (h : ¬ Routes.badQty x = true) : 0 < x.getD 0 := by
  cases x with
  | none => exact absurd rfl h
  | some q =>
    simp only [Routes.badQty, Bool.or_eq_true, decide_eq_true_eq, not_or, not_le] at h
    exact h.2

theorem getD_nonneg_of_badPrice (x : Option ℚ) (h : ¬ Routes.badPrice x = true) :
    0 ≤ x.getD 0 := by
  cases x with
  | none => exact absurd rfl h
  | some p =>
    simp only [Routes.badPrice, decide_eq_true_eq, not_lt] at h
    exact h

theorem getD_pos_of_badAmount (x : Option ℚ) (h : ¬ Routes.badAmount x = true) :
    0 < x.getD 0 := by
  cases x with
  | none => exact absurd rfl h
  | some a =>
    simp only [Routes.badAmount, decide_eq_true_eq, not_le] at h
    exact h

theorem postWorkOrder_statements (rt : JsRuntime) (now : Nat) (s : Store) (req : Request) :
    ∃ stmts : List Stmt, (Routes.postWorkOrder rt now s req).store = Stmt.runAll stmts s
      ∧ ∀ st ∈ stmts, st.fits none := by
  unfold Routes.postWorkOrder
  simp only []
  split
  · exact statements_none _ s
  split
  · exact statements_none _ s
  split
  · exact statements_none _ s
  rename_i bk _ _
  split
  all_goals
    rename_i heq
    have h1 := congrArg Prod.fst heq
    simp only at h1
    subst h1
  · exact statements_snoc none s _ (.insertWorkOrder now _ bk.client_id bk.car_id none "created" 0 0)
      ⟨rfl, le_refl _, le_refl _⟩ (statements_none _ s)
  · exact statements_snoc none s _ (.insertAudit now _ _ _ _) trivial
      (statements_snoc none s _
        (.insertWorkOrder now _ bk.client_id bk.car_id none "created" 0 0)
        ⟨rfl, le_refl _, le_refl _⟩ (statements_none _ s))

theorem patchStatus_statements (rt : JsRuntime) (sch : Schema) (now : Nat) (s : Store)
    (req : Request) :
    ∃ stmts : List Stmt, (Routes.patchStatus rt sch now s req).store = Stmt.runAll stmts s
      ∧ ∀ st ∈ stmts, st.fits (some ((Routes.toInt rt (.string req.id)).getD 0).toNat) := by
  unfold Routes.patchStatus
  simp only []
  split
  · exact statements_none _ s
  split
  · exact statements_none _ s
  split
  · exact statements_none _ s
  rename_i st0 _
  split
  all_goals
    rename_i heq
    have h1 := congrArg Prod.fst heq
    simp only at h1
    subst h1
  · exact statements_snoc _ s _ (.updateStatus sch now _ false st0) rfl (statements_none _ s)
  · exact statements_snoc _ s _ (.updateStatus sch now _ false st0) rfl (statements_none _ s)
  · exact statements_snoc _ s _ (.insertAudit now _ _ _ _) trivial
      (statements_snoc _ s _ (.updateStatus sch now _ false st0) rfl (statements_none _ s))

theorem postWorkItem_statements (rt : JsRuntime) (sch : Schema) (now : Nat) (s : Store)
    (req : Request) :
    ∃ stmts : List Stmt, (Routes.postWorkItem rt sch now s req).store = Stmt.runAll stmts s
      ∧ ∀ st ∈ stmts, st.fits (some ((Routes.toInt rt (.string req.id)).getD 0).toNat) := by
  unfold Routes.postWorkItem
  simp only []
  split
  · exact statements_none _ s
  split
  · exact statements_none _ s
  split
  · exact statements_none _ s
  split
  · exact statements_none _ s
  rename_i hq hp
  have hq1 := getD_pos_of_badQty _ hq
  have hp1 := getD_nonneg_of_badPrice _ hp
  split
  all_goals
    rename_i heq
    have h1 := congrArg Prod.fst heq
    simp only at h1
    subst h1
  · exact statements_snoc _ s _ (.insertWorkItem sch _ _ _ _) ⟨hq1, hp1⟩ (statements_none _ s)
  · exact statements_snoc _ s _ (.insertAudit now _ _ _ _) trivial
      (statements_snoc _ s _ (.recalcTotal now _) rfl
        (statements_snoc _ s _ (.insertWorkItem sch _ _ _ _) ⟨hq1, hp1⟩ (statements_none _ s)))

theorem postMaterialItem_statements (rt : JsRuntime) (sch : Schema) (now : Nat) (s : Store)
    (req : Request) :
    ∃ stmts : List Stmt, (Routes.postMaterialItem rt sch now s req).store = Stmt.runAll stmts s
      ∧ ∀ st ∈ stmts, st.fits (some ((Routes.toInt rt (.string req.id)).getD 0).toNat) := by
  unfold Routes.postMaterialItem
  simp only []
  split
  · exact statements_none _ s
  split
  · exact statements_none _ s
  split
  · exact statements_none _ s
  split
  · exact statements_none _ s
  rename_i hq hp
  have hq1 := getD_pos_of_badQty _ hq
  have hp1 := getD_nonneg_of_badPrice _ hp
  split
  all_goals
    rename_i heq
    have h1 := congrArg Prod.fst heq
    simp only at h1
    subst h1
  · exact statements_snoc _ s _ (.insertMaterialItem sch _ none _ _ _) ⟨hq1, hp1⟩
      (statements_none _ s)
  · exact statements_snoc _ s _ (.insertAudit now _ _ _ _) trivial
      (statements_snoc _ s _ (.recalcTotal now _) rfl
        (statements_snoc _ s _ (.insertMaterialItem sch _ none _ _ _) ⟨hq1, hp1⟩
          (statements_none _ s)))

theorem postPayment_statements (rt : JsRuntime) (sch : Schema) (now : Nat) (s : Store)
    (req : Request) :
    ∃ stmts : List Stmt, (Routes.postPayment rt sch now s req).store = Stmt.runAll stmts s
      ∧ ∀ st ∈ stmts, st.fits (some ((Routes.toInt rt (.string req.id)).getD 0).toNat) := by
  unfold Routes.postPayment
  simp only []
  split
  · exact statements_none _ s
  split
  · exact statements_none _ s
  rename_i ha
  have ha1 := getD_pos_of_badAmount _ ha
  split
  all_goals
    rename_i heq
    have h1 := congrArg Prod.fst heq
    simp only at h1
    subst h1
  · exact statements_snoc _ s _ (.insertPayment sch now _ _ _ none) ha1 (statements_none _ s)
  · exact statements_snoc _ s _ (.insertAudit now _ _ _ _) trivial
      (statements_snoc _ s _ (.recalcPaid now _) rfl
        (statements_snoc _ s _ (.insertPayment sch now _ _ _ none) ha1 (statements_none _ s)))

theorem createWorkOrderFromBooking_statements (rt : JsRuntime) (now bid : Nat) (d : JsValue)
    (s : Store) :
    ∃ stmts : List Stmt, (Repo.createWorkOrderFromBooking rt now bid d s).1 = Stmt.runAll stmts s
      ∧ ∀ st ∈ stmts, st.fits none := by
  unfold Repo.createWorkOrderFromBooking
  split
  · exact statements_none _ s
  rename_i b _ _
  split
  all_goals
    rename_i heq
    have h1 := congrArg Prod.fst heq
    simp only at h1
    subst h1
    exact statements_snoc none s _
      (.insertWorkOrder now b.id b.client_id b.car_id
        (if d.truthy then d.pgParam rt else none) Repo.defaultStatus 0 0)
      ⟨rfl, le_refl _, le_refl _⟩ (statements_none _ s)

theorem createWorkOrder_statements (rt : JsRuntime) (now : Nat) (s : Store) (req : Request) :
    ∃ stmts : List Stmt, (Controller.createWorkOrder rt now s req).store = Stmt.runAll stmts s
      ∧ ∀ st ∈ stmts, st.fits none := by
  unfold Controller.createWorkOrder
  simp only []
  split
  · exact statements_none _ s
  split
  all_goals
    rename_i heq
    have h1 := congrArg Prod.fst heq
    simp only at h1
    subst h1
  · split <;> exact createWorkOrderFromBooking_statements rt now _ _ s
  · exact createWorkOrderFromBooking_statements rt now _ _ s
  · exact statements_snoc none s _ (.insertAudit now _ _ _ _) trivial
      (createWorkOrderFromBooking_statements rt now _ _ s)

theorem patchWorkOrderStatus_statements (rt : JsRuntime) (sch : Schema) (now : Nat) (s : Store)
    (req : Request) :
    ∃ stmts : List Stmt,
      (Controller.patchWorkOrderStatus rt sch now s req).store = Stmt.runAll stmts s
      ∧ ∀ st ∈ stmts,
          st.fits (some (Controller.idOf ((JsValue.string req.id).toNumber rt))) := by
  unfold Controller.patchWorkOrderStatus Repo.updateWorkOrderStatus
  simp only []
  split
  · exact statements_none _ s
  split
  · rename_i st0 _
    split
    · exact statements_none _ s
    split
    all_goals
      rename_i heq
      split at heq
      all_goals
        rename_i heq2
        have h1 := congrArg Prod.fst heq
        have h2 := congrArg Prod.fst heq2
        simp only at h1 h2
        subst h1
        subst h2
    all_goals
      first
      | exact statements_snoc _ s _ (.updateStatus sch now _ true st0) rfl (statements_none _ s)
      | exact statements_snoc _ s _ (.insertAudit now _ _ _ _) trivial
          (statements_snoc _ s _ (.updateStatus sch now _ true st0) rfl (statements_none _ s))
  · exact statements_none _ s

theorem pos_of_gtZero (a : ℚ) (h : (JsNumber.finite a).gtZero = true) : 0 < a := by
  simpa [JsNumber.gtZero] using h

theorem nonneg_of_geZero (a : ℚ) (h : (JsNumber.finite a).geZero = true) : 0 ≤ a := by
  simpa [JsNumber.geZero] using h

theorem repo_addWorkItem_statements (t : Option Nat) (sch : Schema) (id : Nat) (name : String)
    (q p : JsNumber) (s : Store) (hq : q.gtZero = true) (hp : p.geZero = true) :
    ∃ stmts : List Stmt, (Repo.addWorkItem sch id name q p s).1 = Stmt.runAll stmts s
      ∧ ∀ st ∈ stmts, st.fits t := by
  unfold Repo.addWorkItem
  split
  · rename_i a b
    exact statements_snoc t s _ (.insertWorkItem sch id name a b)
      ⟨pos_of_gtZero a hq, nonneg_of_geZero b hp⟩ (statements_none _ s)
  · exact statements_none _ s

theorem repo_addMaterialItem_statements (t : Option Nat) (sch : Schema) (id : Nat)
    (mid : Option Nat) (name : String) (q p : JsNumber) (s : Store) (hq : q.gtZero = true)
    (hp : p.geZero = true) :
    ∃ stmts : List Stmt, (Repo.addMaterialItem sch id mid name q p s).1 = Stmt.runAll stmts s
      ∧ ∀ st ∈ stmts, st.fits t := by
  unfold Repo.addMaterialItem
  split
  · rename_i a b
    exact statements_snoc t s _ (.insertMaterialItem sch id mid name a b)
      ⟨pos_of_gtZero a hq, nonneg_of_geZero b hp⟩ (statements_none _ s)
  · exact statements_none _ s

theorem repo_addPayment_statements (rt : JsRuntime) (sch : Schema) (now id : Nat)
    (a : JsNumber) (m : JsValue) (s : Store) (ha : a.gtZero = true) :
    ∃ stmts : List Stmt, (Repo.addPayment rt sch now id a m s).1 = Stmt.runAll stmts s
      ∧ ∀ st ∈ stmts, st.fits (some id) := by
  unfold Repo.addPayment
  split
  · rename_i q mt _
    have hq := pos_of_gtZero q ha
    split
    all_goals
      rename_i heq
      have h1 := congrArg Prod.fst heq
      simp only at h1
      subst h1
    · exact statements_snoc _ s _ (.insertPayment sch now id q mt (some now)) hq
        (statements_none _ s)
    · exact statements_snoc _ s _ (.addPaid now id q) ⟨rfl, hq⟩
        (statements_snoc _ s _ (.insertPayment sch now id q mt (some now)) hq
          (statements_none _ s))
  · exact statements_none _ s
  · exact statements_none _ s

theorem addWorkItem_statements (rt : JsRuntime) (sch : Schema) (now : Nat) (s : Store)
    (req : Request) :
    ∃ stmts : List Stmt, (Controller.addWorkItem rt sch now s req).store = Stmt.runAll stmts s
      ∧ ∀ st ∈ stmts,
          st.fits (some (Controller.idOf ((JsValue.string req.id).toNumber rt))) := by
  unfold Controller.addWorkItem
  simp only []
  generalize (if req.field "qty" = JsValue.undefined then JsNumber.finite 1
    else (req.field "qty").toNumber rt) = q
  generalize (if req.field "unit_price" = JsValue.undefined then JsNumber.finite 0
    else (req.field "unit_price").toNumber rt) = p
  split
  · exact statements_none _ s
  split
  · split
    · exact statements_none _ s
    split
    · exact statements_none _ s
    rename_i hg
    simp only [Bool.or_eq_true, Bool.not_eq_true', not_or, Bool.not_eq_false] at hg
    split
    · exact statements_none _ s
    split
    all_goals
      rename_i heq
      have h1 := congrArg Prod.fst heq
      simp only at h1
      subst h1
    · exact repo_addWorkItem_statements _ sch _ _ q p s hg.1 hg.2
    · exact statements_snoc _ s _ (.insertAudit now _ _ _ _) trivial
        (statements_snoc _ s _ (.recalcTotal now _) rfl
          (repo_addWorkItem_statements _ sch _ _ q p s hg.1 hg.2))
  · exact statements_none _ s

theorem addMaterialItem_statements (rt : JsRuntime) (sch : Schema) (now : Nat) (s : Store)
    (req : Request) :
    ∃ stmts : List Stmt,
      (Controller.addMaterialItem rt sch now s req).store = Stmt.runAll stmts s
      ∧ ∀ st ∈ stmts,
          st.fits (some (Controller.idOf ((JsValue.string req.id).toNumber rt))) := by
  unfold Controller.addMaterialItem
  simp only []
  generalize (if req.field "qty" = JsValue.undefined then JsNumber.finite 1
    else (req.field "qty").toNumber rt) = q
  generalize (if req.field "unit_price" = JsValue.undefined then JsNumber.finite 0
    else (req.field "unit_price").toNumber rt) = p
  generalize (if (req.field "material_id").isNullish = true then (none : Option JsNumber)
    else some ((req.field "material_id").toNumber rt)) = mid
  split
  · exact statements_none _ s
  split
  · split
    · exact statements_none _ s
    split
    · exact statements_none _ s
    rename_i hg
    simp only [Bool.or_eq_true, Bool.not_eq_true', not_or, Bool.not_eq_false] at hg
    split
    · exact statements_none _ s
    split
    · exact statements_none _ s
    split
    all_goals
      rename_i heq
      have h1 := congrArg Prod.fst heq
      simp only at h1
      subst h1
    · exact repo_addMaterialItem_statements _ sch _ _ _ q p s hg.1 hg.2
    · exact statements_snoc _ s _ (.insertAudit now _ _ _ _) trivial
        (statements_snoc _ s _ (.recalcTotal now _) rfl
          (repo_addMaterialItem_statements _ sch _ _ _ q p s hg.1 hg.2))
  · exact statements_none _ s

theorem addPayment_statements (rt : JsRuntime) (sch : Schema) (now : Nat) (s : Store)
    (req : Request) :
    ∃ stmts : List Stmt, (Controller.addPayment rt sch now s req).store = Stmt.runAll stmts s
      ∧ ∀ st ∈ stmts,
          st.fits (some (Controller.idOf ((JsValue.string req.id).toNumber rt))) := by
  unfold Controller.addPayment
  simp only []
  split
  · exact statements_none _ s
  split
  · exact statements_none _ s
  rename_i hg
  simp only [Bool.not_eq_true', Bool.not_eq_false] at hg
  split
  · exact statements_none _ s
  split
  all_goals
    rename_i heq
    have h1 := congrArg Prod.fst heq
    simp only at h1
    subst h1
  · exact repo_addPayment_statements rt sch now _ _ _ s hg
  · exact statements_snoc _ s _ (.insertAudit now _ _ _ _) trivial
      (repo_addPayment_statements rt sch now _ _ _ s hg)

/-- Every operation leaves the store that a list of fitting statements leaves. -/
theorem op_run_statements (rt : JsRuntime) (sch : Schema) (now : Nat) (s : Store)
    (req : Request) (op : Op) :
    ∃ stmts : List Stmt, (op.run rt sch now s req).store = Stmt.runAll stmts s
      ∧ ∀ st ∈ stmts, st.fits (op.target rt req) := by
  cases op
  · exact postWorkOrder_statements rt now s req
  · exact patchStatus_statements rt sch now s req
  · exact postWorkItem_statements rt sch now s req
  · exact postMaterialItem_statements rt sch now s req
  · exact postPayment_statements rt sch now s req
  · exact createWorkOrder_statements rt now s req
  · exact patchWorkOrderStatus_statements rt sch now s req
  · exact addWorkItem_statements rt sch now s req
  · exact addMaterialItem_statements rt sch now s req
  · exact addPayment_statements rt sch now s req

/-! ## Theorems: what a statement does to the work orders -/

theorem frozen_refl (id : Nat) (l : List WorkOrder) : Frozen id l l := by
  unfold Frozen
  induction l with
  | nil => exact List.Forall₂.nil
  | cons w l ih => exact List.Forall₂.cons ⟨rfl, rfl, rfl, rfl, fun _ => rfl⟩ ih

theorem frozen_trans (id : Nat) (a b c : List WorkOrder) (h1 : Frozen id a b)
    (h2 : Frozen id b c) : Frozen id a c := by
  unfold Frozen at h1 h2 ⊢
  induction h1 generalizing c with
  | nil =>
    cases h2
    exact List.Forall₂.nil
  | cons hab _ ih =>
    cases h2 with
    | cons hbc hrest =>
      refine List.Forall₂.cons ?_ (ih _ hrest)
      obtain ⟨e1, e2, e3, e4, e5⟩ := hab
      obtain ⟨f1, f2, f3, f4, f5⟩ := hbc
      refine ⟨f1.trans e1, f2.trans e2, f3.trans e3, f4.trans e4, ?_⟩
      intro hne
      rw [f5 (by rw [e1]; exact hne), e5 hne]

theorem frozen_map (id : Nat) (l : List WorkOrder) (f : WorkOrder → WorkOrder)
    (hf : ∀ w, (f w).id = w.id ∧ (f w).booking_id = w.booking_id
      ∧ (f w).client_id = w.client_id ∧ (f w).car_id = w.car_id ∧ (w.id ≠ id → f w = w)) :
    Frozen id l (l.map f) := by
  unfold Frozen
  induction l with
  | nil => exact List.Forall₂.nil
  | cons w l ih => exact List.Forall₂.cons (hf w) ih

theorem frozen_of_eq (id : Nat) (a b : List WorkOrder) (h : b = a) : Frozen id a b := by
  subst h
  exact frozen_refl id b

theorem updateStatus_frozen (sch : Schema) (now id : Nat) (sel : WorkOrder → Bool)
    (status : String) (s : Store) (hsel : ∀ w, sel w = true → w.id = id) :
    Frozen id s.work_orders (Db.updateStatus sch now sel status s).1.work_orders := by
  unfold Db.updateStatus
  split
  · exact frozen_refl id _
  · apply frozen_map
    intro w
    by_cases h : sel w = true
    · dsimp only
      rw [if_pos h]
      exact ⟨rfl, rfl, rfl, rfl, fun hne => absurd (hsel w h) hne⟩
    · dsimp only
      rw [if_neg h]
      exact ⟨rfl, rfl, rfl, rfl, fun _ => rfl⟩

theorem recalcTotal_frozen (now id : Nat) (s : Store) :
    Frozen id s.work_orders (Routes.recalcTotal now id s).work_orders := by
  unfold Routes.recalcTotal
  apply frozen_map
  intro w
  by_cases h : w.id = id
  · dsimp only
    rw [if_pos h]
    exact ⟨rfl, rfl, rfl, rfl, fun hne => absurd h hne⟩
  · dsimp only
    rw [if_neg h]
    exact ⟨rfl, rfl, rfl, rfl, fun _ => rfl⟩

theorem recalcPaid_frozen (now id : Nat) (s : Store) :
    Frozen id s.work_orders (Routes.recalcPaid now id s).work_orders := by
  unfold Routes.recalcPaid
  apply frozen_map
  intro w
  by_cases h : w.id = id
  · dsimp only
    rw [if_pos h]
    exact ⟨rfl, rfl, rfl, rfl, fun hne => absurd h hne⟩
  · dsimp only
    rw [if_neg h]
    exact ⟨rfl, rfl, rfl, rfl, fun _ => rfl⟩

theorem addPaid_frozen (now id : Nat) (a : ℚ) (s : Store) :
    Frozen id s.work_orders ((Stmt.addPaid now id a).run s).work_orders := by
  unfold Stmt.run
  apply frozen_map
  intro w
  by_cases h : w.id = id
  · dsimp only
    rw [if_pos h]
    exact ⟨rfl, rfl, rfl, rfl, fun hne => absurd h hne⟩
  · dsimp only
    rw [if_neg h]
    exact ⟨rfl, rfl, rfl, rfl, fun _ => rfl⟩

/-- A statement of a call on work order `id` keeps the references of every work order and
every work order with another id. -/
theorem stmt_frozen (id : Nat) (st : Stmt) (h : st.fits (some id)) (s : Store) :
    Frozen id s.work_orders (st.run s).work_orders := by
  cases st with
  | insertWorkOrder now b c k d stat t p => exact absurd h.1 (by simp)
  | updateStatus sch now i act stat =>
    have hi : id = i := Option.some.inj h
    subst hi
    cases act with
    | true =>
      apply updateStatus_frozen
      intro w hw
      simp only [Bool.and_eq_true, decide_eq_true_eq] at hw
      exact hw.1
    | false =>
      apply updateStatus_frozen
      intro w hw
      simpa using hw
  | insertWorkItem sch i n q p =>
    exact frozen_of_eq id _ _ (insertWorkItem_frame sch i n q p s).1
  | insertMaterialItem sch i m n q p =>
    exact frozen_of_eq id _ _ (insertMaterialItem_frame sch i m n q p s).1
  | insertPayment sch now i a m pa =>
    exact frozen_of_eq id _ _ (insertPayment_frame sch now i a m pa s).1
  | recalcTotal now i =>
    have hi : id = i := Option.some.inj h
    subst hi
    exact recalcTotal_frozen now id s
  | recalcPaid now i =>
    have hi : id = i := Option.some.inj h.symm.symm
    subst hi
    exact recalcPaid_frozen now id s
  | addPaid now i a =>
    have hi : id = i := Option.some.inj h.1
    subst hi
    exact addPaid_frozen now id a s
  | insertAudit now e i a d => exact frozen_refl id _

theorem runAll_frozen (id : Nat) (stmts : List Stmt) (s : Store)
    (h : ∀ st ∈ stmts, st.fits (some id)) :
    Frozen id s.work_orders (Stmt.runAll stmts s).work_orders := by
  induction stmts generalizing s with
  | nil => exact frozen_refl id _
  | cons x xs ih =>
    have hx := stmt_frozen id x (h x (List.mem_cons_self _ _)) s
    have hxs := ih (x.run s) (fun st hst => h st (List.mem_cons_of_mem _ hst))
    exact frozen_trans id _ _ _ hx hxs

/-- A statement of a creating call keeps every existing work order in place. -/
theorem stmt_keeps_rows (st : Stmt) (h : st.fits none) (s : Store) :
    ∃ added, (st.run s).work_orders = s.work_orders ++ added := by
  cases st with
  | insertWorkOrder now b c k d stat t p =>
    simp only [Stmt.run, Db.insertWorkOrder]
    split
    · exact ⟨[], by simp⟩
    · exact ⟨_, rfl⟩
  | updateStatus sch now i act stat => exact absurd h (by simp [Stmt.fits])
  | insertWorkItem sch i n q p => exact ⟨[], by simp [Stmt.run, insertWorkItem_frame]⟩
  | insertMaterialItem sch i m n q p =>
    exact ⟨[], by simp [Stmt.run, insertMaterialItem_frame]⟩
  | insertPayment sch now i a m pa => exact ⟨[], by simp [Stmt.run, insertPayment_frame]⟩
  | recalcTotal now i => exact absurd h (by simp [Stmt.fits])
  | recalcPaid now i => exact absurd h (by simp [Stmt.fits])
  | addPaid now i a => exact absurd h.1 (by simp)
  | insertAudit now e i a d => exact ⟨[], by simp [Stmt.run, Db.insertAudit]⟩

theorem runAll_keeps_rows (stmts : List Stmt) (s : Store) (h : ∀ st ∈ stmts, st.fits none) :
    ∃ added, (Stmt.runAll stmts s).work_orders = s.work_orders ++ added := by
  induction stmts generalizing s with
  | nil => exact ⟨[], by simp [Stmt.runAll]⟩
  | cons x xs ih =>
    obtain ⟨a1, h1⟩ := stmt_keeps_rows x (h x (List.mem_cons_self _ _)) s
    obtain ⟨a2, h2⟩ := ih (x.run s) (fun st hst => h st (List.mem_cons_of_mem _ hst))
    refine ⟨a1 ++ a2, ?_⟩
    have h3 : Stmt.runAll (x :: xs) s = Stmt.runAll xs (x.run s) := rfl
    rw [h3, h2, h1, List.append_assoc]

/-! ## Theorems: statements only append to the ledger -/

theorem appended_refl {α : Type} (key : α → Nat) (l : List α) (n : Nat) :
    Appended key l l n n :=
  ⟨le_refl n, [], (List.append_nil l).symm, fun _ h => absurd h (List.not_mem_nil _)⟩

theorem appended_skip {α : Type} (key : α → Nat) (l : List α) (n : Nat) :
    Appended key l l n (n + 1) :=
  ⟨Nat.le_succ n, [], (List.append_nil l).symm, fun _ h => absurd h (List.not_mem_nil _)⟩

theorem appended_one {α : Type} (key : α → Nat) (l : List α) (row : α) :
    Appended key l (l ++ [row]) (key row) (key row + 1) := by
  refine ⟨Nat.le_succ _, [row], rfl, ?_⟩
  intro r hr
  rw [List.mem_singleton] at hr
  subst hr
  exact ⟨le_refl _, Nat.lt_succ_self _⟩

theorem appended_trans {α : Type} (key : α → Nat) (a b c : List α) (n1 n2 n3 : Nat)
    (h1 : Appended key a b n1 n2) (h2 : Appended key b c n2 n3) : Appended key a c n1 n3 := by
  obtain ⟨l1, x, hx, hx2⟩ := h1
  obtain ⟨l2, y, hy, hy2⟩ := h2
  refine ⟨le_trans l1 l2, x ++ y, ?_, ?_⟩
  · rw [hy, hx, List.append_assoc]
  · intro r hr
    rcases List.mem_append.mp hr with h | h
    · exact ⟨(hx2 r h).1, lt_of_lt_of_le (hx2 r h).2 l2⟩
    · exact ⟨le_trans l1 (hy2 r h).1, (hy2 r h).2⟩

theorem appendOnly_refl (s : Store) : AppendOnly s s :=
  ⟨appended_refl _ _ _, appended_refl _ _ _, appended_refl _ _ _, appended_refl _ _ _⟩

theorem appendOnly_trans (s t u : Store) (h1 : AppendOnly s t) (h2 : AppendOnly t u) :
    AppendOnly s u :=
  ⟨appended_trans _ _ _ _ _ _ _ h1.1 h2.1, appended_trans _ _ _ _ _ _ _ h1.2.1 h2.2.1,
    appended_trans _ _ _ _ _ _ _ h1.2.2.1 h2.2.2.1,
    appended_trans _ _ _ _ _ _ _ h1.2.2.2 h2.2.2.2⟩

theorem insertWorkOrder_appendOnly (now b c k : Nat) (d : Option String) (st : String)
    (t p : ℚ) (s : Store) : AppendOnly s (Db.insertWorkOrder now b c k d st t p s).1 := by
  unfold Db.insertWorkOrder
  split <;> exact appendOnly_refl s

theorem updateStatus_appendOnly (sch : Schema) (now : Nat) (sel : WorkOrder → Bool)
    (st : String) (s : Store) : AppendOnly s (Db.updateStatus sch now sel st s).1 := by
  unfold Db.updateStatus
  split <;> exact appendOnly_refl s

theorem insertWorkItem_appendOnly (sch : Schema) (id : Nat) (name : String) (q p : ℚ)
    (s : Store) : AppendOnly s (Db.insertWorkItem sch id name q p s).1 := by
  unfold Db.insertWorkItem
  split
  · exact ⟨appended_skip _ _ _, appended_refl _ _ _, appended_refl _ _ _, appended_refl _ _ _⟩
  · exact ⟨appended_one (fun r : WorkItem => r.id) _ _, appended_refl _ _ _,
      appended_refl _ _ _, appended_refl _ _ _⟩

theorem insertMaterialItem_appendOnly (sch : Schema) (id : Nat) (mid : Option Nat)
    (name : String) (q p : ℚ) (s : Store) :
    AppendOnly s (Db.insertMaterialItem sch id mid name q p s).1 := by
  unfold Db.insertMaterialItem
  split
  · exact ⟨appended_refl _ _ _, appended_skip _ _ _, appended_refl _ _ _, appended_refl _ _ _⟩
  · exact ⟨appended_refl _ _ _, appended_one (fun r : MaterialItem => r.id) _ _,
      appended_refl _ _ _, appended_refl _ _ _⟩

theorem insertPayment_appendOnly (sch : Schema) (now id : Nat) (a : ℚ) (m : String)
    (pa : Option Nat) (s : Store) : AppendOnly s (Db.insertPayment sch now id a m pa s).1 := by
  unfold Db.insertPayment
  split
  · exact ⟨appended_refl _ _ _, appended_refl _ _ _, appended_skip _ _ _, appended_refl _ _ _⟩
  split
  · exact ⟨appended_refl _ _ _, appended_refl _ _ _, appended_skip _ _ _, appended_refl _ _ _⟩
  · exact ⟨appended_refl _ _ _, appended_refl _ _ _,
      appended_one (fun r : Payment => r.id) _ _, appended_refl _ _ _⟩

theorem insertAudit_appendOnly (now : Nat) (e : String) (i : Nat) (a : String)
    (d : List (String × JsValue)) (s : Store) : AppendOnly s (Db.insertAudit now e i a d s) :=
  ⟨appended_refl _ _ _, appended_refl _ _ _, appended_refl _ _ _,
    appended_one (fun r : AuditEntry => r.id) _ _⟩

/-- Every statement only appends to the ledger tables. -/
theorem stmt_appendOnly (st : Stmt) (s : Store) : AppendOnly s (st.run s) := by
  cases st with
  | insertWorkOrder now b c k d stat t p => exact insertWorkOrder_appendOnly now b c k d stat t p s
  | updateStatus sch now i act stat =>
    cases act
    · exact updateStatus_appendOnly sch now _ stat s
    · exact updateStatus_appendOnly sch now _ stat s
  | insertWorkItem sch i n q p => exact insertWorkItem_appendOnly sch i n q p s
  | insertMaterialItem sch i m n q p => exact insertMaterialItem_appendOnly sch i m n q p s
  | insertPayment sch now i a m pa => exact insertPayment_appendOnly sch now i a m pa s
  | recalcTotal now i => exact appendOnly_refl s
  | recalcPaid now i => exact appendOnly_refl s
  | addPaid now i a => exact appendOnly_refl s
  | insertAudit now e i a d => exact insertAudit_appendOnly now e i a d s

theorem runAll_appendOnly (stmts : List Stmt) (s : Store) :
    AppendOnly s (Stmt.runAll stmts s) := by
  induction stmts generalizing s with
  | nil => exact appendOnly_refl s
  | cons x xs ih => exact appendOnly_trans _ _ _ (stmt_appendOnly x s) (ih (x.run s))

theorem op_run_appendOnly (rt : JsRuntime) (sch : Schema) (now : Nat) (s : Store)
    (req : Request) (op : Op) : AppendOnly s (op.run rt sch now s req).store := by
  obtain ⟨stmts, h1, _⟩ := op_run_statements rt sch now s req op
  rw [h1]
  exact runAll_appendOnly stmts s

theorem extends_of_appended {α : Type} (key : α → Nat) (before after : List α) (n n1 : Nat)
    (h : Appended key before after n n1) (hs : ∀ r ∈ before, key r < n) :
    Extends key before after ∧ ∀ r ∈ after, key r < n1 := by
  obtain ⟨hle, added, h1, h2⟩ := h
  refine ⟨⟨added, h1, fun r hr r0 hr0 => lt_of_lt_of_le (hs r0 hr0) (h2 r hr).1⟩, ?_⟩
  intro r hr
  rw [h1] at hr
  rcases List.mem_append.mp hr with h3 | h3
  · exact lt_of_lt_of_le (hs r h3) hle
  · exact (h2 r h3).2

/-- From a store whose sequences are ahead of its ids, an append-only change extends every
ledger table by rows with larger ids and leaves the sequences ahead. -/
theorem ledgerExtends_of_appendOnly (s t : Store) (h : AppendOnly s t) (hs : s.SeqAhead) :
    LedgerExtends s t ∧ t.SeqAhead := by
  obtain ⟨a1, a2, a3, a4⟩ := h
  obtain ⟨s1, s2, s3, s4⟩ := hs
  have e1 := extends_of_appended _ _ _ _ _ a1 s1
  have e2 := extends_of_appended _ _ _ _ _ a2 s2
  have e3 := extends_of_appended _ _ _ _ _ a3 s3
  have e4 := extends_of_appended _ _ _ _ _ a4 s4
  exact ⟨⟨e1.1, e2.1, e3.1, e4.1⟩, ⟨e1.2, e2.2, e3.2, e4.2⟩⟩

theorem seqAhead_of_emptyLedger (s : Store) (h : s.emptyLedger) : s.SeqAhead := by
  obtain ⟨_, h2, h3, h4, h5⟩ := h
  unfold Store.SeqAhead
  rw [h2, h3, h4, h5]
  simp

theorem repo_recalcTotals_appendOnly (now id : Nat) (s : Store) :
    AppendOnly s (Repo.recalcTotals now id s).1 :=
  appendOnly_refl s

theorem repo_createWorkOrderFromBooking_appendOnly (rt : JsRuntime) (now bid : Nat)
    (d : JsValue) (s : Store) : AppendOnly s (Repo.createWorkOrderFromBooking rt now bid d s).1 := by
  obtain ⟨stmts, h1, _⟩ := createWorkOrderFromBooking_statements rt now bid d s
  rw [h1]
  exact runAll_appendOnly stmts s

theorem repo_updateWorkOrderStatus_appendOnly (sch : Schema) (now id : Nat) (st : String)
    (s : Store) : AppendOnly s (Repo.updateWorkOrderStatus sch now id st s).1 := by
  unfold Repo.updateWorkOrderStatus
  split
  all_goals
    rename_i heq
    have h1 := congrArg Prod.fst heq
    simp only at h1
    subst h1
    exact updateStatus_appendOnly sch now _ st s

theorem repo_addWorkItem_appendOnly (sch : Schema) (id : Nat) (name : String) (q p : JsNumber)
    (s : Store) : AppendOnly s (Repo.addWorkItem sch id name q p s).1 := by
  unfold Repo.addWorkItem
  split
  · exact insertWorkItem_appendOnly sch id name _ _ s
  · exact appendOnly_refl s

theorem repo_addMaterialItem_appendOnly (sch : Schema) (id : Nat) (mid : Option Nat)
    (name : String) (q p : JsNumber) (s : Store) :
    AppendOnly s (Repo.addMaterialItem sch id mid name q p s).1 := by
  unfold Repo.addMaterialItem
  split
  · exact insertMaterialItem_appendOnly sch id mid name _ _ s
  · exact appendOnly_refl s

theorem repo_addPayment_appendOnly (rt : JsRuntime) (sch : Schema) (now id : Nat)
    (a : JsNumber) (m : JsValue) (s : Store) :
    AppendOnly s (Repo.addPayment rt sch now id a m s).1 := by
  unfold Repo.addPayment
  split
  · split
    all_goals
      rename_i heq
      have h1 := congrArg Prod.fst heq
      simp only at h1
      subst h1
    · exact insertPayment_appendOnly sch now id _ _ _ s
    · exact appendOnly_trans _ _ _ (insertPayment_appendOnly sch now id _ _ _ s)
        (appendOnly_refl _)
  · exact appendOnly_refl s
  · exact appendOnly_refl s

/-! ## Theorems: the signs of quantities and amounts -/

theorem sum_map_nonneg {α : Type} (l : List α) (f : α → ℚ) (h : ∀ x ∈ l, 0 ≤ f x) :
    0 ≤ (l.map f).sum := by
  apply List.sum_nonneg
  intro y hy
  obtain ⟨x, hx, rfl⟩ := List.mem_map.mp hy
  exact h x hx

theorem specTotal_nonneg (s : Store) (id : Nat) (h : s.SignsOk) : 0 ≤ specTotal s id := by
  unfold specTotal
  apply add_nonneg
  · apply sum_map_nonneg
    intro i hi
    have h1 := h.1 i (List.mem_of_mem_filter hi)
    exact mul_nonneg (le_of_lt h1.1) h1.2
  · apply sum_map_nonneg
    intro i hi
    have h1 := h.2.1 i (List.mem_of_mem_filter hi)
    exact mul_nonneg (le_of_lt h1.1) h1.2

theorem specPaid_nonneg (s : Store) (id : Nat) (h : s.SignsOk) : 0 ≤ specPaid s id := by
  unfold specPaid
  apply sum_map_nonneg
  intro p hp
  exact le_of_lt (h.2.2.1 p (List.mem_of_mem_filter hp))

theorem signsOk_map (s : Store) (f : WorkOrder → WorkOrder) (h : s.SignsOk)
    (hf : ∀ w ∈ s.work_orders, 0 ≤ (f w).total_amount ∧ 0 ≤ (f w).paid_amount) :
    Store.SignsOk { s with work_orders := s.work_orders.map f } := by
  refine ⟨h.1, h.2.1, h.2.2.1, ?_⟩
  intro w hw
  obtain ⟨v, hv, rfl⟩ := List.mem_map.mp hw
  exact hf v hv

theorem forall_mem_append_singleton {α : Type} (P : α → Prop) (l : List α) (x : α)
    (h : ∀ y ∈ l, P y) (hx : P x) : ∀ y ∈ l ++ [x], P y := by
  intro y hy
  rcases List.mem_append.mp hy with h1 | h1
  · exact h y h1
  · rw [List.mem_singleton] at h1
    subst h1
    exact hx

/-- A fitting statement keeps the sign conditions of the ledger. -/
theorem stmt_signsOk (t : Option Nat) (st : Stmt) (hst : st.fits t) (s : Store)
    (h : s.SignsOk) : (st.run s).SignsOk := by
  cases st with
  | insertWorkOrder now b c k d stat tot p =>
    simp only [Stmt.run, Db.insertWorkOrder]
    split
    · exact h
    · exact ⟨h.1, h.2.1, h.2.2.1,
        forall_mem_append_singleton _ _ _ h.2.2.2 ⟨hst.2.1, hst.2.2⟩⟩
  | updateStatus sch now i act stat =>
    cases act
    all_goals
      simp only [Stmt.run, Db.updateStatus]
      split
      · exact h
      · apply signsOk_map s _ h
        intro w hw
        split
        · exact h.2.2.2 w hw
        · exact h.2.2.2 w hw
  | insertWorkItem sch i n q p =>
    simp only [Stmt.run, Db.insertWorkItem]
    split
    · exact h
    · exact ⟨forall_mem_append_singleton _ _ _ h.1 hst, h.2.1, h.2.2.1, h.2.2.2⟩
  | insertMaterialItem sch i m n q p =>
    simp only [Stmt.run, Db.insertMaterialItem]
    split
    · exact h
    · exact ⟨h.1, forall_mem_append_singleton _ _ _ h.2.1 hst, h.2.2.1, h.2.2.2⟩
  | insertPayment sch now i a m pa =>
    simp only [Stmt.run, Db.insertPayment]
    split
    · exact h
    split
    · exact h
    · exact ⟨h.1, h.2.1, forall_mem_append_singleton _ _ _ h.2.2.1 hst, h.2.2.2⟩
  | recalcTotal now i =>
    simp only [Stmt.run, Routes.recalcTotal, coalesce_sumWorkItems_add]
    apply signsOk_map s _ h
    intro w hw
    split
    · exact ⟨specTotal_nonneg s i h, (h.2.2.2 w hw).2⟩
    · exact h.2.2.2 w hw
  | recalcPaid now i =>
    simp only [Stmt.run, Routes.recalcPaid, coalesce_sumPaidPayments]
    apply signsOk_map s _ h
    intro w hw
    split
    · exact ⟨(h.2.2.2 w hw).1, specPaid_nonneg s i h⟩
    · exact h.2.2.2 w hw
  | addPaid now i a =>
    simp only [Stmt.run]
    apply signsOk_map s _ h
    intro w hw
    split
    · exact ⟨(h.2.2.2 w hw).1, add_nonneg (h.2.2.2 w hw).2 (le_of_lt hst.2)⟩
    · exact h.2.2.2 w hw
  | insertAudit now e i a d => exact h

theorem runAll_signsOk (t : Option Nat) (stmts : List Stmt) (s : Store)
    (hst : ∀ st ∈ stmts, st.fits t) (h : s.SignsOk) : (Stmt.runAll stmts s).SignsOk := by
  induction stmts generalizing s with
  | nil => exact h
  | cons x xs ih =>
    exact ih (x.run s) (fun st hm => hst st (List.mem_cons_of_mem _ hm))
      (stmt_signsOk t x (hst x (List.mem_cons_self _ _)) s h)

theorem op_run_signsOk (rt : JsRuntime) (sch : Schema) (now : Nat) (s : Store)
    (req : Request) (op : Op) (h : s.SignsOk) : (op.run rt sch now s req).store.SignsOk := by
  obtain ⟨stmts, h1, h2⟩ := op_run_statements rt sch now s req op
  rw [h1]
  exact runAll_signsOk _ stmts s h2 h

theorem signsOk_of_emptyLedger (s : Store) (h : s.emptyLedger) : s.SignsOk := by
  obtain ⟨h1, h2, h3, h4, _⟩ := h
  unfold Store.SignsOk
  rw [h1, h2, h3, h4]
  simp

/-! ## Theorems: closed and cancelled work orders -/

/-- C21, counterexample.  Work order 2 of the sample store is closed; a set-status call with
target created is answered 200 by the mounted handler and by the controller, and the status
stored for work order 2 is then created: closed is not terminal. -/
theorem closed_order_reopened :
    sampleStore.work_orders.map (fun w => (w.id, w.status)) = [(1, "created"), (2, "closed")]
    ∧ (Routes.patchStatus decimalRuntime strictSchema 20 sampleStore reopenRequest).response.status
        = 200
    ∧ (Routes.patchStatus decimalRuntime strictSchema 20 sampleStore
          reopenRequest).store.work_orders.map (fun w => (w.id, w.status))
        = [(1, "created"), (2, "created")]
    ∧ (Controller.patchWorkOrderStatus decimalRuntime strictSchema 20 sampleStore
          reopenRequest).response.status = 200
    ∧ (Controller.patchWorkOrderStatus decimalRuntime strictSchema 20 sampleStore
          reopenRequest).store.work_orders.map (fun w => (w.id, w.status))
        = [(1, "created"), (2, "created")] := by
  decide!

/-! ## Theorems: frozen references -/

theorem repo_updateWorkOrderStatus_frozen (sch : Schema) (now id : Nat) (st : String)
    (s : Store) :
    Frozen id s.work_orders (Repo.updateWorkOrderStatus sch now id st s).1.work_orders := by
  unfold Repo.updateWorkOrderStatus
  split
  all_goals
    rename_i heq
    have h1 := congrArg Prod.fst heq
    simp only at h1
    subst h1
    apply updateStatus_frozen
    intro w hw
    simp only [Bool.and_eq_true, decide_eq_true_eq] at hw
    exact hw.1

theorem repo_addPayment_frozen (rt : JsRuntime) (sch : Schema) (now id : Nat) (a : JsNumber)
    (m : JsValue) (s : Store) :
    Frozen id s.work_orders (Repo.addPayment rt sch now id a m s).1.work_orders := by
  unfold Repo.addPayment
  split
  · rename_i q mt _
    split
    all_goals
      rename_i heq
      have h1 := congrArg Prod.fst heq
      simp only at h1
      subst h1
    · exact frozen_of_eq id _ _ (insertPayment_frame sch now id q mt (some now) s).1
    · exact frozen_trans id _ _ _
        (frozen_of_eq id _ _ (insertPayment_frame sch now id q mt (some now) s).1)
        (addPaid_frozen now id q _)
  · exact frozen_refl id _
  · exact frozen_refl id _

/-- C22. The references of a work order are frozen, and an operation changes only the work
order it addresses.  For every operation that addresses a work order `target` (set status, add
work item, add material item, add payment; mounted handler or controller), the rows of
`work_orders` before and after the call correspond one to one and in order, each row keeps its
id, `booking_id`, `client_id` and `car_id`, and each row with an id other than `target` keeps
every field.  The same holds for `recalcTotal`, `recalcPaid`, `repo.recalcTotals`,
`repo.updateWorkOrderStatus` and `repo.addPayment` called with `id`.  The two creating operations
leave every existing row as it was and in place. -/
theorem references_frozen (rt : JsRuntime) (sch : Schema) (now : Nat) (s : Store)
    (req : Request) (op : Op) (id : Nat) (st : String) (a : JsNumber) (m : JsValue) :
    (∀ target, op.target rt req = some target →
        Frozen target s.work_orders (op.run rt sch now s req).store.work_orders)
    ∧ (op.target rt req = none →
        ∃ added, (op.run rt sch now s req).store.work_orders = s.work_orders ++ added)
    ∧ Frozen id s.work_orders (Routes.recalcTotal now id s).work_orders
    ∧ Frozen id s.work_orders (Routes.recalcPaid now id s).work_orders
    ∧ Frozen id s.work_orders (Repo.recalcTotals now id s).1.work_orders
    ∧ Frozen id s.work_orders (Repo.updateWorkOrderStatus sch now id st s).1.work_orders
    ∧ Frozen id s.work_orders (Repo.addPayment rt sch now id a m s).1.work_orders := by
  refine ⟨?_, ?_, recalcTotal_frozen now id s, recalcPaid_frozen now id s,
    recalcTotal_frozen now id s, repo_updateWorkOrderStatus_frozen sch now id st s,
    repo_addPayment_frozen rt sch now id a m s⟩
  · intro target ht
    obtain ⟨stmts, h1, h2⟩ := op_run_statements rt sch now s req op
    rw [h1]
    rw [ht] at h2
    exact runAll_frozen target stmts s h2
  · intro ht
    obtain ⟨stmts, h1, h2⟩ := op_run_statements rt sch now s req op
    rw [h1]
    rw [ht] at h2
    exact runAll_keeps_rows stmts s h2

theorem references_frozen_witness :
    Op.target decimalRuntime reopenRequest .patchStatus = some 2
    ∧ Frozen 2 sampleStore.work_orders
        (Op.run decimalRuntime strictSchema 20 sampleStore reopenRequest
          .patchStatus).store.work_orders
    ∧ Op.target decimalRuntime createRequest .postWorkOrder = none
    ∧ ∃ added, (Op.run decimalRuntime strictSchema 20 bookedStore createRequest
          .postWorkOrder).store.work_orders = bookedStore.work_orders ++ added :=
  ⟨by decide!,
    (references_frozen decimalRuntime strictSchema 20 sampleStore reopenRequest .patchStatus 2
      "closed" (.finite 1) .undefined).1 2 (by decide!),
    rfl,
    (references_frozen decimalRuntime strictSchema 20 bookedStore createRequest .postWorkOrder 2
      "closed" (.finite 1) .undefined).2.1 rfl⟩

/-! ## Theorems: the append-only ledger -/

/-- C23. The ledger is append-only.  In a store whose id sequences are ahead of the ids in
use (an empty ledger is such a store, and every operation keeps the sequences ahead), every
mutating operation, that is the five mounted handlers, the five functions of the controller and
the functions `createAudit`, `recalcTotals`, `createWorkOrderFromBooking`,
`updateWorkOrderStatus`, `addWorkItem`, `addMaterialItem` and `addPayment` of the repository,
leaves each of the tables `work_items`, `material_items`, `payments` and `audit_log` equal to
the table before followed by added rows, and each added row has an id larger than every id the
table held before. -/
theorem ledger_append_only (rt : JsRuntime) (sch : Schema) (now : Nat) (s : Store)
    (req : Request) (op : Op) (id entity_id : Nat) (entity action name st : String)
    (details : List (String × JsValue)) (mid : Option Nat) (q p a : JsNumber)
    (m d : JsValue) (hs : s.SeqAhead) :
    (LedgerExtends s (op.run rt sch now s req).store
      ∧ (op.run rt sch now s req).store.SeqAhead)
    ∧ (LedgerExtends s (Repo.createAudit now entity entity_id action details s)
      ∧ (Repo.createAudit now entity entity_id action details s).SeqAhead)
    ∧ (LedgerExtends s (Repo.recalcTotals now id s).1
      ∧ (Repo.recalcTotals now id s).1.SeqAhead)
    ∧ (LedgerExtends s (Repo.createWorkOrderFromBooking rt now id d s).1
      ∧ (Repo.createWorkOrderFromBooking rt now id d s).1.SeqAhead)
    ∧ (LedgerExtends s (Repo.updateWorkOrderStatus sch now id st s).1
      ∧ (Repo.updateWorkOrderStatus sch now id st s).1.SeqAhead)
    ∧ (LedgerExtends s (Repo.addWorkItem sch id name q p s).1
      ∧ (Repo.addWorkItem sch id name q p s).1.SeqAhead)
    ∧ (LedgerExtends s (Repo.addMaterialItem sch id mid name q p s).1
      ∧ (Repo.addMaterialItem sch id mid name q p s).1.SeqAhead)
    ∧ (LedgerExtends s (Repo.addPayment rt sch now id a m s).1
      ∧ (Repo.addPayment rt sch now id a m s).1.SeqAhead) :=
  ⟨ledgerExtends_of_appendOnly _ _ (op_run_appendOnly rt sch now s req op) hs,
    ledgerExtends_of_appendOnly _ _ (insertAudit_appendOnly now entity entity_id action details s)
      hs,
    ledgerExtends_of_appendOnly _ _ (repo_recalcTotals_appendOnly now id s) hs,
    ledgerExtends_of_appendOnly _ _ (repo_createWorkOrderFromBooking_appendOnly rt now id d s) hs,
    ledgerExtends_of_appendOnly _ _ (repo_updateWorkOrderStatus_appendOnly sch now id st s) hs,
    ledgerExtends_of_appendOnly _ _ (repo_addWorkItem_appendOnly sch id name q p s) hs,
    ledgerExtends_of_appendOnly _ _ (repo_addMaterialItem_appendOnly sch id mid name q p s) hs,
    ledgerExtends_of_appendOnly _ _ (repo_addPayment_appendOnly rt sch now id a m s) hs⟩

theorem sampleStore_seqAhead : sampleStore.SeqAhead := by
  unfold Store.SeqAhead sampleStore
  simp

theorem ledger_append_only_witness :
    sampleStore.SeqAhead
    ∧ LedgerExtends sampleStore
        (Op.run decimalRuntime strictSchema 20 sampleStore paymentRequest .postPayment).store
    ∧ (Op.run decimalRuntime strictSchema 20 sampleStore paymentRequest
        .postPayment).store.payments.map (fun r => r.id) = [1, 2, 3, 4] :=
  ⟨sampleStore_seqAhead,
    (ledger_append_only decimalRuntime strictSchema 20 sampleStore paymentRequest .postPayment
      1 1 "work_order" "payment" "Oil" "closed" [] none (.finite 1) (.finite 1) (.finite 1)
      .undefined .undefined sampleStore_seqAhead).1.1,
    by decide!⟩

/-! ## Theorems: signs in reachable stores -/

/-- C24. In every store reachable from an empty ledger (no work order, item, payment or audit
entry; bookings and sequences arbitrary) by calls of the five mounted handlers, every work item
and every material item has `qty > 0` and `unit_price ≥ 0`, every payment has `amount > 0`, and
every work order has `total_amount ≥ 0` and `paid_amount ≥ 0`. -/
theorem mounted_reachable_signs (rt : JsRuntime) (sch : Schema) (s : Store)
    (h : MountedReachable rt sch s) :
    (∀ i ∈ s.work_items, 0 < i.qty ∧ 0 ≤ i.unit_price)
    ∧ (∀ i ∈ s.material_items, 0 < i.qty ∧ 0 ≤ i.unit_price)
    ∧ (∀ p ∈ s.payments, 0 < p.amount)
    ∧ (∀ w ∈ s.work_orders, 0 ≤ w.total_amount ∧ 0 ≤ w.paid_amount) := by
  induction h with
  | init s h => exact signsOk_of_emptyLedger s h
  | step s op now req _ _ ih => exact op_run_signsOk rt sch now s req op ih

theorem mounted_reachable_signs_witness :
    MountedReachable decimalRuntime strictSchema (paidStore strictSchema)
    ∧ (paidStore strictSchema).work_items.map (fun i => (i.qty, i.unit_price)) = [(1, 2500)]
    ∧ (paidStore strictSchema).payments.map (fun p => p.amount) = [5700]
    ∧ (∀ w ∈ (paidStore strictSchema).work_orders, 0 ≤ w.total_amount ∧ 0 ≤ w.paid_amount) :=
  have hr : MountedReachable decimalRuntime strictSchema (paidStore strictSchema) :=
    MountedReachable.step _ .postPayment 13 paymentRequest rfl
      (MountedReachable.step _ .postMaterialItem 12 materialItemRequest rfl
        (MountedReachable.step _ .postWorkItem 11 workItemRequest rfl
          (MountedReachable.step _ .postWorkOrder 10 createRequest rfl
            (MountedReachable.init bookedStore ⟨rfl, rfl, rfl, rfl, rfl⟩))))
  ⟨hr, by decide!, by decide!,
    (mounted_reachable_signs decimalRuntime strictSchema (paidStore strictSchema) hr).2.2.2⟩

/-! ## Theorems: the status and method of a payment -/

theorem insertPayment_error (sch : Schema) (now id : Nat) (a : ℚ) (m : String)
    (pa : Option Nat) (s s1 : Store) (e : DbError)
    (h : Db.insertPayment sch now id a m pa s = (s1, .error e)) :
    s1.payments = s.payments := by
  unfold Db.insertPayment at h
  split at h
  · have h1 := congrArg Prod.fst h
    simp only at h1
    subst h1
    rfl
  split at h
  · have h1 := congrArg Prod.fst h
    simp only at h1
    subst h1
    rfl
  · simp at h

theorem insertPayment_ok (sch : Schema) (now id : Nat) (a : ℚ) (m : String)
    (pa : Option Nat) (s s1 : Store) (row : Payment)
    (h : Db.insertPayment sch now id a m pa s = (s1, .ok row)) :
    s1.payments = s.payments ++ [row] ∧ row.status = "paid" ∧ row.method = m
      ∧ row.amount = a ∧ row.work_order_id = id
      ∧ (sch.method_check = true → m ∈ methodValues) := by
  unfold Db.insertPayment at h
  split at h
  · simp at h
  split at h
  · simp at h
  · rename_i hc
    simp only [Prod.mk.injEq, Except.ok.injEq] at h
    obtain ⟨rfl, rfl⟩ := h
    refine ⟨rfl, rfl, rfl, rfl, rfl, ?_⟩
    intro hm
    simpa [hm] using hc

/-- C25, the code at the failing input.  On a schema that does not restrict `payments.method`,
the request `POST /work-orders/1/payments` with amount 100 and method bitcoin is answered 201
by the mounted handler and by the controller, and a payment with method bitcoin and status
paid is inserted.  The comment above the mounted handler lists the method as one of cash, card
and transfer; no code path compares the method of the request with the three. -/
theorem unlisted_method_inserted :
    (Routes.postPayment decimalRuntime laxSchema 20 sampleStore
        bitcoinPaymentRequest).response.status = 201
    ∧ (Routes.postPayment decimalRuntime laxSchema 20 sampleStore
        bitcoinPaymentRequest).store.payments.map (fun p => (p.id, p.method, p.status))
        = [(1, "cash", "paid"), (2, "card", "pending"), (3, "cash", "paid"),
            (4, "bitcoin", "paid")]
    ∧ (Controller.addPayment decimalRuntime laxSchema 20 sampleStore
        bitcoinPaymentRequest).response.status = 201
    ∧ (Controller.addPayment decimalRuntime laxSchema 20 sampleStore
        bitcoinPaymentRequest).store.payments.map (fun p => (p.id, p.method, p.status))
        = [(1, "cash", "paid"), (2, "card", "pending"), (3, "cash", "paid"),
            (4, "bitcoin", "paid")] := by
  decide!

/-! ## Theorems: the material reference of a material item -/

/-- C26. The mounted handler of `POST /work-orders/:id/material-items` never reads
`material_id`.  On the sample store, the request naming material 5 is answered 201 with a row
whose `material_id` is `NULL`, and the request whose `material_id` is -3 is answered 201 as
well and inserts a row; `addMaterialItem` of the controller, given the same two requests,
stores material 5 for the first and answers 400 to the second, inserting nothing. -/
theorem mounted_material_id_dropped :
    (Routes.postMaterialItem decimalRuntime strictSchema 20 sampleStore
        materialRefRequest).response
      = ⟨201, .materialItem ⟨2, 1, none, "Oil", 4, 800⟩⟩
    ∧ (Routes.postMaterialItem decimalRuntime strictSchema 20 sampleStore
        materialRefRequest).store.material_items.map (fun i => (i.id, i.material_id))
      = [(1, none), (2, none)]
    ∧ (Routes.postMaterialItem decimalRuntime strictSchema 20 sampleStore
        badMaterialRefRequest).response.status = 201
    ∧ (Routes.postMaterialItem decimalRuntime strictSchema 20 sampleStore
        badMaterialRefRequest).store.material_items.map (fun i => (i.id, i.material_id))
      = [(1, none), (2, none)]
    ∧ (Controller.addMaterialItem decimalRuntime strictSchema 20 sampleStore
        materialRefRequest).store.material_items.map (fun i => (i.id, i.material_id))
      = [(1, none), (2, some 5)]
    ∧ (Controller.addMaterialItem decimalRuntime strictSchema 20 sampleStore
        badMaterialRefRequest).response.status = 400
    ∧ (Controller.addMaterialItem decimalRuntime strictSchema 20 sampleStore
        badMaterialRefRequest).store.material_items = sampleStore.material_items := by
  decide!

/-! ## Theorems: the paid amount kept by the repository -/

theorem specPaid_congr (s t : Store) (id : Nat) (h : t.payments = s.payments) :
    specPaid t id = specPaid s id := by
  unfold specPaid
  rw [h]

theorem specPaid_of_append (s t : Store) (id : Nat) (row : Payment)
    (h : t.payments = s.payments ++ [row]) (h1 : row.work_order_id = id)
    (h2 : row.status = "paid") : specPaid t id = specPaid s id + row.amount := by
  rw [← specPaid_append_paid s id row h1 h2]
  exact specPaid_congr _ _ id h

theorem insertPayment_paid_at (sch : Schema) (now id : Nat) (a : ℚ) (m : String)
    (pa pb : Option Nat) (s s1 : Store) (row : Payment)
    (h : Db.insertPayment sch now id a m pa s = (s1, .ok row)) :
    ∃ t r, Db.insertPayment sch now id a m pb s = (t, .ok r) := by
  unfold Db.insertPayment at h ⊢
  split at h
  · simp at h
  split at h
  · simp at h
  · rename_i h1 h2
    rw [if_neg h1, if_neg h2]
    exact ⟨_, _, rfl⟩

/-- C28. `repo.addPayment` preserves the paid invariant.  In a store where every work order
with the id has a `paid_amount` equal to the sum of the amounts of its payments with status
paid, the same holds after `repo.addPayment`, whether the call inserts a payment or fails; and
when it returns a payment row, that row has the amount given and status paid, is appended to
`payments`, and the table `work_orders` is the one that the INSERT of the mounted handler
followed by `recalcPaid` leaves. -/
theorem repo_addPayment_keeps_paid (rt : JsRuntime) (sch : Schema) (now id : Nat)
    (a : JsNumber) (m : JsValue) (s : Store)
    (hinv : ∀ w ∈ s.work_orders, w.id = id → w.paid_amount = specPaid s id) :
    (∀ w ∈ (Repo.addPayment rt sch now id a m s).1.work_orders, w.id = id →
        w.paid_amount = specPaid (Repo.addPayment rt sch now id a m s).1 id)
    ∧ (∀ row, (Repo.addPayment rt sch now id a m s).2 = .ok row →
        ∃ q mt, a = .finite q ∧ (m.or (.string "cash")).pgParam rt = some mt
          ∧ row.amount = q ∧ row.status = "paid"
          ∧ (Repo.addPayment rt sch now id a m s).1.payments = s.payments ++ [row]
          ∧ (Repo.addPayment rt sch now id a m s).1.work_orders
            = (Routes.recalcPaid now id
                (Db.insertPayment sch now id q mt none s).1).work_orders) := by
  unfold Repo.addPayment
  split
  · rename_i q mt hmt
    split
    · rename_i s1 e heq
      have hp := insertPayment_error _ _ _ _ _ _ _ _ _ heq
      have hw := (insertPayment_frame sch now id q mt (some now) s).1
      rw [heq] at hw
      refine ⟨?_, ?_⟩
      · intro w hmem hid
        have hmem2 : w ∈ s1.work_orders := hmem
        rw [hw] at hmem2
        rw [hinv w hmem2 hid]
        exact (specPaid_congr s s1 id hp).symm
      · intro row hrow
        simp at hrow
    · rename_i s1 row heq
      obtain ⟨h1, h2, h3, h4, h5, _⟩ := insertPayment_ok _ _ _ _ _ _ _ _ _ heq
      have hw := (insertPayment_frame sch now id q mt (some now) s).1
      rw [heq] at hw
      simp only at hw
      refine ⟨?_, ?_⟩
      · intro w hmem hid
        have hmem2 : w ∈ s1.work_orders.map (fun w =>
            if w.id = id then { w with paid_amount := w.paid_amount + q, updated_at := now }
            else w) := hmem
        rw [hw] at hmem2
        obtain ⟨v, hv, rfl⟩ := List.mem_map.mp hmem2
        have hsp : specPaid
            { s1 with
              work_orders := s1.work_orders.map fun w =>
                if w.id = id then { w with paid_amount := w.paid_amount + q, updated_at := now }
                else w } id = specPaid s id + row.amount :=
          specPaid_of_append s _ id row h1 h5 h2
        show _ = specPaid _ id
        rw [hsp, h4]
        by_cases hvid : v.id = id
        · simp only [hvid, if_true]
          rw [hinv v hv hvid]
        · simp only [hvid, if_false] at hid
      · intro r hr
        have hr2 : row = r := by simpa using hr
        subst hr2
        obtain ⟨t, r2, heq2⟩ := insertPayment_paid_at sch now id q mt (some now) none s s1 row heq
        obtain ⟨g1, g2, _, g4, g5, _⟩ := insertPayment_ok _ _ _ _ _ _ _ _ _ heq2
        have gw := (insertPayment_frame sch now id q mt none s).1
        rw [heq2] at gw
        simp only at gw
        refine ⟨q, mt, rfl, hmt, h4, h2, h1, ?_⟩
        rw [heq2]
        show List.map _ s1.work_orders = _
        rw [recalcPaid_work_orders, gw, hw]
        apply List.map_congr_left
        intro v hv
        by_cases hvid : v.id = id
        · simp only [hvid, if_true]
          rw [hinv v hv hvid, specPaid_of_append s t id r2 g1 g5 g2, g4]
        · simp only [hvid, if_false]
  · refine ⟨hinv, ?_⟩
    intro row hrow
    simp at hrow
  · refine ⟨hinv, ?_⟩
    intro row hrow
    simp at hrow

theorem repo_addPayment_keeps_paid_witness :
    (∀ w ∈ sampleStore.work_orders, w.id = 2 → w.paid_amount = specPaid sampleStore 2)
    ∧ (∀ w ∈ (Repo.addPayment decimalRuntime strictSchema 20 2 (.finite 60) (.string "card")
          sampleStore).1.work_orders,
        w.id = 2 → w.paid_amount
          = specPaid (Repo.addPayment decimalRuntime strictSchema 20 2 (.finite 60)
              (.string "card") sampleStore).1 2)
    ∧ (Repo.addPayment decimalRuntime strictSchema 20 2 (.finite 60) (.string "card")
          sampleStore).1.work_orders.map (fun w => (w.id, w.paid_amount))
        = [(1, 98), (2, 100)] :=
  ⟨by decide!,
    (repo_addPayment_keeps_paid decimalRuntime strictSchema 20 2 (.finite 60) (.string "card")
      sampleStore (by decide!)).1,
    by decide!⟩

/-! ## Theorems: a failing audit statement -/

theorem faulty_postWorkOrder_true (rt : JsRuntime) (now : Nat) (s : Store) (req : Request) :
    Faulty.postWorkOrder true rt now s req = Routes.postWorkOrder rt now s req := by
  unfold Faulty.postWorkOrder Routes.postWorkOrder
  simp only [Db.insertAuditOrRaise, if_true]

theorem faulty_patchStatus_true (rt : JsRuntime) (sch : Schema) (now : Nat) (s : Store)
    (req : Request) :
    Faulty.patchStatus true rt sch now s req = Routes.patchStatus rt sch now s req := by
  unfold Faulty.patchStatus Routes.patchStatus
  simp only [Db.insertAuditOrRaise, if_true]

theorem faulty_postWorkItem_true (rt : JsRuntime) (sch : Schema) (now : Nat) (s : Store)
    (req : Request) :
    Faulty.postWorkItem true rt sch now s req = Routes.postWorkItem rt sch now s req := by
  unfold Faulty.postWorkItem Routes.postWorkItem
  simp only [Db.insertAuditOrRaise, if_true]

theorem faulty_postMaterialItem_true (rt : JsRuntime) (sch : Schema) (now : Nat) (s : Store)
    (req : Request) :
    Faulty.postMaterialItem true rt sch now s req = Routes.postMaterialItem rt sch now s req := by
  unfold Faulty.postMaterialItem Routes.postMaterialItem
  simp only [Db.insertAuditOrRaise, if_true]

theorem faulty_postPayment_true (rt : JsRuntime) (sch : Schema) (now : Nat) (s : Store)
    (req : Request) :
    Faulty.postPayment true rt sch now s req = Routes.postPayment rt sch now s req := by
  unfold Faulty.postPayment Routes.postPayment
  simp only [Db.insertAuditOrRaise, if_true]

theorem faulty_postWorkOrder_false (rt : JsRuntime) (now : Nat) (s : Store) (req : Request) :
    AuditLost s (Routes.postWorkOrder rt now s req)
      (Faulty.postWorkOrder false rt now s req) := by
  unfold Faulty.postWorkOrder Routes.postWorkOrder AuditLost
  simp only [Db.insertAuditOrRaise]
  split
  · exact Or.inl ⟨by simp, rfl⟩
  split
  · exact Or.inl ⟨by simp, rfl⟩
  split
  · rename_i heq
    simp only [heq]
    exact Or.inl ⟨by simp, trivial⟩
  split
  · rename_i heq
    simp only [heq]
    exact Or.inl ⟨by simp [internalError], trivial⟩
  · rename_i heq
    simp only [heq]
    refine Or.inr ⟨by simp, rfl, ?_, _, rfl⟩
    exact (insertWorkOrder_ok _ _ _ _ _ _ _ _ _ _ _ heq).2.1

theorem faulty_patchStatus_false (rt : JsRuntime) (sch : Schema) (now : Nat) (s : Store)
    (req : Request) :
    AuditLost s (Routes.patchStatus rt sch now s req)
      (Faulty.patchStatus false rt sch now s req) := by
  unfold Faulty.patchStatus Routes.patchStatus AuditLost
  simp only [Db.insertAuditOrRaise]
  split
  · exact Or.inl ⟨by simp, rfl⟩
  split
  · exact Or.inl ⟨by simp, rfl⟩
  split
  · rename_i heq
    simp only [heq]
    exact Or.inl ⟨by simp [internalError], trivial⟩
  split
  · rename_i heq
    simp only [heq]
    exact Or.inl ⟨by simp [internalError], trivial⟩
  · rename_i heq
    simp only [heq]
    exact Or.inl ⟨by simp, trivial⟩
  · rename_i heq
    simp only [heq]
    refine Or.inr ⟨by simp, rfl, ?_, _, rfl⟩
    have h1 := congrArg Prod.fst heq
    simp only at h1
    subst h1
    exact updateStatus_audit_log _ _ _ _ _

theorem faulty_postWorkItem_false (rt : JsRuntime) (sch : Schema) (now : Nat) (s : Store)
    (req : Request) :
    AuditLost s (Routes.postWorkItem rt sch now s req)
      (Faulty.postWorkItem false rt sch now s req) := by
  unfold Faulty.postWorkItem Routes.postWorkItem AuditLost
  simp only [Db.insertAuditOrRaise]
  split
  · exact Or.inl ⟨by simp, rfl⟩
  split
  · exact Or.inl ⟨by simp, rfl⟩
  split
  · exact Or.inl ⟨by simp, rfl⟩
  split
  · exact Or.inl ⟨by simp, rfl⟩
  split
  · rename_i heq
    simp only [heq]
    exact Or.inl ⟨by simp [internalError], trivial⟩
  · rename_i heq
    simp only [heq]
    refine Or.inr ⟨by simp, rfl, ?_, _, rfl⟩
    have h1 := congrArg Prod.fst heq
    simp only at h1
    subst h1
    exact (insertWorkItem_frame _ _ _ _ _ _).2

theorem faulty_postMaterialItem_false (rt : JsRuntime) (sch : Schema) (now : Nat) (s : Store)
    (req : Request) :
    AuditLost s (Routes.postMaterialItem rt sch now s req)
      (Faulty.postMaterialItem false rt sch now s req) := by
  unfold Faulty.postMaterialItem Routes.postMaterialItem AuditLost
  simp only [Db.insertAuditOrRaise]
  split
  · exact Or.inl ⟨by simp, rfl⟩
  split
  · exact Or.inl ⟨by simp, rfl⟩
  split
  · exact Or.inl ⟨by simp, rfl⟩
  split
  · exact Or.inl ⟨by simp, rfl⟩
  split
  · rename_i heq
    simp only [heq]
    exact Or.inl ⟨by simp [internalError], trivial⟩
  · rename_i heq
    simp only [heq]
    refine Or.inr ⟨by simp, rfl, ?_, _, rfl⟩
    have h1 := congrArg Prod.fst heq
    simp only at h1
    subst h1
    exact (insertMaterialItem_frame _ _ _ _ _ _ _).2

theorem faulty_postPayment_false (rt : JsRuntime) (sch : Schema) (now : Nat) (s : Store)
    (req : Request) :
    AuditLost s (Routes.postPayment rt sch now s req)
      (Faulty.postPayment false rt sch now s req) := by
  unfold Faulty.postPayment Routes.postPayment AuditLost
  simp only [Db.insertAuditOrRaise]
  split
  · exact Or.inl ⟨by simp, rfl⟩
  split
  · exact Or.inl ⟨by simp, rfl⟩
  split
  · rename_i heq
    simp only [heq]
    exact Or.inl ⟨by simp [internalError], trivial⟩
  · rename_i heq
    simp only [heq]
    refine Or.inr ⟨by simp, rfl, ?_, _, rfl⟩
    have h1 := congrArg Prod.fst heq
    simp only at h1
    subst h1
    exact (insertPayment_frame _ _ _ _ _ _ _).2

/-- The example of the work-item handler: what the call under a failing audit statement
leaves when the call itself would be answered 201. -/
theorem faulty_postWorkItem_store (rt : JsRuntime) (sch : Schema) (now : Nat) (s : Store)
    (req : Request) (h : (Routes.postWorkItem rt sch now s req).response.status = 201) :
    (Faulty.postWorkItem false rt sch now s req).response.status = 500
    ∧ (Faulty.postWorkItem false rt sch now s req).store.audit_log = s.audit_log
    ∧ (∃ row : WorkItem, (Routes.postWorkItem rt sch now s req).response.body = .workItem row
        ∧ (Faulty.postWorkItem false rt sch now s req).store.work_items = s.work_items ++ [row])
    ∧ (Faulty.postWorkItem false rt sch now s req).store.material_items = s.material_items
    ∧ (∀ w ∈ (Faulty.postWorkItem false rt sch now s req).store.work_orders,
        w.id = ((Routes.toInt rt (.string req.id)).getD 0).toNat →
          w.total_amount = specTotal (Faulty.postWorkItem false rt sch now s req).store w.id) := by
  unfold Faulty.postWorkItem Routes.postWorkItem at *
  simp only [Db.insertAuditOrRaise] at *
  split
  · rename_i hc; simp [hc] at h
  rename_i hc1
  split
  · rename_i hc; simp [hc1, hc] at h
  rename_i hc2
  split
  · rename_i hc; simp [hc1, hc2, hc] at h
  rename_i hc3
  split
  · rename_i hc; simp [hc1, hc2, hc3, hc] at h
  rename_i hc4
  split
  · rename_i heq; simp [hc1, hc2, hc3, hc4, heq, internalError] at h
  · rename_i s1 row heq
    simp only [hc1, hc2, hc3, hc4, heq, if_false]
    obtain ⟨h1, _⟩ := insertWorkItem_ok _ _ _ _ _ _ _ _ heq
    have h2 : s1.material_items = s.material_items := by
      have h3 := congrArg Prod.fst heq
      simp only at h3
      subst h3
      unfold Db.insertWorkItem
      split <;> rfl
    have h4 : s1.audit_log = s.audit_log := by
      have h3 := congrArg Prod.fst heq
      simp only at h3
      subst h3
      exact (insertWorkItem_frame _ _ _ _ _ _).2
    refine ⟨rfl, h4, ⟨row, rfl, h1⟩, h2, ?_⟩
    intro w hw hid
    rw [hid]
    exact recalcTotal_total now _ s1 w hw hid

/-- C29. The primary write and the audit append are not atomic.  The five mounted handlers
are modelled a second time with an audit statement that may raise; when it does not raise,
each is the handler itself.  When it raises in a call that would otherwise be answered 200 or
201, the call is answered 500, the audit log is the one before the call, and the store is the
store of the successful call less the audit entry: the primary write stays.  For
`POST /work-orders/:id/work-items` in particular: the item row of the response is appended to
`work_items`, and every work order with the id of the path has a `total_amount` equal to the
sum over its items in that store. -/
theorem audit_failure_keeps_write (rt : JsRuntime) (sch : Schema) (now : Nat) (s : Store)
    (req : Request) (op : Op) (hm : op.mounted = true) :
    Faulty.run true rt sch now s req op = op.run rt sch now s req
    ∧ AuditLost s (op.run rt sch now s req) (Faulty.run false rt sch now s req op)
    ∧ ((Routes.postWorkItem rt sch now s req).response.status = 201 →
        (Faulty.postWorkItem false rt sch now s req).response.status = 500
        ∧ (Faulty.postWorkItem false rt sch now s req).store.audit_log = s.audit_log
        ∧ (∃ row : WorkItem,
            (Routes.postWorkItem rt sch now s req).response.body = .workItem row
            ∧ (Faulty.postWorkItem false rt sch now s req).store.work_items
                = s.work_items ++ [row])
        ∧ (Faulty.postWorkItem false rt sch now s req).store.material_items = s.material_items
        ∧ (∀ w ∈ (Faulty.postWorkItem false rt sch now s req).store.work_orders,
            w.id = ((Routes.toInt rt (.string req.id)).getD 0).toNat →
              w.total_amount
                = specTotal (Faulty.postWorkItem false rt sch now s req).store w.id)) := by
  refine ⟨?_, ?_, faulty_postWorkItem_store rt sch now s req⟩
  · cases op
    · exact faulty_postWorkOrder_true rt now s req
    · exact faulty_patchStatus_true rt sch now s req
    · exact faulty_postWorkItem_true rt sch now s req
    · exact faulty_postMaterialItem_true rt sch now s req
    · exact faulty_postPayment_true rt sch now s req
    all_goals rfl
  · cases op
    · exact faulty_postWorkOrder_false rt now s req
    · exact faulty_patchStatus_false rt sch now s req
    · exact faulty_postWorkItem_false rt sch now s req
    · exact faulty_postMaterialItem_false rt sch now s req
    · exact faulty_postPayment_false rt sch now s req
    all_goals exact absurd hm (by decide)

theorem audit_failure_keeps_write_witness :
    Op.mounted .postWorkItem = true
    ∧ (Routes.postWorkItem decimalRuntime strictSchema 11 createdStore
        workItemRequest).response.status = 201
    ∧ (Faulty.postWorkItem false decimalRuntime strictSchema 11 createdStore
        workItemRequest).response.status = 500
    ∧ (Faulty.postWorkItem false decimalRuntime strictSchema 11 createdStore
        workItemRequest).store.audit_log = createdStore.audit_log
    ∧ (Faulty.postWorkItem false decimalRuntime strictSchema 11 createdStore
        workItemRequest).store.work_items.map (fun i => (i.id, i.qty, i.unit_price))
        = [(1, 1, 2500)]
    ∧ (Faulty.postWorkItem false decimalRuntime strictSchema 11 createdStore
        workItemRequest).store.work_orders.map (fun w => (w.id, w.total_amount))
        = [(1, 2500)] :=
  have h := (audit_failure_keeps_write decimalRuntime strictSchema 11 createdStore
    workItemRequest .postWorkItem rfl).2.2 (by decide!)
  ⟨rfl, by decide!, h.1, h.2.1, by decide!, by decide!⟩

/-! ## Theorems: the description of a created work order -/

theorem insertWorkOrder_description (now b c k : Nat) (d : Option String) (st : String)
    (t p : ℚ) (s s1 : Store) (row : WorkOrder)
    (h : Db.insertWorkOrder now b c k d st t p s = (s1, .ok row)) : row.description = d := by
  unfold Db.insertWorkOrder at h
  split at h
  · simp at h
  · simp only [Prod.mk.injEq, Except.ok.injEq] at h
    obtain ⟨_, rfl⟩ := h
    rfl

theorem postWorkOrder_description (rt : JsRuntime) (now : Nat) (s : Store) (req : Request)
    (row : WorkOrder) (h : (Routes.postWorkOrder rt now s req).response.body = .workOrder row) :
    row.description = none
      ∧ (Routes.postWorkOrder rt now s req).store.work_orders = s.work_orders ++ [row] := by
  unfold Routes.postWorkOrder at h ⊢
  simp only [] at h ⊢
  split at h
  · cases h
  rename_i hc1
  split at h
  · cases h
  rename_i hc2
  split at h
  · cases h
  rename_i bk tl hbk
  split at h
  · simp [internalError] at h
  · rename_i s1 row1 heq
    simp only [Body.workOrder.injEq] at h
    subst h
    rw [if_neg hc1, if_neg hc2]
    simp only [hbk, heq]
    exact ⟨insertWorkOrder_description _ _ _ _ _ _ _ _ _ _ _ heq,
      (insertWorkOrder_ok _ _ _ _ _ _ _ _ _ _ _ heq).1⟩

theorem createWorkOrderFromBooking_description (rt : JsRuntime) (now b : Nat) (d : JsValue)
    (s s1 : Store) (row : WorkOrder)
    (h : Repo.createWorkOrderFromBooking rt now b d s = (s1, .ok (some row))) :
    row.description = (if d.truthy then d.pgParam rt else none) := by
  unfold Repo.createWorkOrderFromBooking at h
  split at h
  · simp at h
  · split at h
    · simp at h
    · rename_i heq
      simp only [Prod.mk.injEq, Except.ok.injEq, Option.some.injEq] at h
      obtain ⟨rfl, rfl⟩ := h
      exact insertWorkOrder_description _ _ _ _ _ _ _ _ _ _ _ heq

/-- C30. The mounted handler of `POST /work-orders` does not depend on the description of the
request.  Two requests with the same `booking_id` field, whatever else they carry, have the same
outcome on the same store: the same response, the same store (inserted work order and audit
entry included) and the same statements; and the work order of a 201 response is appended with
description `NULL`.  `createWorkOrderFromBooking` of the repository, when it returns a row,
appends it with the description `description || null`: the text given when it is a string that
is not empty, `NULL` when it is absent, `null` or the empty string. -/
theorem mounted_create_ignores_description (rt : JsRuntime) (now bid : Nat) (s : Store)
    (req1 req2 : Request) (d : JsValue)
    (hreq : req1.field "booking_id" = req2.field "booking_id") :
    Routes.postWorkOrder rt now s req1 = Routes.postWorkOrder rt now s req2
    ∧ (∀ row, (Routes.postWorkOrder rt now s req1).response.body = .workOrder row →
        row.description = none
        ∧ (Routes.postWorkOrder rt now s req1).store.work_orders = s.work_orders ++ [row])
    ∧ (∀ row, (Repo.createWorkOrderFromBooking rt now bid d s).2 = .ok (some row) →
        (Repo.createWorkOrderFromBooking rt now bid d s).1.work_orders = s.work_orders ++ [row]
        ∧ row.description = (if d.truthy then d.pgParam rt else none)
        ∧ (∀ t : String, d = .string t → t ≠ "" → row.description = some t)
        ∧ (d = .undefined ∨ d = .null ∨ d = .string "" → row.description = none)) := by
  refine ⟨?_, ?_, ?_⟩
  · unfold Routes.postWorkOrder
    simp only [hreq]
  · intro row h
    exact postWorkOrder_description rt now s req1 row h
  · intro row h
    have hp : Repo.createWorkOrderFromBooking rt now bid d s
        = ((Repo.createWorkOrderFromBooking rt now bid d s).1, .ok (some row)) :=
      Prod.ext rfl h
    have h1 := createWorkOrderFromBooking_description rt now bid d s _ row hp
    have h2 := (createWorkOrderFromBooking_some rt now bid d s _ row hp).1
    refine ⟨h2, h1, ?_, ?_⟩
    · intro t ht hne
      rw [h1, ht]
      simp [JsValue.truthy, JsValue.pgParam, hne]
    · intro hd
      rw [h1]
      rcases hd with hd | hd | hd <;> rw [hd] <;> simp [JsValue.truthy, JsValue.pgParam]

theorem mounted_create_ignores_description_witness :
    createRequest.field "booking_id" = describedCreateRequest.field "booking_id"
    ∧ Routes.postWorkOrder decimalRuntime 10 bookedStore createRequest
        = Routes.postWorkOrder decimalRuntime 10 bookedStore describedCreateRequest
    ∧ (Routes.postWorkOrder decimalRuntime 10 bookedStore
        describedCreateRequest).store.work_orders.map (fun w => (w.id, w.description))
        = [(1, none)]
    ∧ (Repo.createWorkOrderFromBooking decimalRuntime 10 42 (.string "Brake noise")
        bookedStore).1.work_orders.map (fun w => (w.id, w.description))
        = [(1, some "Brake noise")]
    ∧ (Repo.createWorkOrderFromBooking decimalRuntime 10 42 (.string "")
        bookedStore).1.work_orders.map (fun w => (w.id, w.description))
        = [(1, none)] :=
  ⟨by decide!,
    (mounted_create_ignores_description decimalRuntime 10 42 bookedStore createRequest
      describedCreateRequest .undefined (by decide!)).1,
    by decide!, by decide!, by decide!⟩

/-! ## Theorems: status of a missing work order on a store with integer ids -/

theorem outOfRange_of_le (maxId id : Nat) (h : id ≤ maxId) : Db.outOfRange maxId id = false := by
  simp only [Db.outOfRange, decide_eq_false_iff_not, not_lt]
  exact h

theorem outOfRange_of_lt (maxId id : Nat) (h : maxId < id) : Db.outOfRange maxId id = true := by
  simp only [Db.outOfRange, decide_eq_true_eq]
  exact h

theorem ranged_patchStatus_in (maxId : Nat) (rt : JsRuntime) (sch : Schema) (now : Nat)
    (s : Store) (req : Request)
    (h : ((Routes.toInt rt (.string req.id)).getD 0).toNat ≤ maxId) :
    Ranged.patchStatus maxId rt sch now s req = Routes.patchStatus rt sch now s req := by
  unfold Ranged.patchStatus Routes.patchStatus
  simp only [outOfRange_of_le _ _ h, Bool.false_eq_true, if_false]

theorem ranged_patchWorkOrderStatus_in (maxId : Nat) (rt : JsRuntime) (sch : Schema) (now : Nat)
    (s : Store) (req : Request)
    (h : Controller.idOf ((JsValue.string req.id).toNumber rt) ≤ maxId) :
    Ranged.patchWorkOrderStatus maxId rt sch now s req
      = Controller.patchWorkOrderStatus rt sch now s req := by
  unfold Ranged.patchWorkOrderStatus Controller.patchWorkOrderStatus Ranged.updateWorkOrderStatus
  simp only [outOfRange_of_le _ _ h, Bool.false_eq_true, if_false]

/-- C11, counterexample.  The id 99999999999999999999 is a positive integer that no work order
of the sample store has, and closed is a recognised status; on a store whose id columns are
`bigint` (and all the more `integer`) the UPDATE raises, and the mounted handler and the
controller answer 500, not 404. -/
theorem huge_id_status_not_404 :
    (∀ w ∈ sampleStore.work_orders, w.id ≠ 99999999999999999999)
    ∧ (Ranged.patchStatus bigintMax decimalRuntime strictSchema 20 sampleStore
        hugeIdRequest).response.status = 500
    ∧ (Ranged.patchWorkOrderStatus bigintMax decimalRuntime strictSchema 20 sampleStore
        hugeIdRequest).response.status = 500
    ∧ (Ranged.patchStatus integerMax decimalRuntime strictSchema 20 sampleStore
        hugeIdRequest).response.status = 500
    ∧ (Ranged.patchWorkOrderStatus integerMax decimalRuntime strictSchema 20 sampleStore
        hugeIdRequest).response.status = 500 := by
  decide!

/-- C11, amended.  On a store whose id columns hold integers up to `maxId`: for a positive
integer id that no work order has and a recognised status, setting the status is answered 404
by the mounted `PATCH /work-orders/:id/status` handler and by `patchWorkOrderStatus` of the
controller when the id is within the range, and 500 when it is beyond; in both cases the store
(audit log included) stays as it was. -/
theorem status_of_missing_order_not_found (maxId : Nat) (rt : JsRuntime) (sch : Schema)
    (now : Nat) (s : Store) (req : Request) (id : Nat) (st : String) (hpos : 0 < id)
    (hid : (JsValue.string req.id).toNumber rt = .finite (id : ℚ))
    (hmiss : ∀ w ∈ s.work_orders, w.id ≠ id)
    (hst : req.field "status" = .string st) (hrec : st ∈ Controller.WORK_ORDER_STATUSES) :
    (id ≤ maxId →
        (Ranged.patchStatus maxId rt sch now s req).response.status = 404
        ∧ (Ranged.patchStatus maxId rt sch now s req).store = s
        ∧ (Ranged.patchWorkOrderStatus maxId rt sch now s req).response.status = 404
        ∧ (Ranged.patchWorkOrderStatus maxId rt sch now s req).store = s)
    ∧ (maxId < id →
        (Ranged.patchStatus maxId rt sch now s req).response.status = 500
        ∧ (Ranged.patchStatus maxId rt sch now s req).store = s
        ∧ (Ranged.patchWorkOrderStatus maxId rt sch now s req).response.status = 500
        ∧ (Ranged.patchWorkOrderStatus maxId rt sch now s req).store = s) := by
  have hint := toInt_of_toNumber rt _ id hid
  have hne := status_ne_empty st hrec
  constructor
  · intro hle
    have h1 : ((Routes.toInt rt (.string req.id)).getD 0).toNat ≤ maxId := by
      rw [hint]
      simpa using hle
    have h2 : Controller.idOf ((JsValue.string req.id).toNumber rt) ≤ maxId := by
      rw [hid, idOf_natCast]
      exact hle
    rw [ranged_patchStatus_in maxId rt sch now s req h1,
      ranged_patchWorkOrderStatus_in maxId rt sch now s req h2]
    exact patchStatus_of_missing rt sch now s req id st hpos hid hmiss hst hrec
  · intro hlt
    have ho := outOfRange_of_lt maxId id hlt
    refine ⟨?_, ?_, ?_, ?_⟩
    · simp [Ranged.patchStatus, hint, badId_natCast id hpos, hst, JsValue.truthy, hne,
        JsValue.pgParam, ho, internalError]
    · simp [Ranged.patchStatus, hint, badId_natCast id hpos, hst, JsValue.truthy, hne,
        JsValue.pgParam, ho]
    · simp [Ranged.patchWorkOrderStatus, hid, invalidId_natCast id hpos, idOf_natCast, hst,
        hrec, Ranged.updateWorkOrderStatus, ho, internalError]
    · simp [Ranged.patchWorkOrderStatus, hid, invalidId_natCast id hpos, idOf_natCast, hst,
        hrec, Ranged.updateWorkOrderStatus, ho]

theorem status_of_missing_order_not_found_witness :
    (99 : Nat) ≤ integerMax
    ∧ (Ranged.patchStatus integerMax decimalRuntime strictSchema 20 sampleStore
        closedStatusRequest).response.status = 404
    ∧ (Ranged.patchWorkOrderStatus integerMax decimalRuntime strictSchema 20 sampleStore
        closedStatusRequest).response.status = 404
    ∧ (Ranged.patchStatus integerMax decimalRuntime strictSchema 20 sampleStore
        closedStatusRequest).store = sampleStore :=
  have h := (status_of_missing_order_not_found integerMax decimalRuntime strictSchema 20
    sampleStore closedStatusRequest 99 "closed" (by decide) (by decide!) (by decide) rfl
    (by decide)).1 (by decide)
  ⟨by decide, h.1, h.2.2.1, h.2.1⟩

/-! ## Theorems: creation for a missing booking on a store with integer ids -/

theorem ranged_postWorkOrder_in (maxId : Nat) (rt : JsRuntime) (now : Nat) (s : Store)
    (req : Request)
    (h : ((Routes.toInt rt (req.field "booking_id")).getD 0).toNat ≤ maxId) :
    Ranged.postWorkOrder maxId rt now s req = Routes.postWorkOrder rt now s req := by
  unfold Ranged.postWorkOrder Routes.postWorkOrder
  simp only [Db.outOfRange, decide_eq_true_eq, if_neg (not_lt.mpr h)]

theorem ranged_createWorkOrder_in (maxId : Nat) (rt : JsRuntime) (now : Nat) (s : Store)
    (req : Request)
    (h : Controller.idOf ((req.field "booking_id").toNumber rt) ≤ maxId) :
    Ranged.createWorkOrder maxId rt now s req = Controller.createWorkOrder rt now s req := by
  unfold Ranged.createWorkOrder Controller.createWorkOrder Ranged.createWorkOrderFromBooking
  simp only [Db.outOfRange, decide_eq_true_eq, if_neg (not_lt.mpr h)]

/-- C13, counterexample.  The `booking_id` 99999999999999999999 is a positive integer that no
booking of the sample store has; on a store whose id columns are `bigint` (and all the more
`integer`) the first statement that binds it raises, and the mounted handler and the
controller answer 500, not 404. -/
theorem huge_booking_id_not_404 :
    (∀ b ∈ sampleStore.bookings, b.id ≠ 99999999999999999999)
    ∧ (Ranged.postWorkOrder bigintMax decimalRuntime 20 sampleStore
        hugeBookingRequest).response.status = 500
    ∧ (Ranged.createWorkOrder bigintMax decimalRuntime 20 sampleStore
        hugeBookingRequest).response.status = 500
    ∧ (Ranged.postWorkOrder integerMax decimalRuntime 20 sampleStore
        hugeBookingRequest).response.status = 500
    ∧ (Ranged.createWorkOrder integerMax decimalRuntime 20 sampleStore
        hugeBookingRequest).response.status = 500 := by
  decide!

/-- C13, amended.  On a store whose id columns hold integers up to `maxId`: for a positive
integer `booking_id` that no booking has, creating a work order leaves the store, with its work
orders and audit log, as it was, and is answered 404 when the `booking_id` is within the range
(in the mounted `POST /work-orders` handler, in a store whose work orders all reference a
booking, which every store reachable through the mutating operations is, and in
`createWorkOrder` of the controller, whose repository INSERT selects no row) and 500 when it
is beyond. -/
theorem create_for_missing_booking_not_found (maxId : Nat) (rt : JsRuntime) (now : Nat)
    (s : Store) (req : Request) (bid : Nat) (hpos : 0 < bid)
    (hid : (req.field "booking_id").toNumber rt = .finite (bid : ℚ))
    (hmiss : ∀ b ∈ s.bookings, b.id ≠ bid) :
    (bid ≤ maxId →
        ((∀ w ∈ s.work_orders, ∃ b ∈ s.bookings, b.id = w.booking_id) →
            (Ranged.postWorkOrder maxId rt now s req).response.status = 404
            ∧ (Ranged.postWorkOrder maxId rt now s req).store = s)
        ∧ (∀ sch : Schema, Reachable rt sch s →
            (Ranged.postWorkOrder maxId rt now s req).response.status = 404
            ∧ (Ranged.postWorkOrder maxId rt now s req).store = s)
        ∧ (Ranged.createWorkOrder maxId rt now s req).response.status = 404
        ∧ (Ranged.createWorkOrder maxId rt now s req).store = s)
    ∧ (maxId < bid →
        (Ranged.postWorkOrder maxId rt now s req).response.status = 500
        ∧ (Ranged.postWorkOrder maxId rt now s req).store = s
        ∧ (Ranged.createWorkOrder maxId rt now s req).response.status = 500
        ∧ (Ranged.createWorkOrder maxId rt now s req).store = s) := by
  have hint := toInt_of_toNumber rt _ bid hid
  constructor
  · intro hle
    have h1 : ((Routes.toInt rt (req.field "booking_id")).getD 0).toNat ≤ maxId := by
      rw [hint]
      simpa using hle
    have h2 : Controller.idOf ((req.field "booking_id").toNumber rt) ≤ maxId := by
      rw [hid, idOf_natCast]
      exact hle
    rw [ranged_postWorkOrder_in maxId rt now s req h1,
      ranged_createWorkOrder_in maxId rt now s req h2]
    exact create_of_missing_booking rt now s req bid hpos hid hmiss
  · intro hlt
    have ho := outOfRange_of_lt maxId bid hlt
    refine ⟨?_, ?_, ?_, ?_⟩
    · simp [Ranged.postWorkOrder, hint, badId_natCast bid hpos, ho, internalError]
    · simp [Ranged.postWorkOrder, hint, badId_natCast bid hpos, ho]
    · simp [Ranged.createWorkOrder, hid, invalidId_natCast bid hpos, idOf_natCast,
        Ranged.createWorkOrderFromBooking, ho, internalError]
    · simp [Ranged.createWorkOrder, hid, invalidId_natCast bid hpos, idOf_natCast,
        Ranged.createWorkOrderFromBooking, ho]

theorem create_for_missing_booking_not_found_witness :
    (77 : Nat) ≤ integerMax
    ∧ (Ranged.postWorkOrder integerMax decimalRuntime 20 sampleStore
        missingBookingRequest).response.status = 404
    ∧ (Ranged.createWorkOrder integerMax decimalRuntime 20 sampleStore
        missingBookingRequest).response.status = 404 :=
  have h := (create_for_missing_booking_not_found integerMax decimalRuntime 20 sampleStore
    missingBookingRequest 77 (by decide) (by decide!) (by decide)).1 (by decide)
  ⟨by decide, (h.1 (by decide)).1, h.2.2.1⟩

/-! ## Theorems: the full aggregate on a store with integer ids -/

theorem ranged_getFull_in (maxId : Nat) (rt : JsRuntime) (s : Store) (req : Request)
    (h : ((Routes.toInt rt (.string req.id)).getD 0).toNat ≤ maxId) :
    Ranged.getFull maxId rt s req = Routes.getFull rt s req := by
  unfold Ranged.getFull
  simp only [Db.outOfRange, decide_eq_true_eq, if_neg (not_lt.mpr h)]
  split
  · rename_i hb
    unfold Routes.getFull
    simp only [hb, if_true]
  · rfl

/-- C19, counterexample.  No work order of the sample store has the id 99999999999999999999; on
a store whose id columns are `bigint` (and all the more `integer`) the SELECT raises: the
mounted handler answers 500, not 404, and the repository function throws instead of returning
`null`. -/
theorem huge_id_full_not_404 :
    (∀ w ∈ sampleStore.work_orders, w.id ≠ 99999999999999999999)
    ∧ (Ranged.getFull bigintMax decimalRuntime sampleStore hugeIdRequest).status = 500
    ∧ (Ranged.getFull integerMax decimalRuntime sampleStore hugeIdRequest).status = 500
    ∧ Ranged.getWorkOrderFull bigintMax 99999999999999999999 sampleStore
        = .error { code := "22003" }
    ∧ Ranged.getWorkOrderFull integerMax 99999999999999999999 sampleStore
        = .error { code := "22003" } :=
  ⟨by decide, by decide!, by decide!, rfl, rfl⟩

/-- C19, amended.  For a positive integer id: when a work order has the id, the mounted
`GET /work-orders/:id/full` handler answers 200 with a work order of that id and the four
lists, and, when a work order with the id is not archived, `repo.getWorkOrderFull` returns a
non-archived work order of that id and the four lists; in both, the lists are exactly the work
items, material items and payments whose `work_order_id` is the id and the audit entries with
entity `work_order` and that `entity_id`, each sorted by id ascending.  On a store whose id
columns hold integers up to `maxId`: for an id within the range the handler and the repository
function are the ones above, and when no work order has the id the handler answers 404 and the
repository function returns `null`; for an id beyond the range the SELECT raises, the handler
answers 500 and the repository function throws. -/
theorem getFull_returns_aggregate (maxId : Nat) (rt : JsRuntime) (s : Store) (req : Request)
    (id : Nat) (hpos : 0 < id) (hid : (JsValue.string req.id).toNumber rt = .finite (id : ℚ)) :
    ((∃ w ∈ s.work_orders, w.id = id) →
        ∃ f : FullAggregate, Routes.getFull rt s req = ⟨200, .full f⟩
          ∧ f.work_order ∈ s.work_orders ∧ f.work_order.id = id ∧ f.listsOf s id)
    ∧ ((∃ w ∈ s.work_orders, w.id = id ∧ w.is_archived = false) →
        ∃ f : FullAggregate, Repo.getWorkOrderFull id s = some f
          ∧ f.work_order ∈ s.work_orders ∧ f.work_order.id = id
          ∧ f.work_order.is_archived = false ∧ f.listsOf s id)
    ∧ (id ≤ maxId →
        Ranged.getFull maxId rt s req = Routes.getFull rt s req
        ∧ Ranged.getWorkOrderFull maxId id s = .ok (Repo.getWorkOrderFull id s))
    ∧ (id ≤ maxId → (∀ w ∈ s.work_orders, w.id ≠ id) →
        (Ranged.getFull maxId rt s req).status = 404
        ∧ Ranged.getWorkOrderFull maxId id s = .ok none)
    ∧ (maxId < id →
        (Ranged.getFull maxId rt s req).status = 500
        ∧ Ranged.getWorkOrderFull maxId id s = .error { code := "22003" }) := by
  have hint := toInt_of_toNumber rt _ id hid
  have hold := getFull_of_store rt s req id hpos hid
  have hin : id ≤ maxId →
      Ranged.getFull maxId rt s req = Routes.getFull rt s req
      ∧ Ranged.getWorkOrderFull maxId id s = .ok (Repo.getWorkOrderFull id s) := by
    intro hle
    constructor
    · apply ranged_getFull_in
      rw [hint]
      simpa using hle
    · simp [Ranged.getWorkOrderFull, outOfRange_of_le maxId id hle]
  refine ⟨hold.1, hold.2.1, hin, ?_, ?_⟩
  · intro hle hmiss
    rw [(hin hle).1, (hin hle).2, (hold.2.2 hmiss).2]
    exact ⟨(hold.2.2 hmiss).1, rfl⟩
  · intro hlt
    have ho := outOfRange_of_lt maxId id hlt
    constructor
    · simp [Ranged.getFull, hint, badId_natCast id hpos, ho, internalError]
    · simp [Ranged.getWorkOrderFull, ho]

theorem getFull_returns_aggregate_witness :
    (∃ f : FullAggregate, Routes.getFull decimalRuntime sampleStore fullRequest = ⟨200, .full f⟩
      ∧ f.work_order.id = 1)
    ∧ (99 : Nat) ≤ integerMax
    ∧ (Ranged.getFull integerMax decimalRuntime sampleStore closedStatusRequest).status = 404
    ∧ Ranged.getWorkOrderFull integerMax 99 sampleStore = .ok none
    ∧ (Ranged.getFull integerMax decimalRuntime sampleStore hugeIdRequest).status = 500 :=
  have h1 := getFull_returns_aggregate integerMax decimalRuntime sampleStore fullRequest 1
    (by decide) (by decide!)
  have h2 := getFull_returns_aggregate integerMax decimalRuntime sampleStore
    closedStatusRequest 99 (by decide) (by decide!)
  have h3 := getFull_returns_aggregate integerMax decimalRuntime sampleStore
    hugeIdRequest 99999999999999999999 (by decide) (by decide!)
  ⟨(h1.1 (by decide)).imp fun _ hf => ⟨hf.1, hf.2.2.1⟩, by decide,
    (h2.2.2.2.1 (by decide) (by decide)).1, (h2.2.2.2.1 (by decide) (by decide)).2,
    (h3.2.2.2.2 (by decide)).1⟩

/-! ## Theorems: a null quantity in the mounted handlers -/

/-- C10, counterexample.  The request `POST /work-orders/1/work-items` with `qty: null`
supplies a `qty` that coerces to the number 0; the mounted handler treats `null` as an omitted
quantity, answers 201, inserts the item with `qty` 1 and appends an audit entry, where
`addWorkItem` of the controller answers 400. -/
theorem null_qty_work_item_inserted :
    nullQtyRequest.field "qty" = .null
    ∧ (nullQtyRequest.field "qty").toNumber decimalRuntime = .finite 0
    ∧ ((nullQtyRequest.field "qty").toNumber decimalRuntime).leZero = true
    ∧ (Routes.postWorkItem decimalRuntime strictSchema 20 sampleStore
        nullQtyRequest).response.status = 201
    ∧ (Routes.postWorkItem decimalRuntime strictSchema 20 sampleStore
        nullQtyRequest).store.work_items.map (fun i => (i.id, i.work_order_id, i.qty))
        = [(1, 1, 1), (2, 2, 2), (3, 1, 1)]
    ∧ (Routes.postWorkItem decimalRuntime strictSchema 20 sampleStore
        nullQtyRequest).store.audit_log.map (fun e => (e.entity_id, e.action))
        = [(1, "add_work_item")]
    ∧ (Controller.addWorkItem decimalRuntime strictSchema 20 sampleStore
        nullQtyRequest).response.status = 400 := by
  decide!

/-- C16, counterexample.  A `qty` of `null` is a supplied value that coerces to 0 and so breaks
`qty > 0`; both mounted item handlers take it for an omitted quantity and answer 201, inserting
an item with `qty` 1. -/
theorem null_qty_not_rejected :
    (JsValue.null).toNumber decimalRuntime = .finite 0
    ∧ (Routes.postWorkItem decimalRuntime laxSchema 11 createdStore
        nullQtyRequest).response.status = 201
    ∧ (Routes.postWorkItem decimalRuntime laxSchema 11 createdStore
        nullQtyRequest).store.work_items.map (fun i => (i.id, i.qty)) = [(1, 1)]
    ∧ (Routes.postMaterialItem decimalRuntime laxSchema 11 createdStore
        nullQtyRequest).response.status = 201
    ∧ (Routes.postMaterialItem decimalRuntime laxSchema 11 createdStore
        nullQtyRequest).store.material_items.map (fun i => (i.id, i.qty)) = [(1, 1)] := by
  decide!

/-! ## Theorems: defaults of an item request, with the accepted requests -/

theorem itemQty_of_undefined (rt : JsRuntime) (req : Request)
    (h : req.field "qty" = .undefined) : Routes.itemQty rt req = some 1 := by
  simp [Routes.itemQty, h, JsValue.isNullish]

theorem itemUnitPrice_of_undefined (rt : JsRuntime) (req : Request)
    (h1 : req.field "unit_price" = .undefined) (h2 : req.field "price" = .undefined) :
    Routes.itemUnitPrice rt req = some 0 := by
  simp [Routes.itemUnitPrice, h1, h2, JsValue.orElse, JsValue.isNullish]

theorem itemValid_of_guards (rt : JsRuntime) (req : Request) (id : Nat) (hpos : 0 < id)
    (hid : (JsValue.string req.id).toNumber rt = .finite (id : ℚ))
    (hname : Routes.itemName rt req ≠ "")
    (hq : Routes.badQty (Routes.itemQty rt req) = false)
    (hp : Routes.badPrice (Routes.itemUnitPrice rt req) = false) :
    Routes.itemValid rt req = true := by
  simp [Routes.itemValid, toInt_of_toNumber rt _ id hid, badId_natCast id hpos, hname, hq, hp]

theorem addWorkItem_accepts (rt : JsRuntime) (sch : Schema) (now : Nat) (s : Store)
    (req : Request) (id : Nat) (name : String) (a b : ℚ) (hpos : 0 < id)
    (hid : (JsValue.string req.id).toNumber rt = .finite (id : ℚ))
    (hname : req.field "name" = .string name) (htrim : jsTrim name ≠ "")
    (hq : (if req.field "qty" = JsValue.undefined then JsNumber.finite 1
      else (req.field "qty").toNumber rt) = .finite a) (ha : 0 < a)
    (hp : (if req.field "unit_price" = JsValue.undefined then JsNumber.finite 0
      else (req.field "unit_price").toNumber rt) = .finite b) (hb : 0 ≤ b)
    (hw : ∃ w ∈ s.work_orders, w.id = id ∧ w.is_archived = false) :
    (Controller.addWorkItem rt sch now s req).response.status = 201 := by
  obtain ⟨w, hwm, hwid, hwa⟩ := hw
  obtain ⟨w0, rest, hf⟩ := exists_cons_filter s.work_orders
    (fun w => decide (w.id = id) && !w.is_archived) ⟨w, hwm, by simp [hwid, hwa]⟩
  have hfk : Db.fkViolated sch id s = false := fkViolated_of_exists sch id s ⟨w, hwm, hwid⟩
  unfold Controller.addWorkItem
  simp only []
  rw [hq, hp]
  simp [hid, invalidId_natCast id hpos, idOf_natCast, hname, htrim, JsNumber.gtZero,
    JsNumber.geZero, ha, hb, Repo.getWorkOrderById, hf, Repo.addWorkItem, Db.insertWorkItem, hfk]

theorem addMaterialItem_accepts (rt : JsRuntime) (sch : Schema) (now : Nat) (s : Store)
    (req : Request) (id : Nat) (name : String) (a b : ℚ) (hpos : 0 < id)
    (hid : (JsValue.string req.id).toNumber rt = .finite (id : ℚ))
    (hname : req.field "name" = .string name) (htrim : jsTrim name ≠ "")
    (hq : (if req.field "qty" = JsValue.undefined then JsNumber.finite 1
      else (req.field "qty").toNumber rt) = .finite a) (ha : 0 < a)
    (hp : (if req.field "unit_price" = JsValue.undefined then JsNumber.finite 0
      else (req.field "unit_price").toNumber rt) = .finite b) (hb : 0 ≤ b)
    (hmid : (req.field "material_id").isNullish = true)
    (hw : ∃ w ∈ s.work_orders, w.id = id ∧ w.is_archived = false) :
    (Controller.addMaterialItem rt sch now s req).response.status = 201 := by
  obtain ⟨w, hwm, hwid, hwa⟩ := hw
  obtain ⟨w0, rest, hf⟩ := exists_cons_filter s.work_orders
    (fun w => decide (w.id = id) && !w.is_archived) ⟨w, hwm, by simp [hwid, hwa]⟩
  have hfk : Db.fkViolated sch id s = false := fkViolated_of_exists sch id s ⟨w, hwm, hwid⟩
  unfold Controller.addMaterialItem
  simp only []
  rw [hq, hp]
  simp [hid, invalidId_natCast id hpos, idOf_natCast, hname, htrim, JsNumber.gtZero,
    JsNumber.geZero, ha, hb, hmid, Repo.getWorkOrderById, hf, Repo.addMaterialItem,
    Db.insertMaterialItem, hfk]

/-- C18. An add-item request without a `qty` field is accepted and the inserted item has `qty`
1, and a request without a `unit_price` field (for the mounted handlers: without `unit_price`
and without `price`) is accepted and the inserted item has `unit_price` 0: in the mounted
`POST .../work-items` and `POST .../material-items` handlers and in `addWorkItem` and
`addMaterialItem` of the controller.  The first four parts give the row of every 201 answer:
it is the row of the response, it is appended to its table, and it carries the defaults.  The
last two give the 201 itself, for a positive integer id and a name that is not empty: in the
mounted handlers when the store accepts the reference to the work order and the other field
passes its guard; in the controller when a work order with the id is not archived and the
other field is omitted or a finite number within its sign (for `addMaterialItem`, with no
`material_id`). -/
theorem omitted_qty_and_price_default (rt : JsRuntime) (sch : Schema) (now : Nat) (s : Store)
    (req : Request) :
    ((Routes.postWorkItem rt sch now s req).response.status = 201 →
        ∃ row : WorkItem, (Routes.postWorkItem rt sch now s req).response.body = .workItem row
          ∧ (Routes.postWorkItem rt sch now s req).store.work_items = s.work_items ++ [row]
          ∧ (req.field "qty" = .undefined → row.qty = 1)
          ∧ (req.field "unit_price" = .undefined → req.field "price" = .undefined →
              row.unit_price = 0))
    ∧ ((Routes.postMaterialItem rt sch now s req).response.status = 201 →
        ∃ row : MaterialItem,
          (Routes.postMaterialItem rt sch now s req).response.body = .materialItem row
          ∧ (Routes.postMaterialItem rt sch now s req).store.material_items
              = s.material_items ++ [row]
          ∧ (req.field "qty" = .undefined → row.qty = 1)
          ∧ (req.field "unit_price" = .undefined → req.field "price" = .undefined →
              row.unit_price = 0))
    ∧ ((Controller.addWorkItem rt sch now s req).response.status = 201 →
        ∃ (item : WorkItem) (totals : Option TotalsRow),
          (Controller.addWorkItem rt sch now s req).response.body = .workItemTotals item totals
          ∧ (Controller.addWorkItem rt sch now s req).store.work_items = s.work_items ++ [item]
          ∧ (req.field "qty" = .undefined → item.qty = 1)
          ∧ (req.field "unit_price" = .undefined → item.unit_price = 0))
    ∧ ((Controller.addMaterialItem rt sch now s req).response.status = 201 →
        ∃ (item : MaterialItem) (totals : Option TotalsRow),
          (Controller.addMaterialItem rt sch now s req).response.body
            = .materialItemTotals item totals
          ∧ (Controller.addMaterialItem rt sch now s req).store.material_items
              = s.material_items ++ [item]
          ∧ (req.field "qty" = .undefined → item.qty = 1)
          ∧ (req.field "unit_price" = .undefined → item.unit_price = 0))
    ∧ (∀ id : Nat, 0 < id → (JsValue.string req.id).toNumber rt = .finite (id : ℚ) →
        Routes.itemName rt req ≠ "" → Db.fkViolated sch id s = false →
        (req.field "qty" = .undefined →
          Routes.badPrice (Routes.itemUnitPrice rt req) = false →
            (Routes.postWorkItem rt sch now s req).response.status = 201
            ∧ (Routes.postMaterialItem rt sch now s req).response.status = 201)
        ∧ (req.field "unit_price" = .undefined → req.field "price" = .undefined →
          Routes.badQty (Routes.itemQty rt req) = false →
            (Routes.postWorkItem rt sch now s req).response.status = 201
            ∧ (Routes.postMaterialItem rt sch now s req).response.status = 201))
    ∧ (∀ (id : Nat) (name : String), 0 < id →
        (JsValue.string req.id).toNumber rt = .finite (id : ℚ) →
        req.field "name" = .string name → jsTrim name ≠ "" →
        (∃ w ∈ s.work_orders, w.id = id ∧ w.is_archived = false) →
        (req.field "qty" = .undefined →
          (req.field "unit_price" = .undefined
            ∨ ∃ b : ℚ, (req.field "unit_price").toNumber rt = .finite b ∧ 0 ≤ b) →
            (Controller.addWorkItem rt sch now s req).response.status = 201
            ∧ ((req.field "material_id").isNullish = true →
                (Controller.addMaterialItem rt sch now s req).response.status = 201))
        ∧ (req.field "unit_price" = .undefined →
          (req.field "qty" = .undefined
            ∨ ∃ a : ℚ, (req.field "qty").toNumber rt = .finite a ∧ 0 < a) →
            (Controller.addWorkItem rt sch now s req).response.status = 201
            ∧ ((req.field "material_id").isNullish = true →
                (Controller.addMaterialItem rt sch now s req).response.status = 201))) := by
  have hold := defaults_of_201 rt sch now s req
  refine ⟨hold.1, hold.2.1, hold.2.2.1, hold.2.2.2, ?_, ?_⟩
  · intro id hpos hid hname hfk
    have hint := toInt_of_toNumber rt _ id hid
    have key : Routes.badQty (Routes.itemQty rt req) = false →
        Routes.badPrice (Routes.itemUnitPrice rt req) = false →
        (Routes.postWorkItem rt sch now s req).response.status = 201
        ∧ (Routes.postMaterialItem rt sch now s req).response.status = 201 := by
      intro hq hp
      have hv := itemValid_of_guards rt req id hpos hid hname hq hp
      exact ⟨(postWorkItem_status rt sch now s req id hint hfk).mpr hv,
        (postMaterialItem_status rt sch now s req id hint hfk).mpr hv⟩
    constructor
    · intro hq hp
      apply key _ hp
      rw [itemQty_of_undefined rt req hq]
      decide
    · intro hu hp hq
      apply key hq
      rw [itemUnitPrice_of_undefined rt req hu hp]
      decide
  · intro id name hpos hid hname htrim hw
    have key : ∀ a b : ℚ,
        (if req.field "qty" = JsValue.undefined then JsNumber.finite 1
          else (req.field "qty").toNumber rt) = .finite a → 0 < a →
        (if req.field "unit_price" = JsValue.undefined then JsNumber.finite 0
          else (req.field "unit_price").toNumber rt) = .finite b → 0 ≤ b →
        (Controller.addWorkItem rt sch now s req).response.status = 201
        ∧ ((req.field "material_id").isNullish = true →
            (Controller.addMaterialItem rt sch now s req).response.status = 201) := by
      intro a b hq ha hp hb
      exact ⟨addWorkItem_accepts rt sch now s req id name a b hpos hid hname htrim hq ha hp hb
          hw,
        fun hmid => addMaterialItem_accepts rt sch now s req id name a b hpos hid hname htrim
          hq ha hp hb hmid hw⟩
    constructor
    · intro hq hp
      rcases hp with hp | ⟨b, hp, hb⟩
      · exact key 1 0 (by simp [hq]) (by norm_num) (by simp [hp]) (le_refl _)
      · by_cases hu : req.field "unit_price" = .undefined
        · exact key 1 0 (by simp [hq]) (by norm_num) (by simp [hu]) (le_refl _)
        · exact key 1 b (by simp [hq]) (by norm_num) (by simp [hu, hp]) hb
    · intro hp hq
      rcases hq with hq | ⟨a, hq, ha⟩
      · exact key 1 0 (by simp [hq]) (by norm_num) (by simp [hp]) (le_refl _)
      · by_cases hu : req.field "qty" = .undefined
        · exact key 1 0 (by simp [hu]) (by norm_num) (by simp [hp]) (le_refl _)
        · exact key a 0 (by simp [hu, hq]) ha (by simp [hp]) (le_refl _)

theorem omitted_qty_and_price_default_witness :
    ((Routes.postWorkItem decimalRuntime strictSchema 20 sampleStore
        nameOnlyRequest).response.status = 201
      ∧ ∃ row : WorkItem,
        (Routes.postWorkItem decimalRuntime strictSchema 20 sampleStore
          nameOnlyRequest).store.work_items = sampleStore.work_items ++ [row]
        ∧ row.qty = 1 ∧ row.unit_price = 0)
    ∧ ((Routes.postMaterialItem decimalRuntime strictSchema 20 sampleStore
        nameOnlyRequest).response.status = 201
      ∧ ∃ row : MaterialItem,
        (Routes.postMaterialItem decimalRuntime strictSchema 20 sampleStore
          nameOnlyRequest).store.material_items = sampleStore.material_items ++ [row]
        ∧ row.qty = 1 ∧ row.unit_price = 0)
    ∧ ((Controller.addWorkItem decimalRuntime strictSchema 20 sampleStore
        nameOnlyRequest).response.status = 201
      ∧ ∃ item : WorkItem,
        (Controller.addWorkItem decimalRuntime strictSchema 20 sampleStore
          nameOnlyRequest).store.work_items = sampleStore.work_items ++ [item]
        ∧ item.qty = 1 ∧ item.unit_price = 0)
    ∧ ((Controller.addMaterialItem decimalRuntime strictSchema 20 sampleStore
        nameOnlyRequest).response.status = 201
      ∧ ∃ item : MaterialItem,
        (Controller.addMaterialItem decimalRuntime strictSchema 20 sampleStore
          nameOnlyRequest).store.material_items = sampleStore.material_items ++ [item]
        ∧ item.qty = 1 ∧ item.unit_price = 0) :=
  have h := omitted_qty_and_price_default decimalRuntime strictSchema 20 sampleStore
    nameOnlyRequest
  have m := (h.2.2.2.2.1 1 (by decide) (by decide!) (by decide!) (by decide!)).1 rfl
    (by decide!)
  have c := (h.2.2.2.2.2 1 "Диагностика" (by decide) (by decide!) rfl (by decide!)
    (by decide!)).1 rfl (Or.inl rfl)
  ⟨⟨m.1, (h.1 m.1).imp fun _ hr => ⟨hr.2.1, hr.2.2.1 rfl, hr.2.2.2 rfl rfl⟩⟩,
    ⟨m.2, (h.2.1 m.2).imp fun _ hr => ⟨hr.2.1, hr.2.2.1 rfl, hr.2.2.2 rfl rfl⟩⟩,
    ⟨c.1, (h.2.2.1 c.1).elim fun item hi =>
      hi.elim fun _ hr => ⟨item, hr.2.1, hr.2.2.1 rfl, hr.2.2.2 rfl⟩⟩,
    ⟨c.2 rfl, (h.2.2.2.1 (c.2 rfl)).elim fun item hi =>
      hi.elim fun _ hr => ⟨item, hr.2.1, hr.2.2.1 rfl, hr.2.2.2 rfl⟩⟩⟩

/-! ## Theorems: a closed or cancelled work order is overwritten -/

theorem updateStatus_of_listed (sch : Schema) (now : Nat) (sel : WorkOrder → Bool)
    (st : String) (s : Store) (h : st ∈ statusValues) :
    Db.updateStatus sch now sel st s
      = ({ s with
            work_orders := s.work_orders.map fun w =>
              if sel w then { w with status := st, updated_at := now } else w },
          .ok ((s.work_orders.filter sel).map
            fun w => { w with status := st, updated_at := now })) := by
  unfold Db.updateStatus
  simp [h]

theorem faulty_patchWorkOrderStatus_true (rt : JsRuntime) (sch : Schema) (now : Nat)
    (s : Store) (req : Request) :
    Faulty.patchWorkOrderStatus true rt sch now s req
      = Controller.patchWorkOrderStatus rt sch now s req := by
  unfold Faulty.patchWorkOrderStatus Controller.patchWorkOrderStatus
  simp only [Db.insertAuditOrRaise, if_true, Repo.createAudit]

theorem faulty_patchStatus_listed (auditOk : Bool) (rt : JsRuntime) (sch : Schema) (now : Nat)
    (s : Store) (req : Request) (id : Nat) (st : String) (w : WorkOrder) (hpos : 0 < id)
    (hid : (JsValue.string req.id).toNumber rt = .finite (id : ℚ))
    (hst : req.field "status" = .string st) (hrec : st ∈ Controller.WORK_ORDER_STATUSES)
    (hw : w ∈ s.work_orders) (hwid : w.id = id) :
    (Faulty.patchStatus auditOk rt sch now s req).store.work_orders
        = s.work_orders.map (fun w =>
            if decide (w.id = id) then { w with status := st, updated_at := now } else w)
    ∧ (Faulty.patchStatus auditOk rt sch now s req).response.status
        = if auditOk then 200 else 500 := by
  obtain ⟨w0, rest, hf⟩ := exists_cons_filter s.work_orders (fun w => decide (w.id = id))
    ⟨w, hw, by simp [hwid]⟩
  have hne : st ≠ "" := by
    intro h; subst h; revert hrec; decide
  unfold Faulty.patchStatus
  simp only [toInt_of_toNumber rt _ id hid, badId_natCast id hpos, hst, JsValue.truthy,
    JsValue.pgParam, Option.getD_some, Int.toNat_ofNat,
    updateStatus_of_listed sch now _ st s hrec, hf]
  cases auditOk <;> simp [hne, Db.insertAuditOrRaise, Db.insertAudit, internalError]

theorem faulty_patchWorkOrderStatus_listed (auditOk : Bool) (rt : JsRuntime) (sch : Schema)
    (now : Nat) (s : Store) (req : Request) (id : Nat) (st : String) (w : WorkOrder)
    (hpos : 0 < id) (hid : (JsValue.string req.id).toNumber rt = .finite (id : ℚ))
    (hst : req.field "status" = .string st) (hrec : st ∈ Controller.WORK_ORDER_STATUSES)
    (hw : w ∈ s.work_orders) (hwid : w.id = id) (harch : w.is_archived = false) :
    (Faulty.patchWorkOrderStatus auditOk rt sch now s req).store.work_orders
        = s.work_orders.map (fun w =>
            if (decide (w.id = id) && !w.is_archived) then
              { w with status := st, updated_at := now }
            else w)
    ∧ (Faulty.patchWorkOrderStatus auditOk rt sch now s req).response.status
        = if auditOk then 200 else 500 := by
  obtain ⟨w0, rest, hf⟩ := exists_cons_filter s.work_orders
    (fun w => decide (w.id = id) && !w.is_archived) ⟨w, hw, by simp [hwid, harch]⟩
  unfold Faulty.patchWorkOrderStatus
  simp only [hid, invalidId_natCast id hpos, idOf_natCast, hst, Repo.updateWorkOrderStatus,
    updateStatus_of_listed sch now _ st s hrec, hf]
  cases auditOk <;> simp [hrec, Db.insertAuditOrRaise, Db.insertAudit, internalError]

/-- C21, amended.  Closed and cancelled are not terminal.  A set-status call that names, by a
positive integer id, a work order whose stored status is closed or cancelled and carries a
recognised status writes that status: afterwards every work order with the id (controller:
every one that is not archived) has the requested status, and there is such a work order;
when the requested status is itself neither closed nor cancelled, none of them keeps the
status the work order had.  The write stands whether the audit statement that follows succeeds or raises; the call is
answered 200 when it succeeds, which is the handler as mounted, and 500 when it raises. -/
theorem closed_status_overwritten (rt : JsRuntime) (sch : Schema) (now : Nat) (s : Store)
    (req : Request) (id : Nat) (st : String) (w : WorkOrder) (hpos : 0 < id)
    (hid : (JsValue.string req.id).toNumber rt = .finite (id : ℚ))
    (hst : req.field "status" = .string st) (hrec : st ∈ Controller.WORK_ORDER_STATUSES)
    (hw : w ∈ s.work_orders) (hwid : w.id = id)
    (hterm : w.status = "closed" ∨ w.status = "cancelled") :
    (∀ auditOk : Bool,
        (∃ w1 ∈ (Faulty.patchStatus auditOk rt sch now s req).store.work_orders,
            w1.id = id ∧ w1.status = st)
        ∧ (∀ w1 ∈ (Faulty.patchStatus auditOk rt sch now s req).store.work_orders,
            w1.id = id → w1.status = st)
        ∧ (st ≠ "closed" → st ≠ "cancelled" →
            ∀ w1 ∈ (Faulty.patchStatus auditOk rt sch now s req).store.work_orders,
              w1.id = id → w1.status ≠ w.status)
        ∧ (Faulty.patchStatus auditOk rt sch now s req).response.status
            = if auditOk then 200 else 500)
    ∧ Faulty.patchStatus true rt sch now s req = Routes.patchStatus rt sch now s req
    ∧ (w.is_archived = false → ∀ auditOk : Bool,
        (∃ w1 ∈ (Faulty.patchWorkOrderStatus auditOk rt sch now s req).store.work_orders,
            w1.id = id ∧ w1.is_archived = false ∧ w1.status = st)
        ∧ (∀ w1 ∈ (Faulty.patchWorkOrderStatus auditOk rt sch now s req).store.work_orders,
            w1.id = id → w1.is_archived = false → w1.status = st)
        ∧ (st ≠ "closed" → st ≠ "cancelled" →
            ∀ w1 ∈ (Faulty.patchWorkOrderStatus auditOk rt sch now s req).store.work_orders,
              w1.id = id → w1.is_archived = false → w1.status ≠ w.status)
        ∧ (Faulty.patchWorkOrderStatus auditOk rt sch now s req).response.status
            = if auditOk then 200 else 500)
    ∧ Faulty.patchWorkOrderStatus true rt sch now s req
        = Controller.patchWorkOrderStatus rt sch now s req := by
  refine ⟨?_, faulty_patchStatus_true rt sch now s req, ?_,
    faulty_patchWorkOrderStatus_true rt sch now s req⟩
  · intro auditOk
    obtain ⟨h1, h2⟩ := faulty_patchStatus_listed auditOk rt sch now s req id st w hpos hid hst
      hrec hw hwid
    rw [h1]
    have hall : ∀ w1 ∈ s.work_orders.map (fun w =>
        if decide (w.id = id) then { w with status := st, updated_at := now } else w),
        w1.id = id → w1.status = st := by
      intro w1 hw1 hid1
      obtain ⟨w0, _, h0⟩ := List.mem_map.mp hw1
      by_cases hc : w0.id = id
      · simp only [hc, decide_True, if_true] at h0
        rw [← h0]
      · simp only [hc, decide_False] at h0
        rw [← h0] at hid1
        exact absurd hid1 hc
    refine ⟨⟨{ w with status := st, updated_at := now }, ?_, hwid, rfl⟩, hall, ?_, h2⟩
    · exact List.mem_map.mpr ⟨w, hw, by simp [hwid]⟩
    · intro hc1 hc2 w1 hw1 hid1
      rw [hall w1 hw1 hid1]
      rcases hterm with ht | ht <;> rw [ht] <;> assumption
  · intro harch auditOk
    obtain ⟨h1, h2⟩ := faulty_patchWorkOrderStatus_listed auditOk rt sch now s req id st w hpos
      hid hst hrec hw hwid harch
    rw [h1]
    have hall : ∀ w1 ∈ s.work_orders.map (fun w =>
        if (decide (w.id = id) && !w.is_archived) then
          { w with status := st, updated_at := now }
        else w),
        w1.id = id → w1.is_archived = false → w1.status = st := by
      intro w1 hw1 hid1 ha1
      obtain ⟨w0, _, h0⟩ := List.mem_map.mp hw1
      by_cases hc : (decide (w0.id = id) && !w0.is_archived) = true
      · simp only [hc, if_true] at h0
        rw [← h0]
      · rw [if_neg hc] at h0
        subst h0
        exact absurd (by simp [hid1, ha1]) hc
    refine ⟨⟨{ w with status := st, updated_at := now }, ?_, hwid, harch, rfl⟩, hall, ?_, h2⟩
    · exact List.mem_map.mpr ⟨w, hw, by simp [hwid, harch]⟩
    · intro hc1 hc2 w1 hw1 hid1 ha1
      rw [hall w1 hw1 hid1 ha1]
      rcases hterm with ht | ht <;> rw [ht] <;> assumption

theorem closed_status_overwritten_witness :
    (∀ auditOk : Bool,
        (Faulty.patchStatus auditOk decimalRuntime strictSchema 20 sampleStore
            reopenRequest).store.work_orders.map (fun w => (w.id, w.status))
          = [(1, "created"), (2, "created")]
        ∧ (Faulty.patchWorkOrderStatus auditOk decimalRuntime strictSchema 20 sampleStore
            reopenRequest).store.work_orders.map (fun w => (w.id, w.status))
          = [(1, "created"), (2, "created")])
    ∧ (∀ w1 ∈ (Routes.patchStatus decimalRuntime strictSchema 20 sampleStore
          reopenRequest).store.work_orders, w1.id = 2 → w1.status = "created")
    ∧ (Routes.patchStatus decimalRuntime strictSchema 20 sampleStore
          reopenRequest).response.status = 200
    ∧ (Faulty.patchStatus false decimalRuntime strictSchema 20 sampleStore
          reopenRequest).response.status = 500
    ∧ (Controller.patchWorkOrderStatus decimalRuntime strictSchema 20 sampleStore
          reopenRequest).response.status = 200
    ∧ (Faulty.patchWorkOrderStatus false decimalRuntime strictSchema 20 sampleStore
          reopenRequest).response.status = 500 :=
  have h := closed_status_overwritten decimalRuntime strictSchema 20 sampleStore reopenRequest 2
    "created"
    { id := 2, booking_id := 43, client_id := 2, car_id := 8, description := none,
      status := "closed", total_amount := 300, paid_amount := 40, is_archived := false,
      created_at := 2, updated_at := 2 }
    (by decide) (by decide!) rfl (by decide) (by decide!) rfl (Or.inl rfl)
  ⟨by decide!, h.2.1 ▸ (h.1 true).2.1, h.2.1 ▸ (h.1 true).2.2.2, (h.1 false).2.2.2,
    h.2.2.2 ▸ (h.2.2.1 rfl true).2.2.2, (h.2.2.1 rfl false).2.2.2⟩

end Autoservice
